import Mathlib

/-!
# ArduinoISP: shallow embedding and verification

This file embeds the STK500-style AVRISP sketch of this repository in Lean 4
and proves/refutes the frozen claims about it.

`src/ArduinoISP/ArduinoISP.cpp` contains two near-identical revisions of the
sketch, separated by a document marker:

* revision 1 (file lines 1-491), embedded below in namespace `V1`:
  `bool _error`, `writeFlash(address, length)` with a length bounds check and a
  single page commit, `readFlashPage(address, length)` operating on a local
  copy of the address;
* revision 2 (file lines 493-1069), embedded in namespace `V2`:
  `uint8_t _error`, `writeFlashPages` with per-page commit logic and the
  session `_address` auto-increment, no flash length bounds check.

The external collaborators are modelled as follows:

* the blocking serial byte source is a list of pending input bytes
  (`Eff.input`); `getch` takes the head (an exhausted list yields 0, which no
  theorem below relies on);
* `Serial.write` appends the low byte to `Eff.output`;
* the SPI transaction engine records every 4-byte transaction in `Eff.txns`
  and answers from a perfect target-device model (`devStep`, modelled from the
  spec for the round-trip claim): a load-flash transaction stores its data
  byte at the byte address it names, a read-flash transaction returns the byte
  stored at the byte address it names, and every other opcode is a no-op
  answering 0;
* GPIO, LEDs and delays have no protocol-visible effect and are omitted.

Machine integers are embedded as `Nat` with explicit truncation (`% 256` at
every `uint8_t` boundary, `% 65536` at every `uint16_t` boundary).  `while`
loops are embedded structurally with a fuel argument that is always given
sufficiently large by the caller (fuel `length` for loops advancing at least
one byte per iteration); the loop guard from the source is kept verbatim
inside the body.
-/

set_option maxRecDepth 4000

namespace ArduinoISP

/-- One 4-byte SPI transaction as sent on the wire. -/
abbrev Txn : Type := Nat × Nat × Nat × Nat

/-- Pointwise update of a memory/buffer modelled as a function. -/
def updMem (m : Nat → Nat) (k v : Nat) : Nat → Nat :=
  fun i => if i = k then v else m i

/-- External-world state: pending host input bytes, bytes written back to the
host, the SPI transaction log, and the target device's byte-addressed memory
(perfect device model). -/
structure Eff where
  input : List Nat
  output : List Nat
  txns : List Txn
  mem : Nat → Nat

/-- Fresh external world with a given pending input stream. -/
def mkEff (bs : List Nat) : Eff :=
  { input := bs, output := [], txns := [], mem := fun _ => 0 }

/-- `getch()`: blocking read of one byte from the host. -/
def getch (e : Eff) : Nat × Eff :=
  match e.input with
  | [] => (0, e)
  | b :: rest => (b % 256, { e with input := rest })

/-- `Serial.write(b)`: send one byte to the host. -/
def swrite (b : Nat) (e : Eff) : Eff :=
  { e with output := e.output ++ [b % 256] }

/-- Modelled from the spec: the perfect target-device model used by the
round-trip claim.  `0x40`/`0x48` (load flash low/high at word address
`b*256+c`) store the data byte at byte address `2*addr` / `2*addr + 1`;
`0x20`/`0x28` (read flash low/high) return the byte stored at that byte
address; every other transaction (commit, programming enable, EEPROM,
signature) leaves memory unchanged and answers 0. -/
def devStep (m : Nat → Nat) (a b c d : Nat) : (Nat → Nat) × Nat :=
  let addr := b * 256 + c
  if a = 0x40 then (updMem m (2 * addr) d, 0)
  else if a = 0x48 then (updMem m (2 * addr + 1) d, 0)
  else if a = 0x20 then (m, m (2 * addr))
  else if a = 0x28 then (m, m (2 * addr + 1))
  else (m, 0)

/-- `spiTransfer(a, b, c, d)`: issue one 4-byte SPI transaction, returning the
target's answer to the 4th byte. -/
def spiTransfer (a b c d : Nat) (e : Eff) : Nat × Eff :=
  let r := devStep e.mem a b c d
  (r.2, { e with txns := e.txns ++ [(a, b, c, d)], mem := r.1 })

/-- The 3-argument `spiTransfer(a, b16, c)` overload of revision 1: the 16-bit
second argument is split into `highByte`/`lowByte`. -/
def spiTransfer16 (a b c : Nat) (e : Eff) : Nat × Eff :=
  spiTransfer a ((b >>> 8) &&& 0xFF) (b &&& 0xFF) c e

/-- The negotiated device parameter record (`struct param`). -/
structure Parameter where
  signature : Nat
  revision : Nat
  progtype : Nat
  parmode : Nat
  polling : Nat
  selftimed : Nat
  lock_bytes : Nat
  fuse_bytes : Nat
  flash_poll : Nat
  eeprom_poll : Nat
  flash_pagesize : Nat
  eeprom_size : Nat
  flash_size : Nat
deriving DecidableEq

/-- Session state owned by the dispatcher: sticky error indicator (of type
`ε`: `Bool` in revision 1, a `uint8_t` counter in revision 2), programming
flag, session word address, negotiated parameters, and the 256-byte transfer
buffer `_buff`. -/
structure St (ε : Type) where
  error : ε
  programming : Bool
  address : Nat
  param : Parameter
  buff : Nat → Nat

/-- `fill(n)` body: read `n` bytes into `_buff` starting at index `x`. -/
def fillAux {ε} (s : St ε) (e : Eff) (x : Nat) : Nat → St ε × Eff
  | 0 => (s, e)
  | m + 1 =>
    let g := getch e
    fillAux { s with buff := updMem s.buff x g.1 } g.2 (x + 1) m

/-- `fill(uint8_t n)`: stage `n` bytes from the host into `_buff[0..n-1]`.
The parameter is a `uint8_t`, so callers passing a 16-bit length truncate it
to `n % 256`. -/
def fill {ε} (n : Nat) (s : St ε) (e : Eff) : St ε × Eff :=
  fillAux s e 0 (n % 256)

/-- Arduino `makeWord(h, l)` on two `uint8_t` arguments. -/
def makeWord (h l : Nat) : Nat :=
  256 * (h % 256) + (l % 256)

/-- `setParameters()`: parse the 20-byte block staged in `_buff` into the
device parameter record. -/
def setParameters {ε} (s : St ε) : St ε :=
  { s with
    param :=
      { signature := s.buff 0
        revision := s.buff 1
        progtype := s.buff 2
        parmode := s.buff 3
        polling := s.buff 4
        selftimed := s.buff 5
        lock_bytes := s.buff 6
        fuse_bytes := s.buff 7
        flash_poll := s.buff 8
        eeprom_poll := makeWord (s.buff 10) (s.buff 11)
        flash_pagesize := makeWord (s.buff 12) (s.buff 13)
        eeprom_size := makeWord (s.buff 14) (s.buff 15)
        flash_size :=
          ((s.buff 16 % 256) * 0x01000000 + (s.buff 17 % 256) * 0x00010000 +
              (s.buff 18 % 256) * 0x00000100 + (s.buff 19 % 256)) % 4294967296 } }

/-- `beginProgramming()`: device-enable SPI transaction, programming flag on
(reset/clock GPIO and the delay are external effects without protocol-visible
state). -/
def beginProgramming {ε} (s : St ε) (e : Eff) : St ε × Eff :=
  let r := spiTransfer 0xAC 0x53 0x00 0x00 e
  ({ s with programming := true }, r.2)

/-- `endProgramming()`: release the target, programming flag off. -/
def endProgramming {ε} (s : St ε) : St ε :=
  { s with programming := false }

/-! ## Revision 2 (file lines 493-1069): `uint8_t _error`, paged flash writes -/

namespace V2

/-- Revision 2 session state: `uint8_t _error`. -/
abbrev St2 : Type := St Nat

/-- `_error++` on the `uint8_t` error counter. -/
def bumpError (s : St2) : St2 :=
  { s with error := (s.error + 1) % 256 }

/-- `reply(has_byte, val, send_ok)` (revision 2): consume the terminator
position byte; on `CRC_EOP` send `INSYNC`, the optional value byte and the
optional `OK`; otherwise `_error++` and send `NOSYNC`. -/
def reply (has_byte : Bool) (val : Nat) (send_ok : Bool) (s : St2) (e : Eff) :
    St2 × Eff :=
  let g := getch e
  if g.1 = 0x20 then
    let e1 := swrite 0x14 g.2
    let e2 := if has_byte then swrite val e1 else e1
    let e3 := if send_ok then swrite 0x10 e2 else e2
    (s, e3)
  else
    (bumpError s, swrite 0x15 g.2)

/-- `replyVersion(c)`: answer a parameter-selector byte. -/
def replyVersion (c : Nat) (s : St2) (e : Eff) : St2 × Eff :=
  if c = 0x80 then reply true 2 true s e
  else if c = 0x81 then reply true 1 true s e
  else if c = 0x82 then reply true 18 true s e
  else if c = 0x93 then reply true 83 true s e
  else reply true 0 true s e

/-- `universal()`: stage 4 bytes, issue them as one SPI transaction, reply
with the answer byte. -/
def universal (s : St2) (e : Eff) : St2 × Eff :=
  let f := fill 4 s e
  let r := spiTransfer (f.1.buff 0) (f.1.buff 1) (f.1.buff 2) (f.1.buff 3) f.2
  reply true r.1 true f.1 r.2

/-- `flash(hilo, addr, data)`: load flash low (`hilo = 0`) or high
(`hilo = 1`) byte at word address `addr`. -/
def flash (hilo addr data : Nat) (e : Eff) : Eff :=
  (spiTransfer (0x40 + 8 * hilo) ((addr >>> 8) &&& 0xFF) (addr &&& 0xFF) data e).2

/-- `commit(addr)`: commit the flash page at word address `addr`
(opcode `0x4C`). -/
def commit (addr : Nat) (e : Eff) : Eff :=
  (spiTransfer 0x4C ((addr >>> 8) &&& 0xFF) (addr &&& 0xFF) 0 e).2

/-- `getPage(addr)` (revision 2): mask the word address down to its page
start for the negotiated page sizes; any other page size leaves the address
unchanged. -/
def getPage (pagesize addr : Nat) : Nat :=
  if pagesize = 32 then addr &&& 0xFFF0
  else if pagesize = 64 then addr &&& 0xFFE0
  else if pagesize = 128 then addr &&& 0xFFC0
  else if pagesize = 256 then addr &&& 0xFF80
  else addr

/-- The `while (x < length)` loop of `writeFlashPages`: on a page change
commit the completed page, then load the next word from `_buff` and advance
`_address`.  Structural recursion on `fuel`; callers pass `fuel = length`,
which bounds the iteration count. -/
def wfpLoop (fuel : Nat) (length page x : Nat) (s : St2) (e : Eff) :
    St2 × Eff :=
  match fuel with
  | 0 => (s, commit page e)
  | f + 1 =>
    if x < length then
      let pg := getPage s.param.flash_pagesize s.address
      let e1 := if page = pg then e else commit page e
      let e2 := flash 0 s.address (s.buff x) e1
      let e3 := flash 1 s.address (s.buff (x + 1)) e2
      wfpLoop f length pg (x + 2) { s with address := (s.address + 1) % 65536 } e3
    else (s, commit page e)

/-- `writeFlashPages(length)`: write the staged words to flash page by page,
committing each page when the address leaves it and the last page at the end.
Returns `STK_OK`. -/
def writeFlashPages (length : Nat) (s : St2) (e : Eff) : (St2 × Eff) × Nat :=
  (wfpLoop length length (getPage s.param.flash_pagesize s.address) 0 s e, 0x10)

/-- `writeFlash(length)` (revision 2): stage the payload (note the `uint8_t`
truncation of `length` in `fill`), then validate the terminator and either run
`writeFlashPages` between `INSYNC` and its status, or report `NOSYNC`. -/
def writeFlash (length : Nat) (s : St2) (e : Eff) : St2 × Eff :=
  let f := fill length s e
  let g := getch f.2
  if g.1 = 0x20 then
    let e1 := swrite 0x14 g.2
    let r := writeFlashPages length f.1 e1
    (r.1.1, swrite r.2 r.1.2)
  else
    (bumpError f.1, swrite 0x15 g.2)

/-- The write loop of `writeEepromChunk`: one `0xC0` transaction per staged
byte (the settling `delay(9)` is external). -/
def wecLoop (fuel : Nat) (start length x : Nat) (s : St2) (e : Eff) : Eff :=
  match fuel with
  | 0 => e
  | f + 1 =>
    if x < length then
      let addr := (start + x) % 65536
      let r := spiTransfer 0xC0 ((addr >>> 8) &&& 0xFF) (addr &&& 0xFF) (s.buff x) e
      wecLoop f start length (x + 1) s r.2
    else e

/-- `writeEepromChunk(start, length)`: stage `length` bytes and write them
byte by byte starting at byte address `start`.  Returns `STK_OK`. -/
def writeEepromChunk (start length : Nat) (s : St2) (e : Eff) :
    (St2 × Eff) × Nat :=
  let f := fill length s e
  ((f.1, wecLoop length start length 0 f.1 f.2), 0x10)

/-- The `while (remaining > EECHUNK)` loop of `writeEeprom`: write 32-byte
chunks until at most 32 bytes remain; returns the final `start`/`remaining`
pair together with the state. -/
def weLoop (fuel : Nat) (start remaining : Nat) (s : St2) (e : Eff) :
    (Nat × Nat) × (St2 × Eff) :=
  match fuel with
  | 0 => ((start, remaining), (s, e))
  | f + 1 =>
    if 32 < remaining then
      let c := writeEepromChunk start 32 s e
      weLoop f ((start + 32) % 65536) (remaining - 32) c.1.1 c.1.2
    else ((start, remaining), (s, e))

/-- `writeEeprom(length)` (revision 2): bound the length by the negotiated
EEPROM size (`STK_FAILED` before any staging on overflow), otherwise write the
payload in chunks of at most 32 bytes.  `_address` is a word address; the
byte address is twice it. -/
def writeEeprom (length : Nat) (s : St2) (e : Eff) : (St2 × Eff) × Nat :=
  let start := (s.address * 2) % 65536
  if s.param.eeprom_size < length then ((bumpError s, e), 0x11)
  else
    let w := weLoop length start length s e
    let c := writeEepromChunk w.1.1 w.1.2 w.2.1 w.2.2
    ((c.1.1, c.1.2), 0x10)

/-- `programPage()` (revision 2): read the 16-bit big-endian length and the
memory-type tag; `'F'` runs `writeFlash`, `'E'` runs `writeEeprom` and then
validates the terminator, anything else answers a bare `STK_FAILED`. -/
def programPage (s : St2) (e : Eff) : St2 × Eff :=
  let g1 := getch e
  let g2 := getch g1.2
  let length := (256 * g1.1 + g2.1) % 65536
  let g3 := getch g2.2
  if g3.1 = 70 then writeFlash length s g3.2
  else if g3.1 = 69 then
    let r := writeEeprom length s g3.2
    let g4 := getch r.1.2
    if g4.1 = 0x20 then (r.1.1, swrite r.2 (swrite 0x14 g4.2))
    else (bumpError r.1.1, swrite 0x15 g4.2)
  else (s, swrite 0x11 g3.2)

/-- `readFlash(hilo, addr)`: read flash low/high byte at word address
`addr`. -/
def readFlash (hilo addr : Nat) (e : Eff) : Nat × Eff :=
  spiTransfer (0x20 + hilo * 8) ((addr >>> 8) &&& 0xFF) (addr &&& 0xFF) 0 e

/-- The loop of `readFlashPage`: emit low then high byte of each word at the
session address, incrementing it per word. -/
def rfpLoop (fuel : Nat) (length x : Nat) (s : St2) (e : Eff) : St2 × Eff :=
  match fuel with
  | 0 => (s, e)
  | f + 1 =>
    if x < length then
      let lo := readFlash 0 s.address e
      let e1 := swrite lo.1 lo.2
      let hi := readFlash 1 s.address e1
      let e2 := swrite hi.1 hi.2
      rfpLoop f length (x + 2) { s with address := (s.address + 1) % 65536 } e2
    else (s, e)

/-- `readFlashPage(length)` (revision 2): emit the flash contents word by
word from the session address.  Returns `STK_OK`. -/
def readFlashPage (length : Nat) (s : St2) (e : Eff) : (St2 × Eff) × Nat :=
  (rfpLoop length length 0 s e, 0x10)

/-- The loop of `readEepromPage`: one `0xA0` transaction and output byte per
EEPROM byte address. -/
def repLoop (fuel : Nat) (start length x : Nat) (s : St2) (e : Eff) : Eff :=
  match fuel with
  | 0 => e
  | f + 1 =>
    if x < length then
      let addr := (start + x) % 65536
      let r := spiTransfer 0xA0 ((addr >>> 8) &&& 0xFF) (addr &&& 0xFF) 0xFF e
      repLoop f start length (x + 1) s (swrite r.1 r.2)
    else e

/-- `readEepromPage(length)` (revision 2): emit `length` EEPROM bytes from
byte address `2 * _address`.  Returns `STK_OK`. -/
def readEepromPage (length : Nat) (s : St2) (e : Eff) : (St2 × Eff) × Nat :=
  let start := (s.address * 2) % 65536
  ((s, repLoop length start length 0 s e), 0x10)

/-- `readPage()` (revision 2): read length and memory type, validate the
terminator before emitting anything, then `INSYNC`, the page data for
`'F'`/`'E'`, and the result byte (`STK_FAILED` for an unknown memory type,
with no data bytes). -/
def readPage (s : St2) (e : Eff) : St2 × Eff :=
  let g1 := getch e
  let g2 := getch g1.2
  let length := (256 * g1.1 + g2.1) % 65536
  let g3 := getch g2.2
  let g4 := getch g3.2
  if g4.1 = 0x20 then
    let e1 := swrite 0x14 g4.2
    if g3.1 = 70 then
      let r := readFlashPage length s e1
      (r.1.1, swrite r.2 r.1.2)
    else if g3.1 = 69 then
      let r := readEepromPage length s e1
      (r.1.1, swrite r.2 r.1.2)
    else (s, swrite 0x11 e1)
  else (bumpError s, swrite 0x15 g4.2)

/-- `readSignature()` (revision 2): validate the terminator, then emit the
3-byte device signature and `STK_OK`. -/
def readSignature (s : St2) (e : Eff) : St2 × Eff :=
  let g := getch e
  if g.1 = 0x20 then
    let e1 := swrite 0x14 g.2
    let r1 := spiTransfer 0x30 0x00 0x00 0x00 e1
    let e2 := swrite r1.1 r1.2
    let r2 := spiTransfer 0x30 0x00 0x01 0x00 e2
    let e3 := swrite r2.1 r2.2
    let r3 := spiTransfer 0x30 0x00 0x02 0x00 e3
    let e4 := swrite r3.1 r3.2
    (s, swrite 0x10 e4)
  else (bumpError s, swrite 0x15 g.2)

/-- `avrisp()` (revision 2): read one command byte and dispatch.  The `'P'`
case pulses the error LED when already programming (no state change); the
identification string "AVR ISP" is the byte sequence 65 86 82 32 73 83 80. -/
def avrisp (s : St2) (e : Eff) : St2 × Eff :=
  let g := getch e
  let ch := g.1
  let e0 := g.2
  if ch = 0x30 then reply false 0 true { s with error := 0 } e0
  else if ch = 0x31 then
    let g1 := getch e0
    if g1.1 = 0x20 then
      (s, swrite 0x10 (swrite 80 (swrite 83 (swrite 73 (swrite 32 (swrite 82
        (swrite 86 (swrite 65 (swrite 0x14 g1.2)))))))))
    else (bumpError s, swrite 0x15 g1.2)
  else if ch = 0x41 then
    let g1 := getch e0
    replyVersion g1.1 s g1.2
  else if ch = 0x42 then
    let f := fill 20 s e0
    reply false 0 true (setParameters f.1) f.2
  else if ch = 0x45 then
    let f := fill 5 s e0
    reply false 0 true f.1 f.2
  else if ch = 0x50 then
    if s.programming then reply false 0 true s e0
    else
      let b := beginProgramming s e0
      reply false 0 true b.1 b.2
  else if ch = 0x55 then
    let g1 := getch e0
    let g2 := getch g1.2
    reply false 0 true { s with address := (g1.1 + 256 * g2.1) % 65536 } g2.2
  else if ch = 0x60 then
    let g1 := getch e0
    let g2 := getch g1.2
    reply false 0 true s g2.2
  else if ch = 0x61 then
    let g1 := getch e0
    reply false 0 true s g1.2
  else if ch = 0x64 then programPage s e0
  else if ch = 0x74 then readPage s e0
  else if ch = 0x56 then universal s e0
  else if ch = 0x51 then reply false 0 true (endProgramming { s with error := 0 }) e0
  else if ch = 0x75 then readSignature s e0
  else if ch = 0x20 then (bumpError s, swrite 0x15 e0)
  else
    let g1 := getch e0
    if g1.1 = 0x20 then (bumpError s, swrite 0x12 g1.2)
    else (bumpError s, swrite 0x15 g1.2)

end V2

/-! ## Revision 1 (file lines 1-491): `bool _error`, single-commit flash writes -/

namespace V1

/-- Revision 1 session state: `bool _error`. -/
abbrev St1 : Type := St Bool

/-- `receiveEop()`: consume the terminator-position byte; `INSYNC` on
`CRC_EOP`, otherwise set the sticky error flag and send `NOSYNC`. -/
def receiveEop (s : St1) (e : Eff) : Bool × (St1 × Eff) :=
  let g := getch e
  if g.1 = 0x20 then (true, (s, swrite 0x14 g.2))
  else (false, ({ s with error := true }, swrite 0x15 g.2))

/-- `reply(has_byte, val, send_ok)` (revision 1): validate the terminator via
`receiveEop`, then send the optional value byte and optional `OK`. -/
def reply (has_byte : Bool) (val : Nat) (send_ok : Bool) (s : St1) (e : Eff) :
    St1 × Eff :=
  let r := receiveEop s e
  if r.1 then
    let e1 := if has_byte then swrite val r.2.2 else r.2.2
    let e2 := if send_ok then swrite 0x10 e1 else e1
    (r.2.1, e2)
  else r.2

/-- `replyVersion(c)` (revision 1). -/
def replyVersion (c : Nat) (s : St1) (e : Eff) : St1 × Eff :=
  if c = 0x80 then reply true 2 true s e
  else if c = 0x81 then reply true 1 true s e
  else if c = 0x82 then reply true 18 true s e
  else if c = 0x93 then reply true 83 true s e
  else reply true 0 true s e

/-- `universal()` (revision 1). -/
def universal (s : St1) (e : Eff) : St1 × Eff :=
  let f := fill 4 s e
  let r := spiTransfer (f.1.buff 0) (f.1.buff 1) (f.1.buff 2) (f.1.buff 3) f.2
  reply true r.1 true f.1 r.2

/-- `getPage(addr)` (revision 1): `addr & ~((flash_pagesize >> 1) - 1)`.
With C integer promotion and `addr < 2^16`, only the low 16 bits of the
complement matter; `65535 - ((pagesize / 2 + 65535) % 65536)` is exactly the
low 16 bits of `~((pagesize >> 1) - 1)` (including the wrap-around for
`pagesize / 2 = 0`, where the mask is 0). -/
def getPage (pagesize addr : Nat) : Nat :=
  addr &&& (65535 - ((pagesize / 2 + 65535) % 65536))

/-- The word loop of `writeFlash` (revision 1): the load transactions name
the `uint8_t` word index `i`, not the session address. -/
def wf1Loop (fuel : Nat) (word_length i : Nat) (s : St1) (e : Eff) : Eff :=
  match fuel with
  | 0 => e
  | f + 1 =>
    if i < word_length then
      let r1 := spiTransfer16 0x40 i (s.buff (2 * i)) e
      let r2 := spiTransfer16 0x48 i (s.buff (2 * i + 1)) r1.2
      wf1Loop f word_length (i + 1) s r2.2
    else e

/-- `writeFlash(address, length)` (revision 1): bounds check against the
negotiated page size and the buffer capacity *before* staging the payload;
then stage, validate the terminator, load the words (by word index) and issue
a single commit at `getPage(address)`. -/
def writeFlash (address length : Nat) (s : St1) (e : Eff) : St1 × Eff :=
  if s.param.flash_pagesize < length ∨ 256 < length then
    ({ s with error := true }, swrite 0x11 e)
  else
    let f := fill length s e
    let r := receiveEop f.1 f.2
    if r.1 then
      let word_length := (length / 2) % 256
      let e1 := wf1Loop word_length word_length 0 r.2.1 r.2.2
      let e2 := (spiTransfer16 0x4C (getPage r.2.1.param.flash_pagesize address) 0 e1).2
      (r.2.1, swrite 0x10 e2)
    else r.2

/-- The byte loop of `writeEeprom` (revision 1). -/
def we1Loop (fuel : Nat) (remaining addr x : Nat) (s : St1) (e : Eff) : Eff :=
  match fuel with
  | 0 => e
  | f + 1 =>
    if 0 < remaining then
      let r := spiTransfer16 0xC0 addr (s.buff x) e
      we1Loop f (remaining - 1) ((addr + 1) % 65536) (x + 1) s r.2
    else e

/-- `writeEeprom(address, length)` (revision 1): bounds check against the
negotiated EEPROM size and buffer capacity, stage, validate the terminator,
then write byte by byte at byte address `2 * address`. -/
def writeEeprom (address length : Nat) (s : St1) (e : Eff) : St1 × Eff :=
  if s.param.eeprom_size < length ∨ 256 < length then
    ({ s with error := true }, swrite 0x11 e)
  else
    let f := fill length s e
    let r := receiveEop f.1 f.2
    if r.1 then
      let e1 := we1Loop length length ((address * 2) % 65536) 0 r.2.1 r.2.2
      (r.2.1, swrite 0x10 e1)
    else r.2

/-- `programPage(address)` (revision 1). -/
def programPage (address : Nat) (s : St1) (e : Eff) : St1 × Eff :=
  let g1 := getch e
  let g2 := getch g1.2
  let length := (256 * g1.1 + g2.1) % 65536
  let g3 := getch g2.2
  if g3.1 = 70 then writeFlash address length s g3.2
  else if g3.1 = 69 then writeEeprom address length s g3.2
  else (s, swrite 0x11 g3.2)

/-- The loop of `readFlashPage` (revision 1): works on a local copy of the
address. -/
def rfp1Loop (fuel : Nat) (length x addr : Nat) (e : Eff) : Eff :=
  match fuel with
  | 0 => e
  | f + 1 =>
    if x < length then
      let lo := spiTransfer16 0x20 addr 0 e
      let e1 := swrite lo.1 lo.2
      let hi := spiTransfer16 0x28 addr 0 e1
      let e2 := swrite hi.1 hi.2
      rfp1Loop f length (x + 2) ((addr + 1) % 65536) e2
    else e

/-- `readFlashPage(address, length)` (revision 1): emits the page and `OK`;
the session address is not modified. -/
def readFlashPage (address length : Nat) (e : Eff) : Eff :=
  swrite 0x10 (rfp1Loop length length 0 address e)

/-- The loop of `readEepromPage` (revision 1). -/
def rep1Loop (fuel : Nat) (length x addr : Nat) (e : Eff) : Eff :=
  match fuel with
  | 0 => e
  | f + 1 =>
    if x < length then
      let r := spiTransfer16 0xA0 addr 0xFF e
      rep1Loop f length (x + 1) ((addr + 1) % 65536) (swrite r.1 r.2)
    else e

/-- `readEepromPage(address, length)` (revision 1). -/
def readEepromPage (address length : Nat) (e : Eff) : Eff :=
  swrite 0x10 (rep1Loop length length 0 ((address * 2) % 65536) e)

/-- `readPage(address)` (revision 1): read length and memory type, validate
the terminator (via `receiveEop`, which emits `INSYNC`), then emit the page
data and `OK`, or a bare `STK_FAILED` after `INSYNC` for an unknown memory
type. -/
def readPage (address : Nat) (s : St1) (e : Eff) : St1 × Eff :=
  let g1 := getch e
  let g2 := getch g1.2
  let length := (256 * g1.1 + g2.1) % 65536
  let g3 := getch g2.2
  let r := receiveEop s g3.2
  if r.1 then
    if g3.1 = 70 then (r.2.1, readFlashPage address length r.2.2)
    else if g3.1 = 69 then (r.2.1, readEepromPage address length r.2.2)
    else (r.2.1, swrite 0x11 r.2.2)
  else r.2

/-- `readSignature()` (revision 1). -/
def readSignature (s : St1) (e : Eff) : St1 × Eff :=
  let r := receiveEop s e
  if r.1 then
    let r1 := spiTransfer 0x30 0x00 0x00 0x00 r.2.2
    let e1 := swrite r1.1 r1.2
    let r2 := spiTransfer 0x30 0x00 0x01 0x00 e1
    let e2 := swrite r2.1 r2.2
    let r3 := spiTransfer 0x30 0x00 0x02 0x00 e2
    let e3 := swrite r3.1 r3.2
    (r.2.1, swrite 0x10 e3)
  else r.2

/-- `avrisp()` (revision 1): the static `address` local is session state; the
`'1'` case replies via `receiveEop` (which emits `INSYNC`) followed by the
identification string and `OK`; the unknown-command case sets the error flag
before validating the terminator and emits `UNKNOWN` after `INSYNC`. -/
def avrisp (s : St1) (e : Eff) : St1 × Eff :=
  let g := getch e
  let ch := g.1
  let e0 := g.2
  if ch = 0x30 then reply false 0 true { s with error := false } e0
  else if ch = 0x31 then
    let r := receiveEop s e0
    if r.1 then
      (r.2.1, swrite 0x10 (swrite 80 (swrite 83 (swrite 73 (swrite 32 (swrite 82
        (swrite 86 (swrite 65 r.2.2))))))))
    else r.2
  else if ch = 0x41 then
    let g1 := getch e0
    replyVersion g1.1 s g1.2
  else if ch = 0x42 then
    let f := fill 20 s e0
    reply false 0 true (setParameters f.1) f.2
  else if ch = 0x45 then
    let f := fill 5 s e0
    reply false 0 true f.1 f.2
  else if ch = 0x50 then
    if s.programming then reply false 0 true s e0
    else
      let b := beginProgramming s e0
      reply false 0 true b.1 b.2
  else if ch = 0x55 then
    let g1 := getch e0
    let g2 := getch g1.2
    reply false 0 true { s with address := (g1.1 + 256 * g2.1) % 65536 } g2.2
  else if ch = 0x60 then
    let g1 := getch e0
    let g2 := getch g1.2
    reply false 0 true s g2.2
  else if ch = 0x61 then
    let g1 := getch e0
    reply false 0 true s g1.2
  else if ch = 0x64 then programPage s.address s e0
  else if ch = 0x74 then readPage s.address s e0
  else if ch = 0x56 then universal s e0
  else if ch = 0x51 then reply false 0 true (endProgramming { s with error := false }) e0
  else if ch = 0x75 then readSignature s e0
  else if ch = 0x20 then ({ s with error := true }, swrite 0x15 e0)
  else
    let r := receiveEop { s with error := true } e0
    if r.1 then (r.2.1, swrite 0x12 r.2.2)
    else r.2

end V1

/-! ## Specification-side definitions

These express the claims' vocabulary (page sequences, boundary crossings,
commit extraction) as plain functions on the embedding's data. -/

/-- The commit word addresses recorded in an SPI transaction log: the
`b*256+c` address of every transaction whose opcode byte is `0x4C`. -/
def commitAddrs (l : List Txn) : List Nat :=
  l.filterMap (fun t => if t.1 = 0x4C then some (t.2.1 * 256 + t.2.2.1) else none)

/-- Pages touched, in order, by the word addresses `a, a+1, ..., a+n-1`. -/
def pageSeq (ps a n : Nat) : List Nat :=
  (List.range n).map (fun i => V2.getPage ps (a + i))

/-- Remove adjacent duplicates, keeping the first of each run. -/
def dedupAdj : List Nat → List Nat
  | [] => []
  | [x] => [x]
  | x :: y :: r => if x = y then dedupAdj (y :: r) else x :: dedupAdj (y :: r)

/-- Number of adjacent changes in a list: for a page sequence, the number of
page-boundary crossings. -/
def chgCount : List Nat → Nat
  | x :: y :: r => (if x = y then 0 else 1) + chgCount (y :: r)
  | _ => 0

/-- The elements are strictly ascending. -/
def strictAsc : List Nat → Prop
  | x :: y :: r => x < y ∧ strictAsc (y :: r)
  | _ => True

/-- Adjacent elements are non-decreasing. -/
def nondecAdj : List Nat → Prop
  | x :: y :: r => x ≤ y ∧ nondecAdj (y :: r)
  | _ => True

/-- The sequence of pages committed by the `writeFlashPages` loop run over
`n` further words starting at word address `a` with page `page` open,
mirroring the loop's branch structure on plain naturals. -/
def commitList (ps page a : Nat) : Nat → List Nat
  | 0 => [page]
  | n + 1 =>
    if page = V2.getPage ps a then commitList ps page (a + 1) n
    else page :: commitList ps (V2.getPage ps a) (a + 1) n

/-- A concrete parameter record (all fields zero except the negotiated flash
page size and EEPROM size) for concrete runs. -/
def pTest (fps es : Nat) : Parameter :=
  { signature := 0, revision := 0, progtype := 0, parmode := 0, polling := 0,
    selftimed := 0, lock_bytes := 0, fuse_bytes := 0, flash_poll := 0,
    eeprom_poll := 0, flash_pagesize := fps, eeprom_size := es,
    flash_size := 0 }

/-- A concrete revision 2 session state: in programming mode, no error, a
given negotiated flash page size and session word address, zeroed buffer. -/
def st2T (fps a : Nat) : V2.St2 :=
  { error := 0, programming := true, address := a, param := pTest fps 0,
    buff := fun _ => 0 }

/-- A concrete revision 1 session state: in programming mode, no error, a
given negotiated flash page size and session word address, zeroed buffer. -/
def st1T (fps a : Nat) : V1.St1 :=
  { error := false, programming := true, address := a, param := pTest fps 0,
    buff := fun _ => 0 }

/-! ## Bitwise groundwork -/

/-- Masking with the 16-bit high mask `(2^(16-k) - 1) <<< k` keeps exactly
bits `k..15`: it aligns `a % 2^16` down to a multiple of `2^k`. -/
theorem and_mask_high (a k : Nat) :
    a &&& ((2 ^ (16 - k) - 1) <<< k) = a % 65536 / 2 ^ k * 2 ^ k := by
  have h1 : a % 65536 / 2 ^ k * 2 ^ k = ((a % 65536) >>> k) <<< k := by
    rw [Nat.shiftRight_eq_div_pow, Nat.shiftLeft_eq]
  rw [h1]
  apply Nat.eq_of_testBit_eq
  intro i
  rw [Nat.testBit_and, Nat.testBit_shiftLeft, Nat.testBit_two_pow_sub_one,
      Nat.testBit_shiftLeft, Nat.testBit_shiftRight]
  have h2 : (65536 : Nat) = 2 ^ 16 := by norm_num
  rw [h2, Nat.testBit_mod_two_pow]
  by_cases hik : k ≤ i
  · have hik' : k + (i - k) = i := by omega
    rw [hik']
    by_cases hi16 : i < 16
    · have hw : i - k < 16 - k := by omega
      simp [hik, hi16, hw]
      try tauto
    · have hw : ¬(i - k < 16 - k) := by omega
      simp [hik, hi16, hw]
  · simp [hik]

/-- Reassembling the high and low byte of a 16-bit value recovers it. -/
theorem byte_recon (p : Nat) (h : p < 65536) :
    ((p >>> 8) &&& 0xFF) * 256 + (p &&& 0xFF) = p := by
  have h1 : p >>> 8 = p / 2 ^ 8 := Nat.shiftRight_eq_div_pow p 8
  have h2 : ∀ x : Nat, x &&& 0xFF = x % 2 ^ 8 := by
    intro x
    have := Nat.and_pow_two_sub_one_eq_mod x 8
    norm_num at this ⊢
    exact this
  rw [h1, h2, h2]
  norm_num
  omega

/-- Characterization of revision 2's `getPage` for the four negotiated page
sizes: align the (16-bit) word address down to a multiple of half the page
size (the page size counts bytes; addresses count words). -/
theorem getPage_eq (ps : Nat)
    (hps : ps = 32 ∨ ps = 64 ∨ ps = 128 ∨ ps = 256) (a : Nat) :
    V2.getPage ps a = a % 65536 / (ps / 2) * (ps / 2) := by
  rcases hps with h | h | h | h <;> subst h
  · have := and_mask_high a 4
    norm_num at this ⊢
    rw [V2.getPage]
    norm_num
    exact this
  · have := and_mask_high a 5
    norm_num at this ⊢
    rw [V2.getPage]
    norm_num
    exact this
  · have := and_mask_high a 6
    norm_num at this ⊢
    rw [V2.getPage]
    norm_num
    exact this
  · have := and_mask_high a 7
    norm_num at this ⊢
    rw [V2.getPage]
    norm_num
    exact this

/-- `getPage` never exceeds an in-range address. -/
theorem getPage_le (ps a : Nat) (h : a < 65536) : V2.getPage ps a ≤ a := by
  by_cases h32 : ps = 32
  · rw [getPage_eq ps (by tauto) a, Nat.mod_eq_of_lt h]
    have := Nat.div_mul_le_self a (ps / 2)
    omega
  by_cases h64 : ps = 64
  · rw [getPage_eq ps (by tauto) a, Nat.mod_eq_of_lt h]
    have := Nat.div_mul_le_self a (ps / 2)
    omega
  by_cases h128 : ps = 128
  · rw [getPage_eq ps (by tauto) a, Nat.mod_eq_of_lt h]
    have := Nat.div_mul_le_self a (ps / 2)
    omega
  by_cases h256 : ps = 256
  · rw [getPage_eq ps (by tauto) a, Nat.mod_eq_of_lt h]
    have := Nat.div_mul_le_self a (ps / 2)
    omega
  · rw [V2.getPage]
    simp [h32, h64, h128, h256]

/-- `getPage` is monotone on in-range addresses. -/
theorem getPage_mono (ps : Nat) {a b : Nat} (hab : a ≤ b) (hb : b < 65536) :
    V2.getPage ps a ≤ V2.getPage ps b := by
  have ha : a < 65536 := by omega
  by_cases hmem : ps = 32 ∨ ps = 64 ∨ ps = 128 ∨ ps = 256
  · rw [getPage_eq ps hmem a, getPage_eq ps hmem b,
      Nat.mod_eq_of_lt ha, Nat.mod_eq_of_lt hb]
    exact Nat.mul_le_mul_right _ (Nat.div_le_div_right hab)
  · push_neg at hmem
    rw [V2.getPage, V2.getPage]
    simp [hmem.1, hmem.2.1, hmem.2.2.1, hmem.2.2.2]
    exact hab

/-! ## Lemmas on the specification-side list functions -/

theorem dedupAdj_cons (x : Nat) (r : List Nat) :
    ∃ t, dedupAdj (x :: r) = x :: t := by
  induction r generalizing x with
  | nil => exact ⟨[], rfl⟩
  | cons y r2 ih =>
    by_cases h : x = y
    · subst h
      obtain ⟨t, ht⟩ := ih x
      exact ⟨t, by rw [dedupAdj, if_pos rfl]; exact ht⟩
    · exact ⟨dedupAdj (y :: r2), by rw [dedupAdj, if_neg h]⟩

theorem dedupAdj_length (l : List Nat) (h : l ≠ []) :
    (dedupAdj l).length = chgCount l + 1 := by
  induction l with
  | nil => exact absurd rfl h
  | cons x r ih =>
    cases r with
    | nil => rfl
    | cons y r2 =>
      have h2 : (y :: r2 : List Nat) ≠ [] := by simp
      by_cases hxy : x = y
      · rw [dedupAdj, if_pos hxy, chgCount, if_pos hxy, ih h2]
        omega
      · rw [dedupAdj, if_neg hxy, chgCount, if_neg hxy, List.length_cons, ih h2]
        omega

theorem dedupAdj_mem (z : Nat) (l : List Nat) : z ∈ dedupAdj l ↔ z ∈ l := by
  induction l with
  | nil => rfl
  | cons x r ih =>
    cases r with
    | nil => rfl
    | cons y r2 =>
      by_cases hxy : x = y
      · subst hxy
        rw [dedupAdj, if_pos rfl]
        rw [ih]
        simp
      · rw [dedupAdj, if_neg hxy]
        simp only [List.mem_cons] at ih ⊢
        rw [ih]

theorem dedupAdj_strictAsc (l : List Nat) (h : nondecAdj l) :
    strictAsc (dedupAdj l) := by
  induction l with
  | nil => trivial
  | cons x r ih =>
    cases r with
    | nil => trivial
    | cons y r2 =>
      rw [nondecAdj] at h
      by_cases hxy : x = y
      · rw [dedupAdj, if_pos hxy]
        exact ih h.2
      · rw [dedupAdj, if_neg hxy]
        obtain ⟨t, ht⟩ := dedupAdj_cons y r2
        rw [ht]
        rw [ht] at ih
        refine ⟨by omega, ?_⟩
        exact ih h.2

theorem pageSeq_succ (ps a n : Nat) :
    pageSeq ps a (n + 1) = V2.getPage ps a :: pageSeq ps (a + 1) n := by
  rw [pageSeq, List.range_succ_eq_map, List.map_cons, List.map_map, pageSeq]
  congr 1
  apply List.map_congr_left
  intro i _
  simp [Function.comp]
  congr 1
  omega

theorem commitList_eq_dedupAdj (ps : Nat) (n : Nat) :
    ∀ (p a : Nat), commitList ps p a n = dedupAdj (p :: pageSeq ps a n) := by
  induction n with
  | zero => intro p a; rfl
  | succ m ih =>
    intro p a
    rw [pageSeq_succ, commitList]
    by_cases h : p = V2.getPage ps a
    · rw [if_pos h, ih p (a + 1), dedupAdj, if_pos h, h]
    · rw [if_neg h, ih (V2.getPage ps a) (a + 1), dedupAdj, if_neg h]

theorem commitList_head_eq (ps a n : Nat) (hn : 0 < n) :
    commitList ps (V2.getPage ps a) a n = dedupAdj (pageSeq ps a n) := by
  obtain ⟨m, rfl⟩ : ∃ m, n = m + 1 := ⟨n - 1, by omega⟩
  rw [commitList_eq_dedupAdj, pageSeq_succ, dedupAdj, if_pos rfl, ← pageSeq_succ]

theorem pageSeq_nondec (ps : Nat) (n : Nat) :
    ∀ a, a + n ≤ 65536 → nondecAdj (pageSeq ps a n) := by
  induction n with
  | zero => intro a _; trivial
  | succ m ih =>
    intro a ha
    rw [pageSeq_succ]
    cases m with
    | zero => trivial
    | succ m2 =>
      rw [pageSeq_succ, nondecAdj, ← pageSeq_succ]
      constructor
      · exact getPage_mono ps (by omega) (by omega)
      · exact ih (a + 1) (by omega)

theorem commitList_mod (ps p a n : Nat) (h : a + n ≤ 65536) :
    commitList ps p (a % 65536) n = commitList ps p a n := by
  cases n with
  | zero => rfl
  | succ m =>
    have : a < 65536 := by omega
    rw [Nat.mod_eq_of_lt this]

/-- `commitAddrs` distributes over log concatenation. -/
theorem commitAddrs_append (l1 l2 : List Txn) :
    commitAddrs (l1 ++ l2) = commitAddrs l1 ++ commitAddrs l2 := by
  rw [commitAddrs, commitAddrs, commitAddrs, List.filterMap_append]

/-! ## The flash page-write loop of revision 2 -/

theorem commit_eq (p : Nat) (e : Eff) :
    V2.commit p e =
      { e with txns := e.txns ++ [(0x4C, (p >>> 8) &&& 0xFF, p &&& 0xFF, 0)] } := by
  simp [V2.commit, spiTransfer, devStep]

theorem flash0_eq (addr data : Nat) (e : Eff) (h : addr < 65536) :
    V2.flash 0 addr data e =
      { e with
        txns := e.txns ++ [(0x40, (addr >>> 8) &&& 0xFF, addr &&& 0xFF, data)],
        mem := updMem e.mem (2 * addr) data } := by
  simp [V2.flash, spiTransfer, devStep]
  rw [byte_recon addr h]

theorem flash1_eq (addr data : Nat) (e : Eff) (h : addr < 65536) :
    V2.flash 1 addr data e =
      { e with
        txns := e.txns ++ [(0x48, (addr >>> 8) &&& 0xFF, addr &&& 0xFF, data)],
        mem := updMem e.mem (2 * addr + 1) data } := by
  have h8 : (0x40 + 8 * 1 : Nat) = 0x48 := by norm_num
  simp [V2.flash, spiTransfer, devStep, h8]
  rw [byte_recon addr h]

theorem commitAddrs_commit (p : Nat) (h : p < 65536) :
    commitAddrs [((0x4C : Nat), (p >>> 8) &&& 0xFF, p &&& 0xFF, (0 : Nat))] = [p] := by
  rw [commitAddrs]
  simp [List.filterMap]
  exact byte_recon p h

theorem commitAddrs_load (a b c d : Nat) (h : a ≠ 0x4C) :
    commitAddrs [(a, b, c, d)] = [] := by
  rw [commitAddrs]
  simp [List.filterMap, h]

/-- Postcondition of the `writeFlashPages` loop writing `w` further words
from buffer offset `x`: the session address advances by `w` (mod 2^16), the
rest of the session state and the host-visible streams are untouched, the new
transactions' commit addresses are exactly `commitList`, and device memory
holds the staged bytes at byte addresses `2*address .. 2*address + 2*w - 1`. -/
def WfpPost (ps w page x : Nat) (s : V2.St2) (e : Eff) (r : V2.St2 × Eff) : Prop :=
  r.1.address = (s.address + w) % 65536 ∧
  r.1.error = s.error ∧
  r.1.programming = s.programming ∧
  r.1.param = s.param ∧
  r.1.buff = s.buff ∧
  r.2.input = e.input ∧
  r.2.output = e.output ∧
  (∃ new, r.2.txns = e.txns ++ new ∧
    commitAddrs new = commitList ps page s.address w) ∧
  ∀ t, r.2.mem t =
    if 2 * s.address ≤ t ∧ t < 2 * s.address + 2 * w
    then s.buff (x + (t - 2 * s.address)) else e.mem t

theorem wfp_exit (ps page x : Nat) (s : V2.St2) (e : Eff)
    (ha : s.address < 65536) (hpage : page < 65536) :
    WfpPost ps 0 page x s e (s, V2.commit page e) := by
  rw [WfpPost, commit_eq]
  refine ⟨by simp [Nat.mod_eq_of_lt ha], rfl, rfl, rfl, rfl, rfl, rfl,
    ⟨[(0x4C, (page >>> 8) &&& 0xFF, page &&& 0xFF, 0)], rfl,
      by rw [commitAddrs_commit page hpage]; rfl⟩, ?_⟩
  intro t
  have : ¬(2 * s.address ≤ t ∧ t < 2 * s.address + 2 * 0) := by omega
  rw [if_neg this]

theorem wfpLoop_step (f length page x : Nat) (s : V2.St2) (e : Eff)
    (hx : x < length) :
    V2.wfpLoop (f + 1) length page x s e =
      V2.wfpLoop f length (V2.getPage s.param.flash_pagesize s.address) (x + 2)
        { s with address := (s.address + 1) % 65536 }
        (V2.flash 1 s.address (s.buff (x + 1)) (V2.flash 0 s.address (s.buff x)
          (if page = V2.getPage s.param.flash_pagesize s.address then e
           else V2.commit page e))) := by
  rw [V2.wfpLoop, if_pos hx]

theorem wfpLoop_spec (ps : Nat) (fuel : Nat) :
    ∀ (x length page : Nat) (s : V2.St2) (e : Eff),
      s.param.flash_pagesize = ps →
      length - x ≤ 2 * fuel →
      s.address < 65536 →
      s.address + (length - x + 1) / 2 ≤ 65536 →
      page < 65536 →
      WfpPost ps ((length - x + 1) / 2) page x s e
        (V2.wfpLoop fuel length page x s e) := by
  induction fuel with
  | zero =>
    intro x length page s e hps hfuel ha hnw hpage
    have hw : (length - x + 1) / 2 = 0 := by omega
    rw [hw, V2.wfpLoop]
    exact wfp_exit ps page x s e ha hpage
  | succ f ih =>
    intro x length page s e hps hfuel ha hnw hpage
    by_cases hx : x < length
    · rw [wfpLoop_step f length page x s e hx]
      have hw1 : 1 ≤ (length - x + 1) / 2 := by omega
      set w := (length - x + 1) / 2 with hwdef
      have hw' : (length - (x + 2) + 1) / 2 = w - 1 := by omega
      set a := s.address with hadef
      set pg := V2.getPage s.param.flash_pagesize a with hpgdef
      have hpglt : pg < 65536 := by
        rw [hpgdef, hps]
        exact Nat.lt_of_le_of_lt (getPage_le ps a ha) ha
      have he1 : (if page = pg then e else V2.commit page e) = { e with
          txns := e.txns ++
            (if page = pg then [] else
              [(0x4C, (page >>> 8) &&& 0xFF, page &&& 0xFF, 0)]) } := by
        by_cases hpp : page = pg
        · simp [hpp]
        · rw [if_neg hpp, if_neg hpp, commit_eq]
      rw [he1]
      rw [flash0_eq a (s.buff x) _ ha]
      rw [flash1_eq a (s.buff (x + 1)) _ ha]
      dsimp only
      simp only [List.append_assoc, List.singleton_append]
      set optC : List Txn := if page = pg then [] else
          [(0x4C, (page >>> 8) &&& 0xFF, page &&& 0xFF, 0)] with hoptC
      set loads : List Txn :=
          [(0x40, (a >>> 8) &&& 0xFF, a &&& 0xFF, s.buff x),
           (0x48, (a >>> 8) &&& 0xFF, a &&& 0xFF, s.buff (x + 1))] with hloadsdef
      have hih := ih (x + 2) length pg
        { s with address := (a + 1) % 65536 }
        { e with txns := e.txns ++ (optC ++ loads),
                 mem := updMem (updMem e.mem (2 * a) (s.buff x)) (2 * a + 1)
                   (s.buff (x + 1)) }
        hps (by omega) (Nat.mod_lt _ (by omega))
        (by
          show (a + 1) % 65536 + (length - (x + 2) + 1) / 2 ≤ 65536
          rw [hw']
          omega)
        hpglt
      rw [hw'] at hih
      obtain ⟨q1, q2, q3, q4, q5, q6, q7, ⟨new2, hn2, hc2⟩, q9⟩ := hih
      dsimp only at q1 q2 q3 q4 q5 q6 q7 hn2 hc2 q9
      refine ⟨?_, q2, q3, q4, q5, q6, q7, ?_, ?_⟩
      · -- address
        rw [q1]
        omega
      · -- transactions
        refine ⟨optC ++ loads ++ new2,
          by rw [hn2]; simp, ?_⟩
        rw [List.append_assoc, commitAddrs_append, commitAddrs_append]
        have hloads : commitAddrs loads = [] := by
          rw [hloadsdef, commitAddrs]
          simp [List.filterMap]
        rw [hloads, hc2]
        have hmod : commitList ps pg ((a + 1) % 65536) (w - 1) =
            commitList ps pg (a + 1) (w - 1) := by
          apply commitList_mod
          by_cases hc : a + 1 < 65536
          · omega
          · have h2 : w = 1 := by omega
            omega
        rw [hmod]
        obtain ⟨v, hv⟩ : ∃ v, w = v + 1 := ⟨w - 1, by omega⟩
        rw [hv, commitList]
        simp only [Nat.add_sub_cancel]
        rw [hps] at hpgdef
        rw [← hpgdef, hoptC]
        by_cases hpp : page = pg
        · rw [if_pos hpp, if_pos hpp, hpp]
          simp [commitAddrs]
        · rw [if_neg hpp, if_neg hpp]
          rw [commitAddrs_commit page hpage]
          simp
      · -- memory
        intro t
        rw [q9 t]
        by_cases hc : a + 1 < 65536
        · rw [Nat.mod_eq_of_lt hc]
          by_cases ht1 : 2 * (a + 1) ≤ t ∧ t < 2 * (a + 1) + 2 * (w - 1)
          · rw [if_pos ht1]
            have ht2 : 2 * a ≤ t ∧ t < 2 * a + 2 * w := by omega
            rw [if_pos ht2]
            congr 1
            omega
          · rw [if_neg ht1]
            simp only [updMem]
            by_cases hta : t = 2 * a + 1
            · rw [if_pos hta]
              have ht2 : 2 * a ≤ t ∧ t < 2 * a + 2 * w := by omega
              rw [if_pos ht2]
              congr 1
              omega
            · rw [if_neg hta]
              by_cases htb : t = 2 * a
              · rw [if_pos htb]
                have ht2 : 2 * a ≤ t ∧ t < 2 * a + 2 * w := by omega
                rw [if_pos ht2]
                congr 1
                omega
              · rw [if_neg htb]
                have ht2 : ¬(2 * a ≤ t ∧ t < 2 * a + 2 * w) := by omega
                rw [if_neg ht2]
        · have h1 : a + 1 = 65536 := by omega
          have h2 : w = 1 := by omega
          have ht1 : ¬(2 * ((a + 1) % 65536) ≤ t ∧
              t < 2 * ((a + 1) % 65536) + 2 * (w - 1)) := by
            rw [h1, h2]
            simp
          rw [if_neg ht1]
          simp only [updMem]
          by_cases hta : t = 2 * a + 1
          · rw [if_pos hta]
            have ht2 : 2 * a ≤ t ∧ t < 2 * a + 2 * w := by omega
            rw [if_pos ht2]
            congr 1
            omega
          · rw [if_neg hta]
            by_cases htb : t = 2 * a
            · rw [if_pos htb]
              have ht2 : 2 * a ≤ t ∧ t < 2 * a + 2 * w := by omega
              rw [if_pos ht2]
              congr 1
              omega
            · rw [if_neg htb]
              have ht2 : ¬(2 * a ≤ t ∧ t < 2 * a + 2 * w) := by omega
              rw [if_neg ht2]
    · have hw : (length - x + 1) / 2 = 0 := by omega
      rw [hw, V2.wfpLoop, if_neg hx]
      exact wfp_exit ps page x s e ha hpage

theorem writeFlashPages_spec (length : Nat) (s : V2.St2) (e : Eff)
    (ha : s.address < 65536)
    (hnw : s.address + (length + 1) / 2 ≤ 65536) :
    WfpPost s.param.flash_pagesize ((length + 1) / 2)
      (V2.getPage s.param.flash_pagesize s.address) 0 s e
      (V2.writeFlashPages length s e).1 ∧
    (V2.writeFlashPages length s e).2 = 0x10 := by
  constructor
  · have h := wfpLoop_spec s.param.flash_pagesize length 0 length
      (V2.getPage s.param.flash_pagesize s.address) s e rfl (by omega) ha
      (by simpa using hnw)
      (Nat.lt_of_le_of_lt (getPage_le _ _ ha) ha)
    simpa [V2.writeFlashPages] using h
  · rfl

/-- State/stream components that the flash write loop never touches,
without any range hypotheses (used for response-shape claims). -/
theorem wfpLoop_frame (fuel : Nat) :
    ∀ (length page x : Nat) (s : V2.St2) (e : Eff),
      (V2.wfpLoop fuel length page x s e).1.error = s.error ∧
      (V2.wfpLoop fuel length page x s e).1.programming = s.programming ∧
      (V2.wfpLoop fuel length page x s e).1.param = s.param ∧
      (V2.wfpLoop fuel length page x s e).1.buff = s.buff ∧
      (V2.wfpLoop fuel length page x s e).2.input = e.input ∧
      (V2.wfpLoop fuel length page x s e).2.output = e.output := by
  induction fuel with
  | zero =>
    intro length page x s e
    rw [V2.wfpLoop, commit_eq]
    exact ⟨rfl, rfl, rfl, rfl, rfl, rfl⟩
  | succ f ih =>
    intro length page x s e
    by_cases hx : x < length
    · rw [wfpLoop_step f length page x s e hx]
      have h := ih length (V2.getPage s.param.flash_pagesize s.address) (x + 2)
        { s with address := (s.address + 1) % 65536 }
        (V2.flash 1 s.address (s.buff (x + 1)) (V2.flash 0 s.address (s.buff x)
          (if page = V2.getPage s.param.flash_pagesize s.address then e
           else V2.commit page e)))
      have hfl : ∀ (hilo addr d : Nat) (e2 : Eff),
          (V2.flash hilo addr d e2).input = e2.input ∧
          (V2.flash hilo addr d e2).output = e2.output := by
        intro hilo addr d e2
        exact ⟨rfl, rfl⟩
      have hcm : ∀ (e2 : Eff),
          (if page = V2.getPage s.param.flash_pagesize s.address then e2
            else V2.commit page e2).input = e2.input ∧
          (if page = V2.getPage s.param.flash_pagesize s.address then e2
            else V2.commit page e2).output = e2.output := by
        intro e2
        by_cases hpp : page = V2.getPage s.param.flash_pagesize s.address
        · rw [if_pos hpp]
          exact ⟨rfl, rfl⟩
        · rw [if_neg hpp, commit_eq]
          exact ⟨rfl, rfl⟩
      obtain ⟨k1, k2, k3, k4, k5, k6⟩ := h
      refine ⟨k1, k2, k3, k4, ?_, ?_⟩
      · rw [k5, (hfl _ _ _ _).1, (hfl _ _ _ _).1, (hcm e).1]
      · rw [k6, (hfl _ _ _ _).2, (hfl _ _ _ _).2, (hcm e).2]
    · rw [V2.wfpLoop, if_neg hx, commit_eq]
      exact ⟨rfl, rfl, rfl, rfl, rfl, rfl⟩

/-! ## Staging the payload: `fill` -/

/-- The buffer after writing the bytes `bs` at indices `x, x+1, ...`. -/
def buffWrite (b : Nat → Nat) (x : Nat) : List Nat → Nat → Nat
  | [] => b
  | v :: vs => buffWrite (updMem b x (v % 256)) (x + 1) vs

theorem fillAux_spec {ε} (bs : List Nat) :
    ∀ (rest : List Nat) (s : St ε) (e : Eff) (x : Nat),
      e.input = bs ++ rest →
      fillAux s e x bs.length =
        ({ s with buff := buffWrite s.buff x bs }, { e with input := rest }) := by
  induction bs with
  | nil =>
    intro rest s e x h
    simp only [List.nil_append] at h
    rw [List.length_nil, fillAux, buffWrite]
    cases e
    simp only at h
    subst h
    rfl
  | cons b bs2 ih =>
    intro rest s e x h
    rw [List.length_cons, fillAux]
    have hg : getch e = (b % 256, { e with input := bs2 ++ rest }) := by
      rw [getch]
      cases e
      simp only at h
      subst h
      rfl
    rw [hg]
    have := ih rest { s with buff := updMem s.buff x (b % 256) }
      { e with input := bs2 ++ rest } (x + 1) rfl
    rw [this, buffWrite]

theorem fill_spec {ε} (n : Nat) (bs rest : List Nat) (s : St ε) (e : Eff)
    (hlen : bs.length = n % 256) (h : e.input = bs ++ rest) :
    fill n s e =
      ({ s with buff := buffWrite s.buff 0 bs }, { e with input := rest }) := by
  rw [fill, ← hlen]
  exact fillAux_spec bs rest s e 0 h

theorem buffWrite_get (bs : List Nat) :
    ∀ (b : Nat → Nat) (x i : Nat),
      buffWrite b x bs i =
        if x ≤ i ∧ i < x + bs.length then bs.getD (i - x) 0 % 256 else b i := by
  induction bs with
  | nil =>
    intro b x i
    rw [buffWrite]
    have hn : ¬(x ≤ i ∧ i < x + ([] : List Nat).length) := by
      simp
    rw [if_neg hn]
  | cons v vs ih =>
    intro b x i
    rw [buffWrite, ih]
    by_cases h1 : x + 1 ≤ i ∧ i < x + 1 + vs.length
    · rw [if_pos h1]
      have h2 : x ≤ i ∧ i < x + (v :: vs).length := by
        simp only [List.length_cons]
        omega
      rw [if_pos h2]
      obtain ⟨k, hk⟩ : ∃ k, i - x = k + 1 := ⟨i - x - 1, by omega⟩
      have hidx : i - (x + 1) = k := by omega
      rw [hk, hidx]
      simp only [List.getD_cons_succ]
    · rw [if_neg h1, updMem]
      by_cases h2 : i = x
      · rw [if_pos h2, h2]
        have h3 : x ≤ x ∧ x < x + (v :: vs).length := by
          simp only [List.length_cons]
          omega
        rw [if_pos h3]
        simp
      · rw [if_neg h2]
        have h3 : ¬(x ≤ i ∧ i < x + (v :: vs).length) := by
          simp only [List.length_cons]
          omega
        rw [if_neg h3]

/-! ## The flash page-read loop of revision 2 -/

/-- The bytes the perfect device answers when reading `w` words from word
address `a`: low then high byte of each word (as sent to the host,
i.e. reduced mod 256). -/
def readBytes (m : Nat → Nat) (a : Nat) : Nat → List Nat
  | 0 => []
  | w + 1 => m (2 * a) % 256 :: m (2 * a + 1) % 256 :: readBytes m (a + 1) w

theorem readFlash0_eq (addr : Nat) (e : Eff) (h : addr < 65536) :
    V2.readFlash 0 addr e =
      (e.mem (2 * addr),
       { e with txns := e.txns ++ [(0x20, (addr >>> 8) &&& 0xFF, addr &&& 0xFF, 0)] }) := by
  simp [V2.readFlash, spiTransfer, devStep]
  rw [byte_recon addr h]

theorem readFlash1_eq (addr : Nat) (e : Eff) (h : addr < 65536) :
    V2.readFlash 1 addr e =
      (e.mem (2 * addr + 1),
       { e with txns := e.txns ++ [(0x28, (addr >>> 8) &&& 0xFF, addr &&& 0xFF, 0)] }) := by
  have h8 : (0x20 + 1 * 8 : Nat) = 0x28 := by norm_num
  simp [V2.readFlash, spiTransfer, devStep, h8]
  rw [byte_recon addr h]

theorem rfpLoop_step (f length x : Nat) (s : V2.St2) (e : Eff) (hx : x < length) :
    V2.rfpLoop (f + 1) length x s e =
      V2.rfpLoop f length (x + 2) { s with address := (s.address + 1) % 65536 }
        (swrite
          (V2.readFlash 1 s.address
            (swrite (V2.readFlash 0 s.address e).1 (V2.readFlash 0 s.address e).2)).1
          (V2.readFlash 1 s.address
            (swrite (V2.readFlash 0 s.address e).1 (V2.readFlash 0 s.address e).2)).2) := by
  rw [V2.rfpLoop, if_pos hx]

theorem rfpLoop_spec (fuel : Nat) :
    ∀ (x length : Nat) (s : V2.St2) (e : Eff),
      length - x ≤ 2 * fuel →
      s.address < 65536 →
      s.address + (length - x + 1) / 2 ≤ 65536 →
      (V2.rfpLoop fuel length x s e).1.address =
          (s.address + (length - x + 1) / 2) % 65536 ∧
      (V2.rfpLoop fuel length x s e).1.error = s.error ∧
      (V2.rfpLoop fuel length x s e).1.programming = s.programming ∧
      (V2.rfpLoop fuel length x s e).1.param = s.param ∧
      (V2.rfpLoop fuel length x s e).1.buff = s.buff ∧
      (V2.rfpLoop fuel length x s e).2.input = e.input ∧
      (V2.rfpLoop fuel length x s e).2.output =
          e.output ++ readBytes e.mem s.address ((length - x + 1) / 2) ∧
      (V2.rfpLoop fuel length x s e).2.mem = e.mem := by
  induction fuel with
  | zero =>
    intro x length s e hfuel ha hnw
    have hw : (length - x + 1) / 2 = 0 := by omega
    rw [hw, V2.rfpLoop, readBytes]
    exact ⟨by simp [Nat.mod_eq_of_lt ha], rfl, rfl, rfl, rfl, rfl, by simp, rfl⟩
  | succ f ih =>
    intro x length s e hfuel ha hnw
    by_cases hx : x < length
    · rw [rfpLoop_step f length x s e hx]
      have hw1 : 1 ≤ (length - x + 1) / 2 := by omega
      set w := (length - x + 1) / 2 with hwdef
      have hw' : (length - (x + 2) + 1) / 2 = w - 1 := by omega
      set a := s.address with hadef
      have he1 : swrite (V2.readFlash 0 a e).1 (V2.readFlash 0 a e).2 =
          { e with output := e.output ++ [e.mem (2 * a) % 256],
                   txns := e.txns ++ [(0x20, (a >>> 8) &&& 0xFF, a &&& 0xFF, 0)] } := by
        rw [readFlash0_eq a e ha]
        rfl
      rw [he1]
      have he2 : swrite
          (V2.readFlash 1 a
            { e with output := e.output ++ [e.mem (2 * a) % 256],
                     txns := e.txns ++ [(0x20, (a >>> 8) &&& 0xFF, a &&& 0xFF, 0)] }).1
          (V2.readFlash 1 a
            { e with output := e.output ++ [e.mem (2 * a) % 256],
                     txns := e.txns ++ [(0x20, (a >>> 8) &&& 0xFF, a &&& 0xFF, 0)] }).2 =
          { e with
            output := (e.output ++ [e.mem (2 * a) % 256]) ++ [e.mem (2 * a + 1) % 256],
            txns := (e.txns ++ [(0x20, (a >>> 8) &&& 0xFF, a &&& 0xFF, 0)]) ++
              [(0x28, (a >>> 8) &&& 0xFF, a &&& 0xFF, 0)] } := by
        rw [readFlash1_eq a _ ha]
        rfl
      rw [he2]
      have hih := ih (x + 2) length { s with address := (a + 1) % 65536 }
        { e with
          output := (e.output ++ [e.mem (2 * a) % 256]) ++ [e.mem (2 * a + 1) % 256],
          txns := (e.txns ++ [(0x20, (a >>> 8) &&& 0xFF, a &&& 0xFF, 0)]) ++
            [(0x28, (a >>> 8) &&& 0xFF, a &&& 0xFF, 0)] }
        (by omega) (Nat.mod_lt _ (by omega))
        (by
          show (a + 1) % 65536 + (length - (x + 2) + 1) / 2 ≤ 65536
          rw [hw']
          omega)
      rw [hw'] at hih
      obtain ⟨q1, q2, q3, q4, q5, q6, q7, q8⟩ := hih
      dsimp only at q1 q2 q3 q4 q5 q6 q7 q8
      refine ⟨by rw [q1]; omega, q2, q3, q4, q5, q6, ?_, q8⟩
      rw [q7]
      obtain ⟨v, hv⟩ : ∃ v, w = v + 1 := ⟨w - 1, by omega⟩
      rw [hv]
      simp only [Nat.add_sub_cancel]
      rw [readBytes]
      have hmod : readBytes e.mem ((a + 1) % 65536) v = readBytes e.mem (a + 1) v := by
        cases v with
        | zero => rfl
        | succ v2 =>
          have hlt : a + 1 < 65536 := by omega
          rw [Nat.mod_eq_of_lt hlt]
      rw [hmod]
      simp
    · have hw : (length - x + 1) / 2 = 0 := by omega
      rw [hw, V2.rfpLoop, if_neg hx, readBytes]
      exact ⟨by simp [Nat.mod_eq_of_lt ha], rfl, rfl, rfl, rfl, rfl, by simp, rfl⟩

/-- Frame lemma for the flash read loop: session state other than the address
and the input stream are untouched, and the output only grows. -/
theorem rfpLoop_frame (fuel : Nat) :
    ∀ (length x : Nat) (s : V2.St2) (e : Eff),
      (V2.rfpLoop fuel length x s e).1.error = s.error ∧
      (V2.rfpLoop fuel length x s e).1.programming = s.programming ∧
      (V2.rfpLoop fuel length x s e).1.param = s.param ∧
      (V2.rfpLoop fuel length x s e).1.buff = s.buff ∧
      (V2.rfpLoop fuel length x s e).2.input = e.input ∧
      ∃ mid, (V2.rfpLoop fuel length x s e).2.output = e.output ++ mid := by
  induction fuel with
  | zero =>
    intro length x s e
    rw [V2.rfpLoop]
    exact ⟨rfl, rfl, rfl, rfl, rfl, [], by simp⟩
  | succ f ih =>
    intro length x s e
    by_cases hx : x < length
    · rw [rfpLoop_step f length x s e hx]
      obtain ⟨k1, k2, k3, k4, k5, mid, k6⟩ := ih length (x + 2)
        { s with address := (s.address + 1) % 65536 } _
      refine ⟨k1, k2, k3, k4, ?_, ?_⟩
      · rw [k5]
        rfl
      · refine ⟨[(V2.readFlash 0 s.address e).1 % 256] ++
          [(V2.readFlash 1 s.address
            (swrite (V2.readFlash 0 s.address e).1 (V2.readFlash 0 s.address e).2)).1
              % 256] ++ mid, ?_⟩
        rw [k6]
        simp [swrite, V2.readFlash, spiTransfer]
    · rw [V2.rfpLoop, if_neg hx]
      exact ⟨rfl, rfl, rfl, rfl, rfl, [], by simp⟩

/-- Frame lemma for the EEPROM read loop. -/
theorem repLoop_frame (fuel : Nat) :
    ∀ (start length x : Nat) (s : V2.St2) (e : Eff),
      (V2.repLoop fuel start length x s e).input = e.input ∧
      ∃ mid, (V2.repLoop fuel start length x s e).output = e.output ++ mid := by
  induction fuel with
  | zero =>
    intro start length x s e
    rw [V2.repLoop]
    exact ⟨rfl, [], by simp⟩
  | succ f ih =>
    intro start length x s e
    rw [V2.repLoop]
    by_cases hx : x < length
    · rw [if_pos hx]
      obtain ⟨k1, mid, k2⟩ := ih start length (x + 1) s
        (swrite (spiTransfer 0xA0 ((((start + x) % 65536) >>> 8) &&& 0xFF)
          (((start + x) % 65536) &&& 0xFF) 0xFF e).1
          (spiTransfer 0xA0 ((((start + x) % 65536) >>> 8) &&& 0xFF)
            (((start + x) % 65536) &&& 0xFF) 0xFF e).2)
      refine ⟨by rw [k1]; rfl, ?_⟩
      refine ⟨[(spiTransfer 0xA0 ((((start + x) % 65536) >>> 8) &&& 0xFF)
          (((start + x) % 65536) &&& 0xFF) 0xFF e).1 % 256] ++ mid, ?_⟩
      rw [k2]
      simp [swrite, spiTransfer]
    · rw [if_neg hx]
      exact ⟨rfl, [], by simp⟩

/-! ## The EEPROM write path of revision 2 -/

theorem wecLoop_step (f start length x : Nat) (s : V2.St2) (e : Eff)
    (hx : x < length) :
    V2.wecLoop (f + 1) start length x s e =
      V2.wecLoop f start length (x + 1) s
        (spiTransfer 0xC0 ((((start + x) % 65536) >>> 8) &&& 0xFF)
          (((start + x) % 65536) &&& 0xFF) (s.buff x) e).2 := by
  rw [V2.wecLoop, if_pos hx]

theorem wecLoop_txns (fuel : Nat) :
    ∀ (start length x : Nat) (s : V2.St2) (e : Eff),
      ∃ T, V2.wecLoop fuel start length x s e = { e with txns := e.txns ++ T } := by
  induction fuel with
  | zero =>
    intro start length x s e
    rw [V2.wecLoop]
    exact ⟨[], by cases e; simp⟩
  | succ f ih =>
    intro start length x s e
    by_cases hx : x < length
    · rw [wecLoop_step f start length x s e hx]
      set t : Txn := (0xC0, (((start + x) % 65536) >>> 8) &&& 0xFF,
        ((start + x) % 65536) &&& 0xFF, s.buff x) with htdef
      have hst : (spiTransfer 0xC0 ((((start + x) % 65536) >>> 8) &&& 0xFF)
          (((start + x) % 65536) &&& 0xFF) (s.buff x) e).2 =
          { e with txns := e.txns ++ [t] } := by
        simp [spiTransfer, devStep, htdef]
      obtain ⟨T, hT⟩ := ih start length (x + 1) s { e with txns := e.txns ++ [t] }
      refine ⟨[t] ++ T, ?_⟩
      rw [hst, hT]
      simp
    · rw [V2.wecLoop, if_neg hx]
      exact ⟨[], by cases e; simp⟩

theorem writeEepromChunk_spec (start len : Nat) (s : V2.St2) (e : Eff)
    (bs rest : List Nat) (hlen : bs.length = len) (hsmall : len < 256)
    (h : e.input = bs ++ rest) :
    ∃ B T, V2.writeEepromChunk start len s e =
      (({ s with buff := B }, { e with input := rest, txns := e.txns ++ T }), 0x10) := by
  rw [V2.writeEepromChunk]
  rw [fill_spec len bs rest s e (by rw [hlen, Nat.mod_eq_of_lt hsmall]) h]
  obtain ⟨T, hT⟩ := wecLoop_txns len start len 0
    { s with buff := buffWrite s.buff 0 bs } { e with input := rest }
  rw [hT]
  exact ⟨buffWrite s.buff 0 bs, T, rfl⟩

theorem weLoop_spec (fuel : Nat) :
    ∀ (remaining start : Nat) (s : V2.St2) (e : Eff) (bs rest : List Nat),
      bs.length = remaining → remaining ≤ fuel → e.input = bs ++ rest →
      ∃ (st2 : Nat) (bs2 : List Nat) (B : Nat → Nat) (T : List Txn),
        V2.weLoop fuel start remaining s e =
          ((st2, bs2.length),
           ({ s with buff := B },
            { e with input := bs2 ++ rest, txns := e.txns ++ T })) ∧
        bs2.length ≤ 32 := by
  induction fuel with
  | zero =>
    intro remaining start s e bs rest hlen hfuel h
    have h0 : remaining = 0 := by omega
    subst h0
    have hbs : bs = [] := List.length_eq_zero.mp hlen
    subst hbs
    rw [V2.weLoop]
    refine ⟨start, [], s.buff, [], ?_, by simp⟩
    simp only [List.length_nil, List.nil_append]
    cases s
    cases e
    simp only at h
    subst h
    simp
  | succ f ih =>
    intro remaining start s e bs rest hlen hfuel h
    rw [V2.weLoop]
    by_cases hrem : 32 < remaining
    · rw [if_pos hrem]
      obtain ⟨B1, T1, hchunk⟩ := writeEepromChunk_spec start 32 s e
        (bs.take 32) (bs.drop 32 ++ rest)
        (by rw [List.length_take]; omega) (by norm_num)
        (by rw [h, ← List.append_assoc, List.take_append_drop])
      rw [hchunk]
      dsimp only
      obtain ⟨st2, bs2, B2, T2, hrec, hle⟩ := ih (remaining - 32)
        ((start + 32) % 65536) { s with buff := B1 }
        { e with input := bs.drop 32 ++ rest, txns := e.txns ++ T1 }
        (bs.drop 32) rest (by rw [List.length_drop]; omega) (by omega) rfl
      rw [hrec]
      refine ⟨st2, bs2, B2, T1 ++ T2, ?_, hle⟩
      simp
    · rw [if_neg hrem]
      refine ⟨start, bs, s.buff, [], ?_, by omega⟩
      rw [hlen]
      cases s
      cases e
      simp only at h
      subst h
      simp

theorem writeEeprom_spec (length : Nat) (s : V2.St2) (e : Eff)
    (bs rest : List Nat) (hlen : bs.length = length)
    (hsize : length ≤ s.param.eeprom_size) (h : e.input = bs ++ rest) :
    ∃ B T, V2.writeEeprom length s e =
      (({ s with buff := B }, { e with input := rest, txns := e.txns ++ T }), 0x10) := by
  rw [V2.writeEeprom]
  rw [if_neg (by omega)]
  obtain ⟨st2, bs2, B1, T1, hloop, hle⟩ := weLoop_spec length length
    ((s.address * 2) % 65536) s e bs rest hlen (le_refl _) h
  rw [hloop]
  dsimp only
  obtain ⟨B2, T2, hchunk⟩ := writeEepromChunk_spec st2 bs2.length
    { s with buff := B1 } { e with input := bs2 ++ rest, txns := e.txns ++ T1 }
    bs2 rest rfl (by omega) rfl
  rw [hchunk]
  refine ⟨B2, T1 ++ T2, ?_⟩
  simp

theorem writeEeprom_fail (length : Nat) (s : V2.St2) (e : Eff)
    (hsize : s.param.eeprom_size < length) :
    V2.writeEeprom length s e = ((V2.bumpError s, e), 0x11) := by
  rw [V2.writeEeprom, if_pos hsize]

/-! ## Per-command characterizations of the revision 2 dispatcher

Each lemma computes `V2.avrisp` on one command frame, for an arbitrary byte
`t` in the terminator position (`t = 0x20` is the well-formed case). -/

theorem reply_eq (has_byte : Bool) (val : Nat) (send_ok : Bool) (s : V2.St2)
    (e : Eff) (t : Nat) (rest : List Nat) (ht : t < 256) (h : e.input = t :: rest) :
    V2.reply has_byte val send_ok s e =
      if t = 0x20 then
        (s, { e with
              input := rest,
              output := e.output ++ [0x14] ++ (if has_byte then [val % 256] else []) ++
                (if send_ok then [0x10] else []) })
      else (V2.bumpError s, { e with input := rest, output := e.output ++ [0x15] }) := by
  cases e with
  | mk i o tx m =>
    simp only at h
    subst h
    by_cases htt : t = 0x20
    · subst htt
      rw [if_pos rfl]
      cases has_byte <;> cases send_ok <;>
        simp [V2.reply, getch, swrite]
    · rw [if_neg htt]
      have hm : t % 256 = t := Nat.mod_eq_of_lt ht
      cases has_byte <;> cases send_ok <;>
        simp [V2.reply, getch, swrite, hm, htt]

theorem avrisp_signon (s : V2.St2) (e : Eff) (t : Nat) (rest : List Nat)
    (ht : t < 256) (h : e.input = 0x30 :: t :: rest) :
    V2.avrisp s e =
      if t = 0x20 then
        ({ s with error := 0 },
         { e with input := rest, output := e.output ++ [0x14, 0x10] })
      else
        ({ s with error := 1 },
         { e with input := rest, output := e.output ++ [0x15] }) := by
  cases e with
  | mk i o tx m =>
    simp only at h
    subst h
    rw [show V2.avrisp s { input := 0x30 :: t :: rest, output := o, txns := tx, mem := m } =
        V2.reply false 0 true { s with error := 0 }
          { input := t :: rest, output := o, txns := tx, mem := m } by
      simp [V2.avrisp, getch]]
    rw [reply_eq false 0 true _ _ t rest ht rfl]
    by_cases htt : t = 0x20
    · rw [if_pos htt, if_pos htt]
      try simp
    · rw [if_neg htt, if_neg htt]
      try simp [V2.bumpError]

theorem avrisp_ident (s : V2.St2) (e : Eff) (t : Nat) (rest : List Nat)
    (ht : t < 256) (h : e.input = 0x31 :: t :: rest) :
    V2.avrisp s e =
      if t = 0x20 then
        (s, { e with
              input := rest,
              output := e.output ++ [0x14, 65, 86, 82, 32, 73, 83, 80, 0x10] })
      else
        (V2.bumpError s, { e with input := rest, output := e.output ++ [0x15] }) := by
  cases e with
  | mk i o tx m =>
    simp only at h
    subst h
    have hm : t % 256 = t := Nat.mod_eq_of_lt ht
    by_cases htt : t = 0x20
    · rw [if_pos htt]
      subst htt
      simp [V2.avrisp, getch, swrite]
    · rw [if_neg htt]
      simp [V2.avrisp, getch, swrite, hm, htt]

theorem avrisp_setaddr (s : V2.St2) (e : Eff) (lo hi t : Nat) (rest : List Nat)
    (hlo : lo < 256) (hhi : hi < 256) (ht : t < 256)
    (h : e.input = 0x55 :: lo :: hi :: t :: rest) :
    V2.avrisp s e =
      if t = 0x20 then
        ({ s with address := lo + 256 * hi },
         { e with input := rest, output := e.output ++ [0x14, 0x10] })
      else
        (V2.bumpError { s with address := lo + 256 * hi },
         { e with input := rest, output := e.output ++ [0x15] }) := by
  cases e with
  | mk i o tx m =>
    simp only at h
    subst h
    have hmod : (lo % 256 + 256 * (hi % 256)) % 65536 = lo + 256 * hi := by
      rw [Nat.mod_eq_of_lt hlo, Nat.mod_eq_of_lt hhi]
      apply Nat.mod_eq_of_lt
      omega
    rw [show V2.avrisp s { input := 0x55 :: lo :: hi :: t :: rest, output := o, txns := tx, mem := m } =
        V2.reply false 0 true { s with address := (lo % 256 + 256 * (hi % 256)) % 65536 }
          { input := t :: rest, output := o, txns := tx, mem := m } by
      simp [V2.avrisp, getch]]
    rw [hmod, reply_eq false 0 true _ _ t rest ht rfl]
    by_cases htt : t = 0x20
    · rw [if_pos htt, if_pos htt]
      try simp
    · rw [if_neg htt, if_neg htt]
      try simp [V2.bumpError]

theorem avrisp_progflash (s : V2.St2) (e : Eff) (b1 b2 t : Nat) (rest : List Nat)
    (ht : t < 256) (h : e.input = 0x60 :: b1 :: b2 :: t :: rest) :
    V2.avrisp s e =
      if t = 0x20 then
        (s, { e with input := rest, output := e.output ++ [0x14, 0x10] })
      else
        (V2.bumpError s, { e with input := rest, output := e.output ++ [0x15] }) := by
  cases e with
  | mk i o tx m =>
    simp only at h
    subst h
    rw [show V2.avrisp s { input := 0x60 :: b1 :: b2 :: t :: rest, output := o, txns := tx, mem := m } =
        V2.reply false 0 true s
          { input := t :: rest, output := o, txns := tx, mem := m } by
      simp [V2.avrisp, getch]]
    rw [reply_eq false 0 true _ _ t rest ht rfl]
    by_cases htt : t = 0x20
    · rw [if_pos htt, if_pos htt]
      try simp
    · rw [if_neg htt, if_neg htt]
      try simp

theorem avrisp_progdata (s : V2.St2) (e : Eff) (b1 t : Nat) (rest : List Nat)
    (ht : t < 256) (h : e.input = 0x61 :: b1 :: t :: rest) :
    V2.avrisp s e =
      if t = 0x20 then
        (s, { e with input := rest, output := e.output ++ [0x14, 0x10] })
      else
        (V2.bumpError s, { e with input := rest, output := e.output ++ [0x15] }) := by
  cases e with
  | mk i o tx m =>
    simp only at h
    subst h
    rw [show V2.avrisp s { input := 0x61 :: b1 :: t :: rest, output := o, txns := tx, mem := m } =
        V2.reply false 0 true s
          { input := t :: rest, output := o, txns := tx, mem := m } by
      simp [V2.avrisp, getch]]
    rw [reply_eq false 0 true _ _ t rest ht rfl]
    by_cases htt : t = 0x20
    · rw [if_pos htt, if_pos htt]
      try simp
    · rw [if_neg htt, if_neg htt]
      try simp

theorem avrisp_leave (s : V2.St2) (e : Eff) (t : Nat) (rest : List Nat)
    (ht : t < 256) (h : e.input = 0x51 :: t :: rest) :
    V2.avrisp s e =
      if t = 0x20 then
        ({ s with error := 0, programming := false },
         { e with input := rest, output := e.output ++ [0x14, 0x10] })
      else
        ({ s with error := 1, programming := false },
         { e with input := rest, output := e.output ++ [0x15] }) := by
  cases e with
  | mk i o tx m =>
    simp only at h
    subst h
    rw [show V2.avrisp s { input := 0x51 :: t :: rest, output := o, txns := tx, mem := m } =
        V2.reply false 0 true { s with error := 0, programming := false }
          { input := t :: rest, output := o, txns := tx, mem := m } by
      simp [V2.avrisp, getch, endProgramming]]
    rw [reply_eq false 0 true _ _ t rest ht rfl]
    by_cases htt : t = 0x20
    · rw [if_pos htt, if_pos htt]
      try simp
    · rw [if_neg htt, if_neg htt]
      try simp [V2.bumpError]

theorem avrisp_eopcmd (s : V2.St2) (e : Eff) (rest : List Nat)
    (h : e.input = 0x20 :: rest) :
    V2.avrisp s e =
      (V2.bumpError s, { e with input := rest, output := e.output ++ [0x15] }) := by
  cases e with
  | mk i o tx m =>
    simp only at h
    subst h
    simp [V2.avrisp, getch, swrite]

theorem avrisp_unknown (s : V2.St2) (e : Eff) (c t : Nat) (rest : List Nat)
    (hc : c < 256) (ht : t < 256)
    (hno : c ∉ [0x30, 0x31, 0x41, 0x42, 0x45, 0x50, 0x55, 0x60, 0x61, 0x64,
      0x74, 0x56, 0x51, 0x75, 0x20])
    (h : e.input = c :: t :: rest) :
    V2.avrisp s e =
      if t = 0x20 then
        (V2.bumpError s, { e with input := rest, output := e.output ++ [0x12] })
      else
        (V2.bumpError s, { e with input := rest, output := e.output ++ [0x15] }) := by
  simp only [List.mem_cons, List.mem_singleton] at hno
  push_neg at hno
  obtain ⟨n1, n2, n3, n4, n5, n6, n7, n8, n9, n10, n11, n12, n13, n14, n15⟩ := hno
  cases e with
  | mk i o tx m =>
    simp only at h
    subst h
    have hmc : c % 256 = c := Nat.mod_eq_of_lt hc
    have hmt : t % 256 = t := Nat.mod_eq_of_lt ht
    by_cases htt : t = 0x20
    · rw [if_pos htt]
      subst htt
      simp [V2.avrisp, getch, swrite, hmc,
        n1, n2, n3, n4, n5, n6, n7, n8, n9, n10, n11, n12, n13, n14, n15]
    · rw [if_neg htt]
      simp [V2.avrisp, getch, swrite, hmc, hmt, htt,
        n1, n2, n3, n4, n5, n6, n7, n8, n9, n10, n11, n12, n13, n14, n15]

theorem avrisp_getparm (s : V2.St2) (e : Eff) (sel t : Nat) (rest : List Nat)
    (hsel : sel < 256) (ht : t < 256) (h : e.input = 0x41 :: sel :: t :: rest) :
    if t = 0x20 then
      ∃ v, V2.avrisp s e =
        (s, { e with input := rest, output := e.output ++ [0x14, v, 0x10] })
    else
      V2.avrisp s e =
        (V2.bumpError s, { e with input := rest, output := e.output ++ [0x15] }) := by
  cases e with
  | mk i o tx m =>
    simp only at h
    subst h
    have hdisp : V2.avrisp s
        { input := 0x41 :: sel :: t :: rest, output := o, txns := tx, mem := m } =
        V2.replyVersion (sel % 256) s
          { input := t :: rest, output := o, txns := tx, mem := m } := by
      simp [V2.avrisp, getch]
    have hrv : ∃ val, V2.replyVersion (sel % 256) s
        { input := t :: rest, output := o, txns := tx, mem := m } =
        V2.reply true val true s
          { input := t :: rest, output := o, txns := tx, mem := m } := by
      rw [V2.replyVersion]
      by_cases h1 : sel % 256 = 0x80
      · rw [if_pos h1]
        exact ⟨2, rfl⟩
      rw [if_neg h1]
      by_cases h2 : sel % 256 = 0x81
      · rw [if_pos h2]
        exact ⟨1, rfl⟩
      rw [if_neg h2]
      by_cases h3 : sel % 256 = 0x82
      · rw [if_pos h3]
        exact ⟨18, rfl⟩
      rw [if_neg h3]
      by_cases h4 : sel % 256 = 0x93
      · rw [if_pos h4]
        exact ⟨83, rfl⟩
      rw [if_neg h4]
      exact ⟨0, rfl⟩
    obtain ⟨val, hval⟩ := hrv
    rw [reply_eq true val true s _ t rest ht rfl] at hval
    by_cases htt : t = 0x20
    · rw [if_pos htt]
      rw [if_pos htt] at hval
      refine ⟨val % 256, ?_⟩
      rw [hdisp, hval]
      simp
    · rw [if_neg htt]
      rw [if_neg htt] at hval
      rw [hdisp, hval]

theorem avrisp_setparm (s : V2.St2) (e : Eff) (bs : List Nat) (t : Nat)
    (rest : List Nat) (hlen : bs.length = 20) (ht : t < 256)
    (h : e.input = 0x42 :: (bs ++ t :: rest)) :
    V2.avrisp s e =
      if t = 0x20 then
        (setParameters { s with buff := buffWrite s.buff 0 bs },
         { e with input := rest, output := e.output ++ [0x14, 0x10] })
      else
        (V2.bumpError (setParameters { s with buff := buffWrite s.buff 0 bs }),
         { e with input := rest, output := e.output ++ [0x15] }) := by
  cases e with
  | mk i o tx m =>
    simp only at h
    subst h
    have hfill := fill_spec (ε := Nat) 20 bs (t :: rest) s
      { input := bs ++ t :: rest, output := o, txns := tx, mem := m }
      (by rw [hlen]) rfl
    rw [show V2.avrisp s
        { input := 0x42 :: (bs ++ t :: rest), output := o, txns := tx, mem := m } =
        V2.reply false 0 true
          (setParameters
            (fill 20 s { input := bs ++ t :: rest, output := o, txns := tx, mem := m }).1)
          (fill 20 s { input := bs ++ t :: rest, output := o, txns := tx, mem := m }).2 by
      simp [V2.avrisp, getch]]
    rw [hfill]
    rw [reply_eq false 0 true _ _ t rest ht rfl]
    by_cases htt : t = 0x20
    · rw [if_pos htt, if_pos htt]
      try simp
    · rw [if_neg htt, if_neg htt]
      try simp

theorem avrisp_extparm (s : V2.St2) (e : Eff) (bs : List Nat) (t : Nat)
    (rest : List Nat) (hlen : bs.length = 5) (ht : t < 256)
    (h : e.input = 0x45 :: (bs ++ t :: rest)) :
    V2.avrisp s e =
      if t = 0x20 then
        ({ s with buff := buffWrite s.buff 0 bs },
         { e with input := rest, output := e.output ++ [0x14, 0x10] })
      else
        (V2.bumpError { s with buff := buffWrite s.buff 0 bs },
         { e with input := rest, output := e.output ++ [0x15] }) := by
  cases e with
  | mk i o tx m =>
    simp only at h
    subst h
    have hfill := fill_spec (ε := Nat) 5 bs (t :: rest) s
      { input := bs ++ t :: rest, output := o, txns := tx, mem := m }
      (by rw [hlen]) rfl
    rw [show V2.avrisp s
        { input := 0x45 :: (bs ++ t :: rest), output := o, txns := tx, mem := m } =
        V2.reply false 0 true
          (fill 5 s { input := bs ++ t :: rest, output := o, txns := tx, mem := m }).1
          (fill 5 s { input := bs ++ t :: rest, output := o, txns := tx, mem := m }).2 by
      simp [V2.avrisp, getch]]
    rw [hfill]
    rw [reply_eq false 0 true _ _ t rest ht rfl]
    by_cases htt : t = 0x20
    · rw [if_pos htt, if_pos htt]
      try simp
    · rw [if_neg htt, if_neg htt]
      try simp

theorem avrisp_enterprog (s : V2.St2) (e : Eff) (t : Nat) (rest : List Nat)
    (ht : t < 256) (h : e.input = 0x50 :: t :: rest) :
    V2.avrisp s e =
      if t = 0x20 then
        ({ s with programming := true },
         { e with
           input := rest,
           output := e.output ++ [0x14, 0x10],
           txns := e.txns ++
             (if s.programming then [] else [(0xAC, 0x53, 0x00, 0x00)]) })
      else
        (V2.bumpError { s with programming := true },
         { e with
           input := rest,
           output := e.output ++ [0x15],
           txns := e.txns ++
             (if s.programming then [] else [(0xAC, 0x53, 0x00, 0x00)]) }) := by
  cases e with
  | mk i o tx m =>
    simp only at h
    subst h
    by_cases hp : s.programming
    · have hs : { s with programming := true } = s := by
        cases s
        simp only at hp
        simp [hp]
      rw [show V2.avrisp s
          { input := 0x50 :: t :: rest, output := o, txns := tx, mem := m } =
          V2.reply false 0 true s
            { input := t :: rest, output := o, txns := tx, mem := m } by
        simp [V2.avrisp, getch, hp]]
      rw [reply_eq false 0 true _ _ t rest ht rfl]
      rw [hs]
      by_cases htt : t = 0x20
      · rw [if_pos htt, if_pos htt]
        simp [hp]
      · rw [if_neg htt, if_neg htt]
        simp [hp, V2.bumpError]
    · rw [show V2.avrisp s
          { input := 0x50 :: t :: rest, output := o, txns := tx, mem := m } =
          V2.reply false 0 true { s with programming := true }
            { input := t :: rest, output := o, txns := tx ++ [(0xAC, 0x53, 0x00, 0x00)],
              mem := m } by
        simp [V2.avrisp, getch, hp, beginProgramming, spiTransfer, devStep]]
      rw [reply_eq false 0 true _ _ t rest ht rfl]
      by_cases htt : t = 0x20
      · rw [if_pos htt, if_pos htt]
        simp [hp]
      · rw [if_neg htt, if_neg htt]
        simp [hp, V2.bumpError]

theorem avrisp_readsig (s : V2.St2) (e : Eff) (t : Nat) (rest : List Nat)
    (ht : t < 256) (h : e.input = 0x75 :: t :: rest) :
    if t = 0x20 then
      ∃ v1 v2 v3,
        (V2.avrisp s e).1 = s ∧
        (V2.avrisp s e).2.input = rest ∧
        (V2.avrisp s e).2.output = e.output ++ [0x14, v1, v2, v3, 0x10]
    else
      V2.avrisp s e =
        (V2.bumpError s, { e with input := rest, output := e.output ++ [0x15] }) := by
  cases e with
  | mk i o tx m =>
    simp only at h
    subst h
    have hm : t % 256 = t := Nat.mod_eq_of_lt ht
    by_cases htt : t = 0x20
    · rw [if_pos htt]
      subst htt
      refine ⟨0, 0, 0, ?_, ?_, ?_⟩ <;>
        simp [V2.avrisp, V2.readSignature, getch, swrite, spiTransfer, devStep]
    · rw [if_neg htt]
      simp [V2.avrisp, V2.readSignature, getch, swrite, hm, htt]

theorem writeFlash_badEop (length : Nat) (s : V2.St2) (e : Eff)
    (data rest : List Nat) (t : Nat) (ht : t < 256) (htt : t ≠ 0x20)
    (hdata : data.length = length % 256) (h : e.input = data ++ t :: rest) :
    V2.writeFlash length s e =
      (V2.bumpError { s with buff := buffWrite s.buff 0 data },
       { e with input := rest, output := e.output ++ [0x15] }) := by
  cases e with
  | mk i o tx m =>
    simp only at h
    subst h
    simp only [V2.writeFlash]
    rw [fill_spec length data (t :: rest) s _ hdata rfl]
    simp [getch, swrite, Nat.mod_eq_of_lt ht, htt]

theorem writeFlash_goodEop (length : Nat) (s : V2.St2) (e : Eff)
    (data rest : List Nat) (hdata : data.length = length % 256)
    (h : e.input = data ++ 0x20 :: rest) :
    (V2.writeFlash length s e).2.output = e.output ++ [0x14, 0x10] ∧
    (V2.writeFlash length s e).2.input = rest ∧
    (V2.writeFlash length s e).1.error = s.error ∧
    (V2.writeFlash length s e).1.programming = s.programming ∧
    (V2.writeFlash length s e).1.param = s.param := by
  cases e with
  | mk i o tx m =>
    simp only at h
    subst h
    simp only [V2.writeFlash]
    rw [fill_spec length data (0x20 :: rest) s _ hdata rfl]
    simp only [getch, V2.writeFlashPages]
    norm_num
    obtain ⟨k1, k2, k3, k4, k5, k6⟩ :=
      wfpLoop_frame length length
        (V2.getPage ({ s with buff := buffWrite s.buff 0 data } : V2.St2).param.flash_pagesize
          ({ s with buff := buffWrite s.buff 0 data } : V2.St2).address)
        0 { s with buff := buffWrite s.buff 0 data }
        (swrite 0x14 { input := rest, output := o, txns := tx, mem := m })
    refine ⟨?_, ?_, ?_, ?_, ?_⟩
    · rw [swrite, k6]
      simp [swrite]
    · rw [swrite, k5]
      rfl
    · rw [k1]
    · rw [k2]
    · rw [k3]

theorem avrisp_progF_dispatch (s : V2.St2) (e : Eff) (lh ll : Nat)
    (rest2 : List Nat) (hlh : lh < 256) (hll : ll < 256)
    (h : e.input = 0x64 :: lh :: ll :: 70 :: rest2) :
    V2.avrisp s e = V2.writeFlash (256 * lh + ll) s
      { e with input := rest2 } := by
  cases e with
  | mk i o tx m =>
    simp only at h
    subst h
    have hlen : (256 * (lh % 256) + (ll % 256)) % 65536 = 256 * lh + ll := by
      rw [Nat.mod_eq_of_lt hlh, Nat.mod_eq_of_lt hll]
      exact Nat.mod_eq_of_lt (by omega)
    simp [V2.avrisp, V2.programPage, getch, hlen]

theorem avrisp_progE_dispatch (s : V2.St2) (e : Eff) (lh ll : Nat)
    (rest2 : List Nat) (hlh : lh < 256) (hll : ll < 256)
    (h : e.input = 0x64 :: lh :: ll :: 69 :: rest2) :
    V2.avrisp s e =
      (if (getch (V2.writeEeprom (256 * lh + ll) s { e with input := rest2 }).1.2).1 = 0x20
       then ((V2.writeEeprom (256 * lh + ll) s { e with input := rest2 }).1.1,
         swrite (V2.writeEeprom (256 * lh + ll) s { e with input := rest2 }).2
           (swrite 0x14
             (getch (V2.writeEeprom (256 * lh + ll) s { e with input := rest2 }).1.2).2))
       else (V2.bumpError (V2.writeEeprom (256 * lh + ll) s { e with input := rest2 }).1.1,
         swrite 0x15
           (getch (V2.writeEeprom (256 * lh + ll) s { e with input := rest2 }).1.2).2)) := by
  cases e with
  | mk i o tx m =>
    simp only at h
    subst h
    have hlen : (256 * (lh % 256) + (ll % 256)) % 65536 = 256 * lh + ll := by
      rw [Nat.mod_eq_of_lt hlh, Nat.mod_eq_of_lt hll]
      exact Nat.mod_eq_of_lt (by omega)
    simp [V2.avrisp, V2.programPage, getch, hlen]

theorem avrisp_progBadMem (s : V2.St2) (e : Eff) (lh ll mt : Nat)
    (rest : List Nat) (hmt : mt < 256) (hmtF : mt ≠ 70) (hmtE : mt ≠ 69)
    (h : e.input = 0x64 :: lh :: ll :: mt :: rest) :
    V2.avrisp s e = (s, { e with input := rest, output := e.output ++ [0x11] }) := by
  cases e with
  | mk i o tx m =>
    simp only at h
    subst h
    simp [V2.avrisp, V2.programPage, getch, swrite, Nat.mod_eq_of_lt hmt, hmtF, hmtE]

/-- Exact behavior of `writeFlash` with a valid terminator and no 16-bit
address wrap-around: staged payload, advanced address, per-page commits, and
the device memory image. -/
theorem writeFlash_exact (length : Nat) (s : V2.St2) (e : Eff)
    (data rest : List Nat) (hdata : data.length = length % 256)
    (ha : s.address < 65536) (hnw : s.address + (length + 1) / 2 ≤ 65536)
    (h : e.input = data ++ 0x20 :: rest) :
    (V2.writeFlash length s e).1.address = (s.address + (length + 1) / 2) % 65536 ∧
    (V2.writeFlash length s e).1.error = s.error ∧
    (V2.writeFlash length s e).1.programming = s.programming ∧
    (V2.writeFlash length s e).1.param = s.param ∧
    (V2.writeFlash length s e).1.buff = buffWrite s.buff 0 data ∧
    (V2.writeFlash length s e).2.input = rest ∧
    (V2.writeFlash length s e).2.output = e.output ++ [0x14, 0x10] ∧
    (∃ T, (V2.writeFlash length s e).2.txns = e.txns ++ T ∧
      commitAddrs T = commitList s.param.flash_pagesize
        (V2.getPage s.param.flash_pagesize s.address) s.address ((length + 1) / 2)) ∧
    (∀ b, (V2.writeFlash length s e).2.mem b =
      if 2 * s.address ≤ b ∧ b < 2 * s.address + 2 * ((length + 1) / 2)
      then buffWrite s.buff 0 data (b - 2 * s.address) else e.mem b) := by
  cases e with
  | mk i o tx m =>
    simp only at h
    subst h
    simp only [V2.writeFlash]
    rw [fill_spec length data (0x20 :: rest) s _ hdata rfl]
    simp only [getch, V2.writeFlashPages]
    norm_num
    have hspec := wfpLoop_spec
      ({ s with buff := buffWrite s.buff 0 data } : V2.St2).param.flash_pagesize
      length 0 length
      (V2.getPage ({ s with buff := buffWrite s.buff 0 data } : V2.St2).param.flash_pagesize
        ({ s with buff := buffWrite s.buff 0 data } : V2.St2).address)
      { s with buff := buffWrite s.buff 0 data }
      (swrite 0x14 { input := rest, output := o, txns := tx, mem := m })
      rfl (by omega) (by dsimp only; exact ha)
      (by dsimp only; omega)
      (by
        dsimp only
        exact Nat.lt_of_le_of_lt (getPage_le _ _ ha) ha)
    rw [WfpPost] at hspec
    obtain ⟨q1, q2, q3, q4, q5, q6, q7, ⟨T, hT, hCT⟩, q9⟩ := hspec
    dsimp only at q1 q2 q3 q4 q5 q6 q7 hT hCT q9
    simp only [Nat.sub_zero] at q1 hCT q9
    simp only [swrite] at q1 q2 q3 q4 q5 q6 q7 hT hCT q9 ⊢
    refine ⟨q1, q2, q3, q4, q5, q6, ?_, ⟨T, ?_, hCT⟩, ?_⟩
    · rw [q7]
      simp
    · rw [hT]
    · intro b
      rw [q9 b]
      simp only [Nat.zero_add]

theorem avrisp_read_dispatch (s : V2.St2) (e : Eff) (rest2 : List Nat)
    (h : e.input = 0x74 :: rest2) :
    V2.avrisp s e = V2.readPage s { e with input := rest2 } := by
  cases e with
  | mk i o tx m =>
    simp only at h
    subst h
    simp [V2.avrisp, getch]

theorem readPage_badEop (s : V2.St2) (e : Eff) (lh ll mt t : Nat)
    (rest : List Nat) (ht : t < 256) (htt : t ≠ 0x20)
    (h : e.input = lh :: ll :: mt :: t :: rest) :
    V2.readPage s e =
      (V2.bumpError s, { e with input := rest, output := e.output ++ [0x15] }) := by
  cases e with
  | mk i o tx m =>
    simp only at h
    subst h
    simp [V2.readPage, getch, swrite, Nat.mod_eq_of_lt ht, htt]

/-- Exact behavior of a flash page read with a valid terminator and no
address wrap: emits `INSYNC`, the device bytes, `OK`, and advances the
session address. -/
theorem readPage_goodF_exact (s : V2.St2) (e : Eff) (lh ll : Nat)
    (rest : List Nat) (hlh : lh < 256) (hll : ll < 256)
    (ha : s.address < 65536)
    (hnw : s.address + (256 * lh + ll + 1) / 2 ≤ 65536)
    (h : e.input = lh :: ll :: 70 :: 0x20 :: rest) :
    (V2.readPage s e).1.address =
        (s.address + (256 * lh + ll + 1) / 2) % 65536 ∧
    (V2.readPage s e).1.error = s.error ∧
    (V2.readPage s e).1.programming = s.programming ∧
    (V2.readPage s e).1.param = s.param ∧
    (V2.readPage s e).1.buff = s.buff ∧
    (V2.readPage s e).2.input = rest ∧
    (V2.readPage s e).2.output = e.output ++ [0x14] ++
      readBytes e.mem s.address ((256 * lh + ll + 1) / 2) ++ [0x10] ∧
    (V2.readPage s e).2.mem = e.mem := by
  cases e with
  | mk i o tx m =>
    simp only at h
    subst h
    have hlen : (256 * (lh % 256) + (ll % 256)) % 65536 = 256 * lh + ll := by
      rw [Nat.mod_eq_of_lt hlh, Nat.mod_eq_of_lt hll]
      exact Nat.mod_eq_of_lt (by omega)
    simp only [V2.readPage, getch, hlen, V2.readFlashPage]
    norm_num
    obtain ⟨q1, q2, q3, q4, q5, q6, q7, q8⟩ := rfpLoop_spec (256 * lh + ll) 0
      (256 * lh + ll) s
      (swrite 0x14 { input := rest, output := o, txns := tx, mem := m })
      (by omega) ha (by simpa using hnw)
    simp only [Nat.sub_zero] at q1 q7
    refine ⟨q1, q2, q3, q4, q5, q6, ?_, q8⟩
    rw [swrite, q7]
    simp [swrite]

theorem readPage_goodF (s : V2.St2) (e : Eff) (lh ll : Nat)
    (rest : List Nat) (hlh : lh < 256) (hll : ll < 256)
    (h : e.input = lh :: ll :: 70 :: 0x20 :: rest) :
    (∃ mid, (V2.readPage s e).2.output = e.output ++ [0x14] ++ mid ++ [0x10]) ∧
    (V2.readPage s e).2.input = rest ∧
    (V2.readPage s e).1.error = s.error ∧
    (V2.readPage s e).1.programming = s.programming ∧
    (V2.readPage s e).1.param = s.param ∧
    (V2.readPage s e).1.buff = s.buff := by
  cases e with
  | mk i o tx m =>
    simp only at h
    subst h
    simp only [V2.readPage, getch, V2.readFlashPage]
    norm_num
    obtain ⟨k1, k2, k3, k4, k5, mid, k6⟩ :=
      rfpLoop_frame ((256 * (lh % 256) + (ll % 256)) % 65536)
        ((256 * (lh % 256) + (ll % 256)) % 65536) 0 s
        (swrite 0x14 { input := rest, output := o, txns := tx, mem := m })
    refine ⟨⟨mid, ?_⟩, ?_, k1, k2, k3, k4⟩
    · rw [swrite, k6]
      simp [swrite]
    · rw [swrite, k5]
      rfl

theorem readPage_goodE (s : V2.St2) (e : Eff) (lh ll : Nat)
    (rest : List Nat) (hlh : lh < 256) (hll : ll < 256)
    (h : e.input = lh :: ll :: 69 :: 0x20 :: rest) :
    (∃ mid, (V2.readPage s e).2.output = e.output ++ [0x14] ++ mid ++ [0x10]) ∧
    (V2.readPage s e).2.input = rest ∧
    (V2.readPage s e).1 = s := by
  cases e with
  | mk i o tx m =>
    simp only at h
    subst h
    simp only [V2.readPage, getch, V2.readEepromPage]
    norm_num
    obtain ⟨k1, mid, k2⟩ :=
      repLoop_frame ((256 * (lh % 256) + (ll % 256)) % 65536)
        ((s.address * 2) % 65536) ((256 * (lh % 256) + (ll % 256)) % 65536) 0 s
        (swrite 0x14 { input := rest, output := o, txns := tx, mem := m })
    refine ⟨⟨mid, ?_⟩, ?_⟩
    · rw [swrite, k2]
      simp [swrite]
    · rw [swrite, k1]
      rfl

theorem avrisp_progE (s : V2.St2) (e : Eff) (lh ll t : Nat) (data rest : List Nat)
    (hlh : lh < 256) (hll : ll < 256) (ht : t < 256)
    (hdata : data.length =
      (if 256 * lh + ll ≤ s.param.eeprom_size then 256 * lh + ll else 0))
    (h : e.input = 0x64 :: lh :: ll :: 69 :: (data ++ t :: rest)) :
    if t = 0x20 then
      ((V2.avrisp s e).2.output = e.output ++
          [0x14, if s.param.eeprom_size < 256 * lh + ll then 0x11 else 0x10] ∧
       (V2.avrisp s e).2.input = rest ∧
       (V2.avrisp s e).1.programming = s.programming ∧
       (V2.avrisp s e).1.address = s.address ∧
       (V2.avrisp s e).1.param = s.param)
    else
      ((V2.avrisp s e).2.output = e.output ++ [0x15] ∧
       (V2.avrisp s e).2.input = rest ∧
       (V2.avrisp s e).1.programming = s.programming ∧
       (V2.avrisp s e).1.address = s.address ∧
       (V2.avrisp s e).1.param = s.param) := by
  rw [avrisp_progE_dispatch s e lh ll (data ++ t :: rest) hlh hll h]
  by_cases hsize : s.param.eeprom_size < 256 * lh + ll
  · have hd0 : data = [] := by
      have : data.length = 0 := by
        rw [hdata, if_neg (by omega)]
      exact List.length_eq_zero.mp this
    subst hd0
    rw [writeEeprom_fail (256 * lh + ll) s _ hsize]
    have hg : getch { e with input := [] ++ t :: rest } = (t, { e with input := rest }) := by
      cases e
      simp [getch, Nat.mod_eq_of_lt ht]
    dsimp only
    rw [hg]
    by_cases htt : t = 0x20
    · rw [if_pos htt, if_pos htt]
      refine ⟨?_, rfl, rfl, rfl, rfl⟩
      rw [if_pos hsize]
      cases e
      simp [swrite]
    · rw [if_neg htt, if_neg htt]
      exact ⟨by cases e; simp [swrite], rfl, rfl, rfl, rfl⟩
  · obtain ⟨B, T, hwe⟩ := writeEeprom_spec (256 * lh + ll) s
      { e with input := data ++ t :: rest } data (t :: rest)
      (by rw [hdata, if_pos (by omega)]) (by omega) rfl
    rw [hwe]
    have hg : getch { e with input := t :: rest, txns := e.txns ++ T } =
        (t, { e with input := rest, txns := e.txns ++ T }) := by
      cases e
      simp [getch, Nat.mod_eq_of_lt ht]
    dsimp only
    rw [hg]
    by_cases htt : t = 0x20
    · rw [if_pos htt, if_pos htt]
      refine ⟨?_, rfl, rfl, rfl, rfl⟩
      rw [if_neg hsize]
      cases e
      simp [swrite]
    · rw [if_neg htt, if_neg htt]
      exact ⟨by cases e; simp [swrite], rfl, rfl, rfl, rfl⟩

theorem avrisp_universal (s : V2.St2) (e : Eff) (b1 b2 b3 b4 t : Nat)
    (rest : List Nat) (ht : t < 256)
    (h : e.input = 0x56 :: b1 :: b2 :: b3 :: b4 :: t :: rest) :
    if t = 0x20 then
      (∃ v, (V2.avrisp s e).2.output = e.output ++ [0x14, v, 0x10]) ∧
      (V2.avrisp s e).2.input = rest ∧
      (V2.avrisp s e).1.error = s.error ∧
      (V2.avrisp s e).1.programming = s.programming ∧
      (V2.avrisp s e).1.address = s.address ∧
      (V2.avrisp s e).1.param = s.param
    else
      ((V2.avrisp s e).2.output = e.output ++ [0x15] ∧
       (V2.avrisp s e).2.input = rest ∧
       (V2.avrisp s e).1.error = (s.error + 1) % 256 ∧
       (V2.avrisp s e).1.programming = s.programming ∧
       (V2.avrisp s e).1.address = s.address ∧
       (V2.avrisp s e).1.param = s.param) := by
  cases e with
  | mk i o tx m =>
    simp only at h
    subst h
    have hdisp : V2.avrisp s
        { input := 0x56 :: b1 :: b2 :: b3 :: b4 :: t :: rest, output := o,
          txns := tx, mem := m } =
        V2.universal s
          { input := b1 :: b2 :: b3 :: b4 :: t :: rest, output := o,
            txns := tx, mem := m } := by
      simp [V2.avrisp, getch]
    have hfill := fill_spec (ε := Nat) 4 [b1, b2, b3, b4] (t :: rest) s
      { input := b1 :: b2 :: b3 :: b4 :: t :: rest, output := o, txns := tx, mem := m }
      (by simp) (by simp)
    have huniv : V2.universal s
        { input := b1 :: b2 :: b3 :: b4 :: t :: rest, output := o,
          txns := tx, mem := m } =
        V2.reply true
          (spiTransfer (buffWrite s.buff 0 [b1, b2, b3, b4] 0)
            (buffWrite s.buff 0 [b1, b2, b3, b4] 1)
            (buffWrite s.buff 0 [b1, b2, b3, b4] 2)
            (buffWrite s.buff 0 [b1, b2, b3, b4] 3)
            { input := t :: rest, output := o, txns := tx, mem := m }).1 true
          { s with buff := buffWrite s.buff 0 [b1, b2, b3, b4] }
          (spiTransfer (buffWrite s.buff 0 [b1, b2, b3, b4] 0)
            (buffWrite s.buff 0 [b1, b2, b3, b4] 1)
            (buffWrite s.buff 0 [b1, b2, b3, b4] 2)
            (buffWrite s.buff 0 [b1, b2, b3, b4] 3)
            { input := t :: rest, output := o, txns := tx, mem := m }).2 := by
      simp only [V2.universal]
      rw [hfill]
    rw [hdisp, huniv]
    rw [reply_eq true _ _ _ _ t rest ht (by simp [spiTransfer])]
    by_cases htt : t = 0x20
    · rw [if_pos htt, if_pos htt]
      refine ⟨⟨(spiTransfer (buffWrite s.buff 0 [b1, b2, b3, b4] 0)
          (buffWrite s.buff 0 [b1, b2, b3, b4] 1)
          (buffWrite s.buff 0 [b1, b2, b3, b4] 2)
          (buffWrite s.buff 0 [b1, b2, b3, b4] 3)
          { input := t :: rest, output := o, txns := tx, mem := m }).1 % 256, ?_⟩,
        ?_, rfl, rfl, rfl, rfl⟩
      · simp [spiTransfer]
      · simp [spiTransfer]
    · rw [if_neg htt, if_neg htt]
      refine ⟨?_, ?_, rfl, rfl, rfl, rfl⟩
      · simp [spiTransfer]
      · simp [spiTransfer]

theorem readPage_goodBadMem (s : V2.St2) (e : Eff) (lh ll mt : Nat)
    (rest : List Nat) (hmt : mt < 256) (hmtF : mt ≠ 70) (hmtE : mt ≠ 69)
    (h : e.input = lh :: ll :: mt :: 0x20 :: rest) :
    V2.readPage s e =
      (s, { e with input := rest, output := e.output ++ [0x14, 0x11] }) := by
  cases e with
  | mk i o tx m =>
    simp only at h
    subst h
    simp [V2.readPage, getch, swrite, Nat.mod_eq_of_lt hmt, hmtF, hmtE]

theorem avrisp_progF (s : V2.St2) (e : Eff) (lh ll t : Nat) (data rest : List Nat)
    (hlh : lh < 256) (hll : ll < 256) (ht : t < 256)
    (hdata : data.length = (256 * lh + ll) % 256)
    (h : e.input = 0x64 :: lh :: ll :: 70 :: (data ++ t :: rest)) :
    if t = 0x20 then
      ((V2.avrisp s e).2.output = e.output ++ [0x14, 0x10] ∧
       (V2.avrisp s e).2.input = rest ∧
       (V2.avrisp s e).1.error = s.error ∧
       (V2.avrisp s e).1.programming = s.programming ∧
       (V2.avrisp s e).1.param = s.param)
    else
      V2.avrisp s e =
        (V2.bumpError { s with buff := buffWrite s.buff 0 data },
         { e with input := rest, output := e.output ++ [0x15] }) := by
  rw [avrisp_progF_dispatch s e lh ll (data ++ t :: rest) hlh hll h]
  by_cases htt : t = 0x20
  · rw [if_pos htt]
    subst htt
    exact writeFlash_goodEop (256 * lh + ll) s { e with input := data ++ 0x20 :: rest }
      data rest hdata rfl
  · rw [if_neg htt]
    exact writeFlash_badEop (256 * lh + ll) s { e with input := data ++ t :: rest }
      data rest t ht htt hdata rfl

/-! ## Revision 1: error-flag behavior and the flash bounds check -/

theorem v1_receiveEop_eq (s : V1.St1) (e : Eff) (t : Nat) (rest : List Nat)
    (ht : t < 256) (h : e.input = t :: rest) :
    V1.receiveEop s e =
      if t = 0x20 then
        (true, (s, { e with input := rest, output := e.output ++ [0x14] }))
      else
        (false, ({ s with error := true },
          { e with input := rest, output := e.output ++ [0x15] })) := by
  cases e with
  | mk i o tx m =>
    simp only at h
    subst h
    have hm : t % 256 = t := Nat.mod_eq_of_lt ht
    by_cases htt : t = 0x20
    · rw [if_pos htt]
      subst htt
      simp [V1.receiveEop, getch, swrite]
    · rw [if_neg htt]
      simp [V1.receiveEop, getch, swrite, hm, htt]

theorem v1_writeFlash_bounds (address length : Nat) (s : V1.St1) (e : Eff)
    (hsize : s.param.flash_pagesize < length) :
    V1.writeFlash address length s e =
      ({ s with error := true },
       { e with output := e.output ++ [0x11] }) := by
  rw [V1.writeFlash, if_pos (Or.inl hsize)]
  rfl

/-- `fillAux` commutes with overwriting the error field. -/
theorem fillAux_err {ε} (n : Nat) :
    ∀ (s : St ε) (v : ε) (e : Eff) (x : Nat),
      fillAux { s with error := v } e x n =
        ({ (fillAux s e x n).1 with error := v }, (fillAux s e x n).2) := by
  induction n with
  | zero => intro s v e x; rfl
  | succ k ih =>
    intro s v e x
    rw [fillAux, fillAux]
    exact ih { s with buff := updMem s.buff x (getch e).1 } v (getch e).2 (x + 1)

theorem fill_err {ε} (n : Nat) (s : St ε) (v : ε) (e : Eff) :
    fill n { s with error := v } e =
      ({ (fill n s e).1 with error := v }, (fill n s e).2) := by
  rw [fill, fill]
  exact fillAux_err (n % 256) s v e 0

/-- The revision 1 flash word loop depends on the state only through the
buffer. -/
theorem wf1Loop_buff (fuel : Nat) :
    ∀ (wl i : Nat) (s s' : V1.St1) (e : Eff), s.buff = s'.buff →
      V1.wf1Loop fuel wl i s e = V1.wf1Loop fuel wl i s' e := by
  induction fuel with
  | zero => intro wl i s s' e _; rfl
  | succ f ih =>
    intro wl i s s' e hb
    rw [V1.wf1Loop, V1.wf1Loop, hb]
    by_cases hi : i < wl
    · rw [if_pos hi, if_pos hi]
      exact ih wl (i + 1) s s' _ hb
    · rw [if_neg hi, if_neg hi]

theorem we1Loop_buff (fuel : Nat) :
    ∀ (remaining addr x : Nat) (s s' : V1.St1) (e : Eff), s.buff = s'.buff →
      V1.we1Loop fuel remaining addr x s e = V1.we1Loop fuel remaining addr x s' e := by
  induction fuel with
  | zero => intro remaining addr x s s' e _; rfl
  | succ f ih =>
    intro remaining addr x s s' e hb
    rw [V1.we1Loop, V1.we1Loop, hb]
    by_cases hr : 0 < remaining
    · rw [if_pos hr, if_pos hr]
      exact ih (remaining - 1) ((addr + 1) % 65536) (x + 1) s s' _ hb
    · rw [if_neg hr, if_neg hr]

/-- Error-absorption: running a handler with the sticky flag already set
behaves exactly like the plain run with the flag forced true afterwards. -/
def ErrP (g : V1.St1 → Eff → V1.St1 × Eff) : Prop :=
  ∀ (s : V1.St1) (e : Eff),
    g { s with error := true } e =
      ({ (g s e).1 with error := true }, (g s e).2)

theorem errP_receiveEop (s : V1.St1) (e : Eff) :
    V1.receiveEop { s with error := true } e =
      ((V1.receiveEop s e).1,
       ({ (V1.receiveEop s e).2.1 with error := true }, (V1.receiveEop s e).2.2)) := by
  rw [V1.receiveEop, V1.receiveEop]
  by_cases hg : (getch e).1 = 0x20
  · rw [if_pos hg, if_pos hg]
  · rw [if_neg hg, if_neg hg]

theorem errP_reply (has_byte : Bool) (val : Nat) (send_ok : Bool) :
    ErrP (V1.reply has_byte val send_ok) := by
  intro s e
  rw [V1.reply, V1.reply, errP_receiveEop]
  by_cases hr : (V1.receiveEop s e).1
  · rw [if_pos hr, if_pos hr]
  · rw [if_neg hr, if_neg hr]

theorem errP_replyVersion (c : Nat) : ErrP (V1.replyVersion c) := by
  intro s e
  rw [V1.replyVersion, V1.replyVersion]
  by_cases h1 : c = 0x80
  · rw [if_pos h1, if_pos h1]
    exact errP_reply true 2 true s e
  rw [if_neg h1, if_neg h1]
  by_cases h2 : c = 0x81
  · rw [if_pos h2, if_pos h2]
    exact errP_reply true 1 true s e
  rw [if_neg h2, if_neg h2]
  by_cases h3 : c = 0x82
  · rw [if_pos h3, if_pos h3]
    exact errP_reply true 18 true s e
  rw [if_neg h3, if_neg h3]
  by_cases h4 : c = 0x93
  · rw [if_pos h4, if_pos h4]
    exact errP_reply true 83 true s e
  rw [if_neg h4, if_neg h4]
  exact errP_reply true 0 true s e

theorem errP_universal : ErrP V1.universal := by
  intro s e
  rw [V1.universal, V1.universal, fill_err]
  exact errP_reply true _ true _ _

theorem errP_writeFlash (address length : Nat) :
    ErrP (V1.writeFlash address length) := by
  intro s e
  rw [V1.writeFlash, V1.writeFlash]
  by_cases hb : s.param.flash_pagesize < length ∨ 256 < length
  · rw [if_pos hb, if_pos hb]
  · rw [if_neg hb, if_neg hb]
    simp only [fill_err, errP_receiveEop]
    by_cases hr : (V1.receiveEop (fill length s e).1 (fill length s e).2).1 = true
    · simp only [hr, if_pos rfl]
      rw [wf1Loop_buff (length / 2 % 256) (length / 2 % 256) 0
        { (V1.receiveEop (fill length s e).1 (fill length s e).2).2.1 with error := true }
        (V1.receiveEop (fill length s e).1 (fill length s e).2).2.1 _ rfl]
      simp
    · simp [hr]

theorem errP_writeEeprom (address length : Nat) :
    ErrP (V1.writeEeprom address length) := by
  intro s e
  rw [V1.writeEeprom, V1.writeEeprom]
  by_cases hb : s.param.eeprom_size < length ∨ 256 < length
  · rw [if_pos hb, if_pos hb]
  · rw [if_neg hb, if_neg hb]
    simp only [fill_err, errP_receiveEop]
    by_cases hr : (V1.receiveEop (fill length s e).1 (fill length s e).2).1 = true
    · simp only [hr, if_pos rfl]
      rw [we1Loop_buff length length ((address * 2) % 65536) 0
        { (V1.receiveEop (fill length s e).1 (fill length s e).2).2.1 with error := true }
        (V1.receiveEop (fill length s e).1 (fill length s e).2).2.1 _ rfl]
      simp
    · simp [hr]

theorem errP_programPage (address : Nat) : ErrP (V1.programPage address) := by
  intro s e
  rw [V1.programPage, V1.programPage]
  simp only []
  by_cases h1 : (getch (getch (getch e).2).2).1 = 70
  · rw [if_pos h1, if_pos h1]
    exact errP_writeFlash address _ s _
  · rw [if_neg h1, if_neg h1]
    by_cases h2 : (getch (getch (getch e).2).2).1 = 69
    · rw [if_pos h2, if_pos h2]
      exact errP_writeEeprom address _ s _
    · rw [if_neg h2, if_neg h2]

theorem errP_readPage (address : Nat) : ErrP (V1.readPage address) := by
  intro s e
  rw [V1.readPage, V1.readPage]
  simp only [errP_receiveEop]
  by_cases hr : (V1.receiveEop s (getch (getch (getch e).2).2).2).1 = true
  · simp only [hr, if_pos rfl]
    by_cases h1 : (getch (getch (getch e).2).2).1 = 70
    · simp [h1]
    · by_cases h2 : (getch (getch (getch e).2).2).1 = 69
      · simp [h1, h2]
      · simp [h1, h2]
  · simp [hr]

theorem errP_readSignature : ErrP V1.readSignature := by
  intro s e
  rw [V1.readSignature, V1.readSignature]
  simp only [errP_receiveEop]
  by_cases hr : (V1.receiveEop s e).1 = true
  · simp [hr]
  · simp [hr]

theorem st1_set_error_true (s : V1.St1) (h : s.error = true) :
    ({ s with error := true } : V1.St1) = s := by
  cases s
  simp only at h
  simp [h]

theorem v1_receiveEop_keeps (s : V1.St1) (e : Eff) (h : s.error = true) :
    (V1.receiveEop s e).2.1.error = true := by
  rw [V1.receiveEop]
  by_cases hg : (getch e).1 = 0x20
  · rw [if_pos hg]
    exact h
  · rw [if_neg hg]

/-- Dispatching any command other than sign-on and leave-programming-mode
with the sticky error flag set behaves exactly like the plain run with the
flag forced true on the resulting state. -/
theorem v1_avrisp_errP (s : V1.St1) (e : Eff)
    (hc0 : (getch e).1 ≠ 0x30) (hcQ : (getch e).1 ≠ 0x51) :
    V1.avrisp { s with error := true } e =
      ({ (V1.avrisp s e).1 with error := true }, (V1.avrisp s e).2) := by
  rw [V1.avrisp, V1.avrisp]
  simp only []
  rw [if_neg hc0, if_neg hc0]
  by_cases h31 : (getch e).1 = 0x31
  · rw [if_pos h31, if_pos h31]
    simp only [errP_receiveEop]
    by_cases hr : (V1.receiveEop s (getch e).2).1 = true
    · simp [hr]
    · simp [hr]
  rw [if_neg h31, if_neg h31]
  by_cases h41 : (getch e).1 = 0x41
  · rw [if_pos h41, if_pos h41]
    exact errP_replyVersion _ s _
  rw [if_neg h41, if_neg h41]
  by_cases h42 : (getch e).1 = 0x42
  · rw [if_pos h42, if_pos h42]
    simp only [fill_err]
    have hsp : ∀ (x : V1.St1), setParameters { x with error := true } =
        { setParameters x with error := true } := by
      intro x
      rw [setParameters, setParameters]
    rw [hsp]
    exact errP_reply false 0 true (setParameters (fill 20 s (getch e).2).1) _
  rw [if_neg h42, if_neg h42]
  by_cases h45 : (getch e).1 = 0x45
  · rw [if_pos h45, if_pos h45]
    simp only [fill_err]
    exact errP_reply false 0 true (fill 5 s (getch e).2).1 _
  rw [if_neg h45, if_neg h45]
  by_cases h50 : (getch e).1 = 0x50
  · rw [if_pos h50, if_pos h50]
    by_cases hp : s.programming = true
    · rw [if_pos hp, if_pos hp]
      exact errP_reply false 0 true s _
    · rw [if_neg hp, if_neg hp]
      rw [beginProgramming, beginProgramming]
      simp only []
      exact errP_reply false 0 true { s with programming := true } _
  rw [if_neg h50, if_neg h50]
  by_cases h55 : (getch e).1 = 0x55
  · rw [if_pos h55, if_pos h55]
    exact errP_reply false 0 true
      { s with address := ((getch (getch e).2).1 + 256 * (getch (getch (getch e).2).2).1) % 65536 } _
  rw [if_neg h55, if_neg h55]
  by_cases h60 : (getch e).1 = 0x60
  · rw [if_pos h60, if_pos h60]
    exact errP_reply false 0 true _ _
  rw [if_neg h60, if_neg h60]
  by_cases h61 : (getch e).1 = 0x61
  · rw [if_pos h61, if_pos h61]
    exact errP_reply false 0 true _ _
  rw [if_neg h61, if_neg h61]
  by_cases h64 : (getch e).1 = 0x64
  · rw [if_pos h64, if_pos h64]
    exact errP_programPage s.address s _
  rw [if_neg h64, if_neg h64]
  by_cases h74 : (getch e).1 = 0x74
  · rw [if_pos h74, if_pos h74]
    exact errP_readPage s.address s _
  rw [if_neg h74, if_neg h74]
  by_cases h56 : (getch e).1 = 0x56
  · rw [if_pos h56, if_pos h56]
    exact errP_universal s _
  rw [if_neg h56, if_neg h56]
  rw [if_neg hcQ, if_neg hcQ]
  by_cases h75 : (getch e).1 = 0x75
  · rw [if_pos h75, if_pos h75]
    exact errP_readSignature s _
  rw [if_neg h75, if_neg h75]
  by_cases h20 : (getch e).1 = 0x20
  · simp only [if_pos h20]
  simp only [if_neg h20]
  have hkeep := v1_receiveEop_keeps { s with error := true } (getch e).2 rfl
  have hset := st1_set_error_true _ hkeep
  by_cases hr : (V1.receiveEop { s with error := true } (getch e).2).1 = true
  · simp only [hr, if_true, hset]
  · simp only [hr, if_false, Bool.false_eq_true, hset]

/-- Revision 1 `reply`: validate the terminator via `receiveEop`, then send
the optional value byte and `OK`; on a bad terminator set the error flag and
leave only `NOSYNC` behind. -/
theorem v1_reply_eq (has_byte : Bool) (val : Nat) (send_ok : Bool) (s : V1.St1)
    (e : Eff) (t : Nat) (rest : List Nat) (ht : t < 256) (h : e.input = t :: rest) :
    V1.reply has_byte val send_ok s e =
      if t = 0x20 then
        (s, { e with
              input := rest,
              output := e.output ++ [0x14] ++ (if has_byte then [val % 256] else []) ++
                (if send_ok then [0x10] else []) })
      else ({ s with error := true },
        { e with input := rest, output := e.output ++ [0x15] }) := by
  cases e with
  | mk i o tx m =>
    simp only at h
    subst h
    by_cases htt : t = 0x20
    · subst htt
      rw [if_pos rfl]
      cases has_byte <;> cases send_ok <;>
        simp [V1.reply, V1.receiveEop, getch, swrite]
    · rw [if_neg htt]
      have hm : t % 256 = t := Nat.mod_eq_of_lt ht
      cases has_byte <;> cases send_ok <;>
        simp [V1.reply, V1.receiveEop, getch, swrite, hm, htt]

/-- Revision 1 dispatch of the legacy load-address-flash command `0x60`:
discard two parameter bytes, then validate a terminator and reply. -/
theorem v1_avrisp_progflash (s : V1.St1) (e : Eff) (b1 b2 t : Nat)
    (rest : List Nat) (ht : t < 256) (h : e.input = 0x60 :: b1 :: b2 :: t :: rest) :
    V1.avrisp s e =
      if t = 0x20 then
        (s, { e with input := rest, output := e.output ++ [0x14, 0x10] })
      else ({ s with error := true },
        { e with input := rest, output := e.output ++ [0x15] }) := by
  cases e with
  | mk i o tx m =>
    simp only at h
    subst h
    rw [show V1.avrisp s { input := 0x60 :: b1 :: b2 :: t :: rest, output := o, txns := tx, mem := m } =
        V1.reply false 0 true s
          { input := t :: rest, output := o, txns := tx, mem := m } by
      simp [V1.avrisp, getch]]
    rw [v1_reply_eq false 0 true _ _ t rest ht rfl]
    by_cases htt : t = 0x20
    · rw [if_pos htt, if_pos htt]
      try simp
    · rw [if_neg htt, if_neg htt]
      try simp

/-- Revision 1 dispatch of the legacy load-data command `0x61`: discard one
parameter byte, then validate a terminator and reply. -/
theorem v1_avrisp_progdata (s : V1.St1) (e : Eff) (b1 t : Nat)
    (rest : List Nat) (ht : t < 256) (h : e.input = 0x61 :: b1 :: t :: rest) :
    V1.avrisp s e =
      if t = 0x20 then
        (s, { e with input := rest, output := e.output ++ [0x14, 0x10] })
      else ({ s with error := true },
        { e with input := rest, output := e.output ++ [0x15] }) := by
  cases e with
  | mk i o tx m =>
    simp only at h
    subst h
    rw [show V1.avrisp s { input := 0x61 :: b1 :: t :: rest, output := o, txns := tx, mem := m } =
        V1.reply false 0 true s
          { input := t :: rest, output := o, txns := tx, mem := m } by
      simp [V1.avrisp, getch]]
    rw [v1_reply_eq false 0 true _ _ t rest ht rfl]
    by_cases htt : t = 0x20
    · rw [if_pos htt, if_pos htt]
      try simp
    · rw [if_neg htt, if_neg htt]
      try simp

/-- Revision 1 sign-on: the error flag is overwritten with `false` before the
terminator is validated. -/
theorem v1_avrisp_signon (s : V1.St1) (e : Eff) (t : Nat) (rest : List Nat)
    (ht : t < 256) (h : e.input = 0x30 :: t :: rest) :
    V1.avrisp s e =
      if t = 0x20 then
        ({ s with error := false },
         { e with input := rest, output := e.output ++ [0x14, 0x10] })
      else ({ s with error := true },
        { e with input := rest, output := e.output ++ [0x15] }) := by
  cases e with
  | mk i o tx m =>
    simp only at h
    subst h
    rw [show V1.avrisp s { input := 0x30 :: t :: rest, output := o, txns := tx, mem := m } =
        V1.reply false 0 true { s with error := false }
          { input := t :: rest, output := o, txns := tx, mem := m } by
      simp [V1.avrisp, getch]]
    rw [v1_reply_eq false 0 true _ _ t rest ht rfl]
    by_cases htt : t = 0x20
    · rw [if_pos htt, if_pos htt]
      try simp
    · rw [if_neg htt, if_neg htt]
      try simp

/-- Revision 1 leave-programming-mode: the error flag is overwritten with
`false` and the programming flag with `false` before the terminator is
validated. -/
theorem v1_avrisp_leave (s : V1.St1) (e : Eff) (t : Nat) (rest : List Nat)
    (ht : t < 256) (h : e.input = 0x51 :: t :: rest) :
    V1.avrisp s e =
      if t = 0x20 then
        ({ s with error := false, programming := false },
         { e with input := rest, output := e.output ++ [0x14, 0x10] })
      else ({ s with error := true, programming := false },
        { e with input := rest, output := e.output ++ [0x15] }) := by
  cases e with
  | mk i o tx m =>
    simp only at h
    subst h
    rw [show V1.avrisp s { input := 0x51 :: t :: rest, output := o, txns := tx, mem := m } =
        V1.reply false 0 true { s with error := false, programming := false }
          { input := t :: rest, output := o, txns := tx, mem := m } by
      simp [V1.avrisp, getch, endProgramming]]
    rw [v1_reply_eq false 0 true _ _ t rest ht rfl]
    by_cases htt : t = 0x20
    · rw [if_pos htt, if_pos htt]
      try simp
    · rw [if_neg htt, if_neg htt]
      try simp

/-- Revision 1 unknown-command dispatch: set the error flag first; on a valid
terminator reply `INSYNC`, `UNKNOWN`, otherwise `NOSYNC`. -/
theorem v1_avrisp_unknown (s : V1.St1) (e : Eff) (c t : Nat) (rest : List Nat)
    (hc : c < 256) (ht : t < 256)
    (hno : c ∉ [0x30, 0x31, 0x41, 0x42, 0x45, 0x50, 0x55, 0x60, 0x61, 0x64,
      0x74, 0x56, 0x51, 0x75, 0x20])
    (h : e.input = c :: t :: rest) :
    V1.avrisp s e =
      if t = 0x20 then
        ({ s with error := true },
         { e with input := rest, output := e.output ++ [0x14, 0x12] })
      else
        ({ s with error := true },
         { e with input := rest, output := e.output ++ [0x15] }) := by
  simp only [List.mem_cons, List.mem_singleton] at hno
  push_neg at hno
  obtain ⟨n1, n2, n3, n4, n5, n6, n7, n8, n9, n10, n11, n12, n13, n14, n15⟩ := hno
  cases e with
  | mk i o tx m =>
    simp only at h
    subst h
    have hmc : c % 256 = c := Nat.mod_eq_of_lt hc
    have hmt : t % 256 = t := Nat.mod_eq_of_lt ht
    by_cases htt : t = 0x20
    · rw [if_pos htt]
      subst htt
      simp [V1.avrisp, V1.receiveEop, getch, swrite, hmc,
        n1, n2, n3, n4, n5, n6, n7, n8, n9, n10, n11, n12, n13, n14, n15]
    · rw [if_neg htt]
      simp [V1.avrisp, V1.receiveEop, getch, swrite, hmc, hmt, htt,
        n1, n2, n3, n4, n5, n6, n7, n8, n9, n10, n11, n12, n13, n14, n15]

/-- Sign-on and leave-programming-mode overwrite the error flag before doing
anything else: their runs do not depend on the incoming flag at all. -/
theorem v1_avrisp_clearcmd (s : V1.St1) (e : Eff) (b : Bool)
    (hc : (getch e).1 = 0x30 ∨ (getch e).1 = 0x51) :
    V1.avrisp { s with error := b } e = V1.avrisp s e := by
  rw [V1.avrisp, V1.avrisp]
  simp only []
  rcases hc with hc | hc
  · rw [if_pos hc, if_pos hc]
  · have hc0 : (getch e).1 ≠ 0x30 := by rw [hc]; norm_num
    have hc31 : (getch e).1 ≠ 0x31 := by rw [hc]; norm_num
    have hc41 : (getch e).1 ≠ 0x41 := by rw [hc]; norm_num
    have hc42 : (getch e).1 ≠ 0x42 := by rw [hc]; norm_num
    have hc45 : (getch e).1 ≠ 0x45 := by rw [hc]; norm_num
    have hc50 : (getch e).1 ≠ 0x50 := by rw [hc]; norm_num
    have hc55 : (getch e).1 ≠ 0x55 := by rw [hc]; norm_num
    have hc60 : (getch e).1 ≠ 0x60 := by rw [hc]; norm_num
    have hc61 : (getch e).1 ≠ 0x61 := by rw [hc]; norm_num
    have hc64 : (getch e).1 ≠ 0x64 := by rw [hc]; norm_num
    have hc74 : (getch e).1 ≠ 0x74 := by rw [hc]; norm_num
    have hc56 : (getch e).1 ≠ 0x56 := by rw [hc]; norm_num
    rw [if_neg hc0, if_neg hc0, if_neg hc31, if_neg hc31, if_neg hc41, if_neg hc41,
      if_neg hc42, if_neg hc42, if_neg hc45, if_neg hc45, if_neg hc50, if_neg hc50,
      if_neg hc55, if_neg hc55, if_neg hc60, if_neg hc60, if_neg hc61, if_neg hc61,
      if_neg hc64, if_neg hc64, if_neg hc74, if_neg hc74, if_neg hc56, if_neg hc56,
      if_pos hc, if_pos hc]

/-- Reading back a window of device memory that holds the bytes of `data`
(reduced mod 256 by the staging buffer) recovers `data`, provided the bytes
are in range. -/
theorem readBytes_data (w : Nat) :
    ∀ (data : List Nat) (m : Nat → Nat) (a : Nat),
      data.length = 2 * w →
      (∀ k, k < 2 * w → m (2 * a + k) = data.getD k 0 % 256) →
      (∀ b ∈ data, b < 256) →
      readBytes m a w = data := by
  induction w with
  | zero =>
    intro data m a hlen _ _
    rw [readBytes]
    exact (List.length_eq_zero.mp (by omega)).symm
  | succ v ih =>
    intro data m a hlen hm hb
    match data, hlen with
    | d0 :: d1 :: tl, hlen =>
      rw [readBytes]
      have h0 : m (2 * a) = d0 := by
        have := hm 0 (by omega)
        rw [Nat.add_zero] at this
        rw [this]
        exact Nat.mod_eq_of_lt (hb d0 (by simp))
      have h1 : m (2 * a + 1) = d1 := by
        have := hm 1 (by omega)
        rw [this]
        exact Nat.mod_eq_of_lt (hb d1 (by simp))
      have htl : readBytes m (a + 1) v = tl := by
        apply ih tl m (a + 1)
        · simp only [List.length_cons] at hlen
          omega
        · intro k hk
          have := hm (k + 2) (by omega)
          have harith : 2 * a + (k + 2) = 2 * (a + 1) + k := by omega
          rw [harith] at this
          rw [this]
          rfl
        · intro b hbm
          exact hb b (by simp [hbm])
      rw [h0, h1, htl]
      have hm0 : d0 % 256 = d0 := Nat.mod_eq_of_lt (hb d0 (by simp))
      have hm1 : d1 % 256 = d1 := Nat.mod_eq_of_lt (hb d1 (by simp))
      rw [hm0, hm1]

/-! ## The claims -/

/-- Claim C2, counterexample: in revision 2, a program-page flash request
whose declared length (40) exceeds the negotiated flash page size (32) is
*not* rejected: no `FAILED` is sent, the error counter stays 0, the whole
payload and terminator are consumed, and 42 SPI flash transactions are
issued (40 loads and 2 commits). -/
theorem C2_counterexample :
    (st2T 32 0).param.flash_pagesize < 40 ∧
    (V2.avrisp (st2T 32 0)
      (mkEff ([0x64, 0, 40, 70] ++ List.replicate 40 7 ++ [0x20, 9]))).2.output =
      [0x14, 0x10] ∧
    (V2.avrisp (st2T 32 0)
      (mkEff ([0x64, 0, 40, 70] ++ List.replicate 40 7 ++ [0x20, 9]))).1.error = 0 ∧
    (V2.avrisp (st2T 32 0)
      (mkEff ([0x64, 0, 40, 70] ++ List.replicate 40 7 ++ [0x20, 9]))).2.input = [9] ∧
    (V2.avrisp (st2T 32 0)
      (mkEff ([0x64, 0, 40, 70] ++ List.replicate 40 7 ++ [0x20, 9]))).2.txns.length
      = 42 := by
  decide

/-- Claim C2 (amended): in revision 1, a program-page flash request whose
declared 16-bit length exceeds the negotiated flash page size sets the sticky
error flag and replies `FAILED` immediately: no payload byte is read from the
transport and no SPI transaction is issued. -/
theorem C2_corrected (s : V1.St1) (e : Eff) (lh ll : Nat) (rest : List Nat)
    (hlh : lh < 256) (hll : ll < 256)
    (hsize : s.param.flash_pagesize < 256 * lh + ll)
    (h : e.input = 0x64 :: lh :: ll :: 70 :: rest) :
    V1.avrisp s e =
      ({ s with error := true },
       { e with input := rest, output := e.output ++ [0x11] }) := by
  cases e with
  | mk i o tx m =>
    simp only at h
    subst h
    have hlen : (256 * (lh % 256) + (ll % 256)) % 65536 = 256 * lh + ll := by
      rw [Nat.mod_eq_of_lt hlh, Nat.mod_eq_of_lt hll]
      exact Nat.mod_eq_of_lt (by omega)
    rw [show V1.avrisp s
        { input := 0x64 :: lh :: ll :: 70 :: rest, output := o, txns := tx, mem := m } =
        V1.writeFlash s.address (256 * lh + ll) s
          { input := rest, output := o, txns := tx, mem := m } by
      simp [V1.avrisp, V1.programPage, getch, hlen]]
    rw [v1_writeFlash_bounds s.address (256 * lh + ll) s _ hsize]

/-- Claim C2, witness for the amended theorem at a concrete over-long
request. -/
theorem C2_corrected_witness :
    V1.avrisp (st1T 32 0) (mkEff [0x64, 0, 40, 70]) =
      ({ st1T 32 0 with error := true },
       { mkEff [0x64, 0, 40, 70] with
         input := [],
         output := (mkEff [0x64, 0, 40, 70]).output ++ [0x11] }) :=
  C2_corrected (st1T 32 0) (mkEff [0x64, 0, 40, 70]) 0 40 []
    (by decide) (by decide) (by decide) rfl

/-- Claim C5, counterexample: with page size 64, `getPage` does not mask the
low six bits of the word address (`getPage 64 63 = 32`, not `0`), and
programming 130 bytes from word address 0 issues its three commits at the
word-page addresses 0, 32 and 64, not 0, 64 and 128. -/
theorem C5_counterexample :
    V2.getPage 64 63 = 32 ∧
    (63 : Nat) &&& 0xFFC0 = 0 ∧
    commitAddrs (V2.writeFlashPages 130
      { st2T 64 0 with buff := fun x => 9 } (mkEff [])).1.2.txns = [0, 32, 64] ∧
    commitAddrs (V2.writeFlashPages 130
      { st2T 64 0 with buff := fun x => 9 } (mkEff [])).1.2.txns ≠ [0, 64, 128] := by
  decide

/-- Claim C5 (amended): with page size 64, `getPage` aligns the (16-bit) word
address down to a multiple of 32 words — a page holds 64 bytes = 32 words, so
the mask clears the low five bits — and programming 130 bytes from word
address 0 issues its three commits at word-page addresses 0, 32 and 64. -/
theorem C5_corrected (a : Nat) :
    V2.getPage 64 a = a % 65536 / 32 * 32 ∧
    commitAddrs (V2.writeFlashPages 130
      { st2T 64 0 with buff := fun x => 9 } (mkEff [])).1.2.txns = [0, 32, 64] := by
  constructor
  · have h := getPage_eq 64 (by norm_num) a
    norm_num at h
    exact h
  · decide

/-- Claim C5, witness for the amended theorem at word address 63. -/
theorem C5_corrected_witness :
    V2.getPage 64 63 = 63 % 65536 / 32 * 32 ∧
    commitAddrs (V2.writeFlashPages 130
      { st2T 64 0 with buff := fun x => 9 } (mkEff [])).1.2.txns = [0, 32, 64] :=
  C5_corrected 63

/-- Claim C7, counterexample: in revision 1 a read-page operation does not
advance the retained session word address: after reading one word (2 bytes)
from word address 5, the session address is still 5, not 6. -/
theorem C7_counterexample :
    (st1T 32 5).address = 5 ∧
    (V1.avrisp (st1T 32 5) (mkEff [0x74, 0, 2, 70, 0x20])).1.address = 5 ∧
    ¬((V1.avrisp (st1T 32 5) (mkEff [0x74, 0, 2, 70, 0x20])).1.address = 6) := by
  decide

/-- Claim C7 (amended): in revision 2, a program-page or read-page flash
operation transferring `n = ceil(length / 2)` words advances the retained
session word address by `n` (mod 2^16), and the new address persists in the
session state handed to the next command. -/
theorem C7_corrected :
    (∀ (s : V2.St2) (e : Eff) (lh ll : Nat) (data rest : List Nat),
      lh < 256 → ll < 256 → data.length = (256 * lh + ll) % 256 →
      s.address < 65536 → s.address + (256 * lh + ll + 1) / 2 ≤ 65536 →
      e.input = 0x64 :: lh :: ll :: 70 :: (data ++ 0x20 :: rest) →
      (V2.avrisp s e).1.address = (s.address + (256 * lh + ll + 1) / 2) % 65536) ∧
    (∀ (s : V2.St2) (e : Eff) (lh ll : Nat) (rest : List Nat),
      lh < 256 → ll < 256 →
      s.address < 65536 → s.address + (256 * lh + ll + 1) / 2 ≤ 65536 →
      e.input = 0x74 :: lh :: ll :: 70 :: 0x20 :: rest →
      (V2.avrisp s e).1.address = (s.address + (256 * lh + ll + 1) / 2) % 65536) := by
  constructor
  · intro s e lh ll data rest hlh hll hdata ha hnw h
    rw [avrisp_progF_dispatch s e lh ll (data ++ 0x20 :: rest) hlh hll h]
    exact (writeFlash_exact (256 * lh + ll) s { e with input := data ++ 0x20 :: rest }
      data rest hdata ha hnw rfl).1
  · intro s e lh ll rest hlh hll ha hnw h
    rw [avrisp_read_dispatch s e (lh :: ll :: 70 :: 0x20 :: rest) h]
    exact (readPage_goodF_exact s { e with input := lh :: ll :: 70 :: 0x20 :: rest }
      lh ll rest hlh hll ha hnw rfl).1

/-- Claim C7, witness for the amended theorem: a one-word flash write from
word address 0 leaves the session address at 1. -/
theorem C7_corrected_witness :
    (V2.avrisp (st2T 32 0) (mkEff [0x64, 0, 2, 70, 7, 8, 0x20])).1.address =
      ((st2T 32 0).address + (256 * 0 + 2 + 1) / 2) % 65536 :=
  C7_corrected.1 (st2T 32 0) (mkEff [0x64, 0, 2, 70, 7, 8, 0x20]) 0 2 [7, 8] []
    (by decide) (by decide) (by decide) (by decide) (by decide) rfl

/-- Claim C8, counterexample: the legacy load commands do consume a
terminator byte.  After its two parameter bytes, `0x60` reads a fourth byte
and validates it: a non-`CRC_EOP` byte there yields `NOSYNC`, a `CRC_EOP`
yields `INSYNC`, `OK` — in both revisions — and in each case the fourth byte
is removed from the transport. -/
theorem C8_counterexample :
    (V2.avrisp (st2T 32 0) (mkEff [0x60, 1, 2, 0, 9])).2.output = [0x15] ∧
    (V2.avrisp (st2T 32 0) (mkEff [0x60, 1, 2, 0, 9])).2.input = [9] ∧
    (V2.avrisp (st2T 32 0) (mkEff [0x60, 1, 2, 0x20, 9])).2.output = [0x14, 0x10] ∧
    (V2.avrisp (st2T 32 0) (mkEff [0x60, 1, 2, 0x20, 9])).2.input = [9] ∧
    (V1.avrisp (st1T 32 0) (mkEff [0x60, 1, 2, 0, 9])).2.output = [0x15] ∧
    (V1.avrisp (st1T 32 0) (mkEff [0x60, 1, 2, 0, 9])).2.input = [9] := by
  decide

/-- Claim C8 (amended): in both revisions the legacy load-byte commands
(`0x60` with two parameter bytes, `0x61` with one) *do* consume a terminator
byte after their parameters and validate it: `INSYNC`, `OK` on `CRC_EOP`,
`NOSYNC` otherwise. -/
theorem C8_corrected :
    (∀ (s : V2.St2) (e : Eff) (b1 b2 t : Nat) (rest : List Nat), t < 256 →
      e.input = 0x60 :: b1 :: b2 :: t :: rest →
      (V2.avrisp s e).2.input = rest ∧
      (V2.avrisp s e).2.output =
        e.output ++ (if t = 0x20 then [0x14, 0x10] else [0x15])) ∧
    (∀ (s : V2.St2) (e : Eff) (b1 t : Nat) (rest : List Nat), t < 256 →
      e.input = 0x61 :: b1 :: t :: rest →
      (V2.avrisp s e).2.input = rest ∧
      (V2.avrisp s e).2.output =
        e.output ++ (if t = 0x20 then [0x14, 0x10] else [0x15])) ∧
    (∀ (s : V1.St1) (e : Eff) (b1 b2 t : Nat) (rest : List Nat), t < 256 →
      e.input = 0x60 :: b1 :: b2 :: t :: rest →
      (V1.avrisp s e).2.input = rest ∧
      (V1.avrisp s e).2.output =
        e.output ++ (if t = 0x20 then [0x14, 0x10] else [0x15])) ∧
    (∀ (s : V1.St1) (e : Eff) (b1 t : Nat) (rest : List Nat), t < 256 →
      e.input = 0x61 :: b1 :: t :: rest →
      (V1.avrisp s e).2.input = rest ∧
      (V1.avrisp s e).2.output =
        e.output ++ (if t = 0x20 then [0x14, 0x10] else [0x15])) := by
  refine ⟨?_, ?_, ?_, ?_⟩
  · intro s e b1 b2 t rest ht h
    rw [avrisp_progflash s e b1 b2 t rest ht h]
    by_cases htt : t = 0x20 <;> simp [htt]
  · intro s e b1 t rest ht h
    rw [avrisp_progdata s e b1 t rest ht h]
    by_cases htt : t = 0x20 <;> simp [htt]
  · intro s e b1 b2 t rest ht h
    rw [v1_avrisp_progflash s e b1 b2 t rest ht h]
    by_cases htt : t = 0x20 <;> simp [htt]
  · intro s e b1 t rest ht h
    rw [v1_avrisp_progdata s e b1 t rest ht h]
    by_cases htt : t = 0x20 <;> simp [htt]

/-- Claim C8, witness for the amended theorem at a concrete `0x60` frame with
a bad terminator. -/
theorem C8_corrected_witness :
    (V2.avrisp (st2T 32 0) (mkEff [0x60, 1, 2, 0, 9])).2.input = [9] ∧
    (V2.avrisp (st2T 32 0) (mkEff [0x60, 1, 2, 0, 9])).2.output =
      (mkEff [0x60, 1, 2, 0, 9]).output ++
        (if (0 : Nat) = 0x20 then [0x14, 0x10] else [0x15]) :=
  C8_corrected.1 (st2T 32 0) (mkEff [0x60, 1, 2, 0, 9]) 1 2 0 [9] (by decide) rfl

/-- Claim C1, counterexample: in revision 1 a legal flash program-page
command whose address sequence crosses one page boundary (16 words starting
at word address 8, page size 32 bytes = 16 words) issues the commit
transaction once, at page 0, not twice. -/
theorem C1_counterexample :
    chgCount (pageSeq 32 8 16) = 1 ∧
    commitAddrs (V1.avrisp (st1T 32 8)
      (mkEff (0x64 :: 0 :: 32 :: 70 :: (List.replicate 32 9 ++ 0x20 :: [])))).2.txns
      = [0] ∧
    (commitAddrs (V1.avrisp (st1T 32 8)
      (mkEff (0x64 :: 0 :: 32 :: 70 :: (List.replicate 32 9 ++ 0x20 :: [])))).2.txns).length
      ≠ 1 + 1 := by
  decide

/-- Claim C1 (amended): in revision 2, a flash program-page command staging
`w = ceil(length / 2)` words issues its commit transactions exactly at the
distinct pages of the address sequence in order: one more commit than
boundary crossings, in strictly ascending page order, exactly the pages
touched (including a final commit for the last page even when it is never
crossed out of). -/
theorem C1_corrected (s : V2.St2) (e : Eff) (lh ll : Nat) (data rest : List Nat)
    (hlh : lh < 256) (hll : ll < 256) (hpos : 0 < 256 * lh + ll)
    (hdata : data.length = (256 * lh + ll) % 256)
    (ha : s.address < 65536)
    (hnw : s.address + (256 * lh + ll + 1) / 2 ≤ 65536)
    (h : e.input = 0x64 :: lh :: ll :: 70 :: (data ++ 0x20 :: rest)) :
    ∃ T, (V2.avrisp s e).2.txns = e.txns ++ T ∧
      commitAddrs T =
        dedupAdj (pageSeq s.param.flash_pagesize s.address ((256 * lh + ll + 1) / 2)) ∧
      (commitAddrs T).length =
        chgCount (pageSeq s.param.flash_pagesize s.address ((256 * lh + ll + 1) / 2)) + 1 ∧
      strictAsc (commitAddrs T) ∧
      (∀ p, p ∈ commitAddrs T ↔
        p ∈ pageSeq s.param.flash_pagesize s.address ((256 * lh + ll + 1) / 2)) := by
  rw [avrisp_progF_dispatch s e lh ll (data ++ 0x20 :: rest) hlh hll h]
  obtain ⟨w1, w2, w3, w4, w5, w6, w7, ⟨T, hT, hCT⟩, w9⟩ :=
    writeFlash_exact (256 * lh + ll) s { e with input := data ++ 0x20 :: rest }
      data rest hdata ha hnw rfl
  have hw : 0 < (256 * lh + ll + 1) / 2 := by omega
  have hKey : commitAddrs T =
      dedupAdj (pageSeq s.param.flash_pagesize s.address ((256 * lh + ll + 1) / 2)) := by
    rw [hCT, commitList_head_eq _ _ _ hw]
  have hne : pageSeq s.param.flash_pagesize s.address ((256 * lh + ll + 1) / 2) ≠ [] := by
    have hl : (pageSeq s.param.flash_pagesize s.address
        ((256 * lh + ll + 1) / 2)).length = (256 * lh + ll + 1) / 2 := by
      rw [pageSeq, List.length_map, List.length_range]
    intro hcon
    rw [hcon] at hl
    simp at hl
    omega
  refine ⟨T, ?_, hKey, ?_, ?_, ?_⟩
  · rw [hT]
  · rw [hKey, dedupAdj_length _ hne]
  · rw [hKey]
    exact dedupAdj_strictAsc _ (pageSeq_nondec _ _ _ hnw)
  · intro p
    rw [hKey]
    exact dedupAdj_mem p _

/-- Claim C1, witness for the amended theorem at a concrete boundary-crossing
write: 16 words from word address 8, page size 32 bytes. -/
theorem C1_corrected_witness :
    ∃ T, (V2.avrisp (st2T 32 8)
        (mkEff (0x64 :: 0 :: 32 :: 70 :: (List.replicate 32 9 ++ 0x20 :: [])))).2.txns =
      (mkEff (0x64 :: 0 :: 32 :: 70 :: (List.replicate 32 9 ++ 0x20 :: []))).txns ++ T ∧
      commitAddrs T =
        dedupAdj (pageSeq (st2T 32 8).param.flash_pagesize (st2T 32 8).address
          ((256 * 0 + 32 + 1) / 2)) ∧
      (commitAddrs T).length =
        chgCount (pageSeq (st2T 32 8).param.flash_pagesize (st2T 32 8).address
          ((256 * 0 + 32 + 1) / 2)) + 1 ∧
      strictAsc (commitAddrs T) ∧
      (∀ p, p ∈ commitAddrs T ↔
        p ∈ pageSeq (st2T 32 8).param.flash_pagesize (st2T 32 8).address
          ((256 * 0 + 32 + 1) / 2)) :=
  C1_corrected (st2T 32 8)
    (mkEff (0x64 :: 0 :: 32 :: 70 :: (List.replicate 32 9 ++ 0x20 :: [])))
    0 32 (List.replicate 32 9) [] (by decide) (by decide) (by decide) (by decide)
    (by decide) (by decide) rfl

/-- Claim C9: in revision 1 the sticky error flag is set on every framing
violation (a non-`CRC_EOP` byte at a terminator position, or `CRC_EOP` in the
command position), is cleared only by the sign-on and leave-programming-mode
commands (which overwrite it before validating their own terminator), and
while set never blocks dispatch: a run started with the flag set produces the
same response stream, programming flag, address and parameters as a run from
the same state without it. -/
theorem C9_sticky_error_flag :
    (∀ (s : V1.St1) (e : Eff), (getch e).1 ≠ 0x20 →
      (V1.receiveEop s e).2.1.error = true) ∧
    (∀ (s : V1.St1) (e : Eff), (getch e).1 = 0x20 →
      (V1.avrisp s e).1.error = true) ∧
    (∀ (s : V1.St1) (e : Eff), (getch e).1 ≠ 0x30 → (getch e).1 ≠ 0x51 →
      (V1.avrisp { s with error := true } e).1.error = true) ∧
    (∀ (s : V1.St1) (e : Eff) (t : Nat) (rest : List Nat), t < 256 →
      (e.input = 0x30 :: t :: rest ∨ e.input = 0x51 :: t :: rest) →
      (V1.avrisp s e).1.error = (if t = 0x20 then false else true)) ∧
    (∀ (s : V1.St1) (e : Eff),
      (V1.avrisp { s with error := true } e).2 = (V1.avrisp s e).2 ∧
      (V1.avrisp { s with error := true } e).1.programming =
        (V1.avrisp s e).1.programming ∧
      (V1.avrisp { s with error := true } e).1.address = (V1.avrisp s e).1.address ∧
      (V1.avrisp { s with error := true } e).1.param = (V1.avrisp s e).1.param) := by
  refine ⟨?_, ?_, ?_, ?_, ?_⟩
  · intro s e h
    rw [V1.receiveEop]
    rw [if_neg h]
  · intro s e h
    simp [V1.avrisp, h]
  · intro s e h30 h51
    rw [v1_avrisp_errP s e h30 h51]
  · intro s e t rest ht hc
    rcases hc with hc | hc
    · rw [v1_avrisp_signon s e t rest ht hc]
      by_cases htt : t = 0x20 <;> simp [htt]
    · rw [v1_avrisp_leave s e t rest ht hc]
      by_cases htt : t = 0x20 <;> simp [htt]
  · intro s e
    by_cases h30 : (getch e).1 = 0x30
    · rw [v1_avrisp_clearcmd s e true (Or.inl h30)]
      exact ⟨rfl, rfl, rfl, rfl⟩
    by_cases h51 : (getch e).1 = 0x51
    · rw [v1_avrisp_clearcmd s e true (Or.inr h51)]
      exact ⟨rfl, rfl, rfl, rfl⟩
    rw [v1_avrisp_errP s e h30 h51]
    exact ⟨rfl, rfl, rfl, rfl⟩

/-- Claim C9, witness: a bad terminator byte sets the flag, and a run of the
identification command with the flag set answers exactly like the run
without it. -/
theorem C9_sticky_error_flag_witness :
    (V1.receiveEop (st1T 32 0) (mkEff [0x99])).2.1.error = true ∧
    (V1.avrisp { st1T 32 0 with error := true } (mkEff [0x31, 0x20])).2 =
      (V1.avrisp (st1T 32 0) (mkEff [0x31, 0x20])).2 :=
  ⟨C9_sticky_error_flag.1 (st1T 32 0) (mkEff [0x99]) (by decide),
   (C9_sticky_error_flag.2.2.2.2 (st1T 32 0) (mkEff [0x31, 0x20])).1⟩

/-- Claim C10: in revision 1, a command byte outside the recognized opcode
set sets the sticky error flag even when followed by a valid terminator (the
`INSYNC`, `UNKNOWN` reply case), and the flag then survives any following
command other than sign-on and leave-programming-mode. -/
theorem C10_unknown_sets_error (s : V1.St1) (e : Eff) (c : Nat) (rest : List Nat)
    (hc : c < 256)
    (hno : c ∉ [0x30, 0x31, 0x41, 0x42, 0x45, 0x50, 0x55, 0x60, 0x61, 0x64,
      0x74, 0x56, 0x51, 0x75, 0x20])
    (h : e.input = c :: 0x20 :: rest) :
    (V1.avrisp s e).1.error = true ∧
    (V1.avrisp s e).2.output = e.output ++ [0x14, 0x12] ∧
    ∀ e2 : Eff, (getch e2).1 ≠ 0x30 → (getch e2).1 ≠ 0x51 →
      (V1.avrisp (V1.avrisp s e).1 e2).1.error = true := by
  have hu := v1_avrisp_unknown s e c 0x20 rest hc (by norm_num) hno h
  rw [if_pos rfl] at hu
  rw [hu]
  refine ⟨rfl, rfl, ?_⟩
  intro e2 h30 h51
  show (V1.avrisp { s with error := true } e2).1.error = true
  rw [v1_avrisp_errP s e2 h30 h51]

/-- Claim C10, witness: the unrecognized opcode `0x7A` with a valid
terminator answers `INSYNC`, `UNKNOWN` but leaves the error flag set, and the
flag survives a following identification command. -/
theorem C10_unknown_sets_error_witness :
    (V1.avrisp (st1T 32 0) (mkEff [0x7A, 0x20])).1.error = true ∧
    (V1.avrisp (V1.avrisp (st1T 32 0) (mkEff [0x7A, 0x20])).1
      (mkEff [0x31, 0x20])).1.error = true :=
  ⟨(C10_unknown_sets_error (st1T 32 0) (mkEff [0x7A, 0x20]) 0x7A []
      (by decide) (by decide) rfl).1,
   (C10_unknown_sets_error (st1T 32 0) (mkEff [0x7A, 0x20]) 0x7A []
      (by decide) (by decide) rfl).2.2 (mkEff [0x31, 0x20]) (by decide) (by decide)⟩

/-- Claim C3, counterexample: a set-address frame whose terminator-position
byte is not `CRC_EOP` answers exactly `NOSYNC` — but does *not* leave the
protocol-visible state unchanged: the session word address has already been
updated when the terminator is validated. -/
theorem C3_counterexample :
    (V2.avrisp (st2T 32 0) (mkEff [0x55, 1, 0, 0])).2.output = [0x15] ∧
    (st2T 32 0).address = 0 ∧
    (V2.avrisp (st2T 32 0) (mkEff [0x55, 1, 0, 0])).1.address = 1 ∧
    ¬((V2.avrisp (st2T 32 0) (mkEff [0x55, 1, 0, 0])).1.address =
      (st2T 32 0).address) := by
  decide

/-- Claim C3 (amended): for every command frame whose terminator-position
byte is not `CRC_EOP`, the response is exactly one byte, `NOSYNC`, and the
protocol-visible session state (word address, parameters, programming flag)
is unchanged — except that the commands that apply their effect before
validating the terminator keep it: `0x55` has already set the address,
`0x42` the parameters, `0x50` the programming flag, and `0x51` has already
left programming mode. -/
theorem C3_corrected :
    (∀ (s : V2.St2) (e : Eff) (t : Nat) (rest : List Nat),
      t < 256 → t ≠ 0x20 → e.input = 0x30 :: t :: rest →
      (V2.avrisp s e).2.output = e.output ++ [0x15] ∧
      (V2.avrisp s e).2.input = rest ∧
      (V2.avrisp s e).1.address = s.address ∧
      (V2.avrisp s e).1.param = s.param ∧
      (V2.avrisp s e).1.programming = s.programming) ∧
    (∀ (s : V2.St2) (e : Eff) (t : Nat) (rest : List Nat),
      t < 256 → t ≠ 0x20 → e.input = 0x31 :: t :: rest →
      (V2.avrisp s e).2.output = e.output ++ [0x15] ∧
      (V2.avrisp s e).2.input = rest ∧
      (V2.avrisp s e).1.address = s.address ∧
      (V2.avrisp s e).1.param = s.param ∧
      (V2.avrisp s e).1.programming = s.programming) ∧
    (∀ (s : V2.St2) (e : Eff) (sel t : Nat) (rest : List Nat),
      sel < 256 → t < 256 → t ≠ 0x20 → e.input = 0x41 :: sel :: t :: rest →
      (V2.avrisp s e).2.output = e.output ++ [0x15] ∧
      (V2.avrisp s e).2.input = rest ∧
      (V2.avrisp s e).1.address = s.address ∧
      (V2.avrisp s e).1.param = s.param ∧
      (V2.avrisp s e).1.programming = s.programming) ∧
    (∀ (s : V2.St2) (e : Eff) (bs : List Nat) (t : Nat) (rest : List Nat),
      bs.length = 20 → t < 256 → t ≠ 0x20 → e.input = 0x42 :: (bs ++ t :: rest) →
      (V2.avrisp s e).2.output = e.output ++ [0x15] ∧
      (V2.avrisp s e).2.input = rest ∧
      (V2.avrisp s e).1.address = s.address ∧
      (V2.avrisp s e).1.param =
        (setParameters { s with buff := buffWrite s.buff 0 bs }).param ∧
      (V2.avrisp s e).1.programming = s.programming) ∧
    (∀ (s : V2.St2) (e : Eff) (bs : List Nat) (t : Nat) (rest : List Nat),
      bs.length = 5 → t < 256 → t ≠ 0x20 → e.input = 0x45 :: (bs ++ t :: rest) →
      (V2.avrisp s e).2.output = e.output ++ [0x15] ∧
      (V2.avrisp s e).2.input = rest ∧
      (V2.avrisp s e).1.address = s.address ∧
      (V2.avrisp s e).1.param = s.param ∧
      (V2.avrisp s e).1.programming = s.programming) ∧
    (∀ (s : V2.St2) (e : Eff) (t : Nat) (rest : List Nat),
      t < 256 → t ≠ 0x20 → e.input = 0x50 :: t :: rest →
      (V2.avrisp s e).2.output = e.output ++ [0x15] ∧
      (V2.avrisp s e).2.input = rest ∧
      (V2.avrisp s e).1.address = s.address ∧
      (V2.avrisp s e).1.param = s.param ∧
      (V2.avrisp s e).1.programming = true) ∧
    (∀ (s : V2.St2) (e : Eff) (lo hi t : Nat) (rest : List Nat),
      lo < 256 → hi < 256 → t < 256 → t ≠ 0x20 →
      e.input = 0x55 :: lo :: hi :: t :: rest →
      (V2.avrisp s e).2.output = e.output ++ [0x15] ∧
      (V2.avrisp s e).2.input = rest ∧
      (V2.avrisp s e).1.address = lo + 256 * hi ∧
      (V2.avrisp s e).1.param = s.param ∧
      (V2.avrisp s e).1.programming = s.programming) ∧
    (∀ (s : V2.St2) (e : Eff) (b1 b2 t : Nat) (rest : List Nat),
      t < 256 → t ≠ 0x20 → e.input = 0x60 :: b1 :: b2 :: t :: rest →
      (V2.avrisp s e).2.output = e.output ++ [0x15] ∧
      (V2.avrisp s e).2.input = rest ∧
      (V2.avrisp s e).1.address = s.address ∧
      (V2.avrisp s e).1.param = s.param ∧
      (V2.avrisp s e).1.programming = s.programming) ∧
    (∀ (s : V2.St2) (e : Eff) (b1 t : Nat) (rest : List Nat),
      t < 256 → t ≠ 0x20 → e.input = 0x61 :: b1 :: t :: rest →
      (V2.avrisp s e).2.output = e.output ++ [0x15] ∧
      (V2.avrisp s e).2.input = rest ∧
      (V2.avrisp s e).1.address = s.address ∧
      (V2.avrisp s e).1.param = s.param ∧
      (V2.avrisp s e).1.programming = s.programming) ∧
    (∀ (s : V2.St2) (e : Eff) (lh ll t : Nat) (data rest : List Nat),
      lh < 256 → ll < 256 → t < 256 → t ≠ 0x20 →
      data.length = (256 * lh + ll) % 256 →
      e.input = 0x64 :: lh :: ll :: 70 :: (data ++ t :: rest) →
      (V2.avrisp s e).2.output = e.output ++ [0x15] ∧
      (V2.avrisp s e).2.input = rest ∧
      (V2.avrisp s e).1.address = s.address ∧
      (V2.avrisp s e).1.param = s.param ∧
      (V2.avrisp s e).1.programming = s.programming) ∧
    (∀ (s : V2.St2) (e : Eff) (lh ll t : Nat) (data rest : List Nat),
      lh < 256 → ll < 256 → t < 256 → t ≠ 0x20 →
      data.length =
        (if 256 * lh + ll ≤ s.param.eeprom_size then 256 * lh + ll else 0) →
      e.input = 0x64 :: lh :: ll :: 69 :: (data ++ t :: rest) →
      (V2.avrisp s e).2.output = e.output ++ [0x15] ∧
      (V2.avrisp s e).2.input = rest ∧
      (V2.avrisp s e).1.address = s.address ∧
      (V2.avrisp s e).1.param = s.param ∧
      (V2.avrisp s e).1.programming = s.programming) ∧
    (∀ (s : V2.St2) (e : Eff) (lh ll mt t : Nat) (rest : List Nat),
      t < 256 → t ≠ 0x20 → e.input = 0x74 :: lh :: ll :: mt :: t :: rest →
      (V2.avrisp s e).2.output = e.output ++ [0x15] ∧
      (V2.avrisp s e).2.input = rest ∧
      (V2.avrisp s e).1.address = s.address ∧
      (V2.avrisp s e).1.param = s.param ∧
      (V2.avrisp s e).1.programming = s.programming) ∧
    (∀ (s : V2.St2) (e : Eff) (b1 b2 b3 b4 t : Nat) (rest : List Nat),
      t < 256 → t ≠ 0x20 → e.input = 0x56 :: b1 :: b2 :: b3 :: b4 :: t :: rest →
      (V2.avrisp s e).2.output = e.output ++ [0x15] ∧
      (V2.avrisp s e).2.input = rest ∧
      (V2.avrisp s e).1.address = s.address ∧
      (V2.avrisp s e).1.param = s.param ∧
      (V2.avrisp s e).1.programming = s.programming) ∧
    (∀ (s : V2.St2) (e : Eff) (t : Nat) (rest : List Nat),
      t < 256 → t ≠ 0x20 → e.input = 0x51 :: t :: rest →
      (V2.avrisp s e).2.output = e.output ++ [0x15] ∧
      (V2.avrisp s e).2.input = rest ∧
      (V2.avrisp s e).1.address = s.address ∧
      (V2.avrisp s e).1.param = s.param ∧
      (V2.avrisp s e).1.programming = false) ∧
    (∀ (s : V2.St2) (e : Eff) (t : Nat) (rest : List Nat),
      t < 256 → t ≠ 0x20 → e.input = 0x75 :: t :: rest →
      (V2.avrisp s e).2.output = e.output ++ [0x15] ∧
      (V2.avrisp s e).2.input = rest ∧
      (V2.avrisp s e).1.address = s.address ∧
      (V2.avrisp s e).1.param = s.param ∧
      (V2.avrisp s e).1.programming = s.programming) ∧
    (∀ (s : V2.St2) (e : Eff) (rest : List Nat),
      e.input = 0x20 :: rest →
      (V2.avrisp s e).2.output = e.output ++ [0x15] ∧
      (V2.avrisp s e).2.input = rest ∧
      (V2.avrisp s e).1.address = s.address ∧
      (V2.avrisp s e).1.param = s.param ∧
      (V2.avrisp s e).1.programming = s.programming) ∧
    (∀ (s : V2.St2) (e : Eff) (c t : Nat) (rest : List Nat),
      c < 256 → t < 256 → t ≠ 0x20 →
      c ∉ [0x30, 0x31, 0x41, 0x42, 0x45, 0x50, 0x55, 0x60, 0x61, 0x64,
        0x74, 0x56, 0x51, 0x75, 0x20] →
      e.input = c :: t :: rest →
      (V2.avrisp s e).2.output = e.output ++ [0x15] ∧
      (V2.avrisp s e).2.input = rest ∧
      (V2.avrisp s e).1.address = s.address ∧
      (V2.avrisp s e).1.param = s.param ∧
      (V2.avrisp s e).1.programming = s.programming) := by
  refine ⟨?_, ?_, ?_, ?_, ?_, ?_, ?_, ?_, ?_, ?_, ?_, ?_, ?_, ?_, ?_, ?_, ?_⟩
  · intro s e t rest ht htt h
    rw [avrisp_signon s e t rest ht h, if_neg htt]
    exact ⟨rfl, rfl, rfl, rfl, rfl⟩
  · intro s e t rest ht htt h
    rw [avrisp_ident s e t rest ht h, if_neg htt]
    exact ⟨rfl, rfl, rfl, rfl, rfl⟩
  · intro s e sel t rest hsel ht htt h
    have hg := avrisp_getparm s e sel t rest hsel ht h
    rw [if_neg htt] at hg
    rw [hg]
    exact ⟨rfl, rfl, rfl, rfl, rfl⟩
  · intro s e bs t rest hbs ht htt h
    rw [avrisp_setparm s e bs t rest hbs ht h, if_neg htt]
    exact ⟨rfl, rfl, rfl, rfl, rfl⟩
  · intro s e bs t rest hbs ht htt h
    rw [avrisp_extparm s e bs t rest hbs ht h, if_neg htt]
    exact ⟨rfl, rfl, rfl, rfl, rfl⟩
  · intro s e t rest ht htt h
    rw [avrisp_enterprog s e t rest ht h, if_neg htt]
    exact ⟨rfl, rfl, rfl, rfl, rfl⟩
  · intro s e lo hi t rest hlo hhi ht htt h
    rw [avrisp_setaddr s e lo hi t rest hlo hhi ht h, if_neg htt]
    exact ⟨rfl, rfl, rfl, rfl, rfl⟩
  · intro s e b1 b2 t rest ht htt h
    rw [avrisp_progflash s e b1 b2 t rest ht h, if_neg htt]
    exact ⟨rfl, rfl, rfl, rfl, rfl⟩
  · intro s e b1 t rest ht htt h
    rw [avrisp_progdata s e b1 t rest ht h, if_neg htt]
    exact ⟨rfl, rfl, rfl, rfl, rfl⟩
  · intro s e lh ll t data rest hlh hll ht htt hdata h
    have hp := avrisp_progF s e lh ll t data rest hlh hll ht hdata h
    rw [if_neg htt] at hp
    rw [hp]
    exact ⟨rfl, rfl, rfl, rfl, rfl⟩
  · intro s e lh ll t data rest hlh hll ht htt hdata h
    have hp := avrisp_progE s e lh ll t data rest hlh hll ht hdata h
    rw [if_neg htt] at hp
    exact ⟨hp.1, hp.2.1, hp.2.2.2.1, hp.2.2.2.2, hp.2.2.1⟩
  · intro s e lh ll mt t rest ht htt h
    rw [avrisp_read_dispatch s e (lh :: ll :: mt :: t :: rest) h]
    rw [readPage_badEop s { e with input := lh :: ll :: mt :: t :: rest }
      lh ll mt t rest ht htt rfl]
    exact ⟨rfl, rfl, rfl, rfl, rfl⟩
  · intro s e b1 b2 b3 b4 t rest ht htt h
    have hp := avrisp_universal s e b1 b2 b3 b4 t rest ht h
    rw [if_neg htt] at hp
    exact ⟨hp.1, hp.2.1, hp.2.2.2.2.1, hp.2.2.2.2.2, hp.2.2.2.1⟩
  · intro s e t rest ht htt h
    rw [avrisp_leave s e t rest ht h, if_neg htt]
    exact ⟨rfl, rfl, rfl, rfl, rfl⟩
  · intro s e t rest ht htt h
    have hp := avrisp_readsig s e t rest ht h
    rw [if_neg htt] at hp
    rw [hp]
    exact ⟨rfl, rfl, rfl, rfl, rfl⟩
  · intro s e rest h
    rw [avrisp_eopcmd s e rest h]
    exact ⟨rfl, rfl, rfl, rfl, rfl⟩
  · intro s e c t rest hc ht htt hno h
    rw [avrisp_unknown s e c t rest hc ht hno h, if_neg htt]
    exact ⟨rfl, rfl, rfl, rfl, rfl⟩

/-- Claim C3, witness: a concrete sign-on frame with a bad terminator
answers exactly `NOSYNC` and leaves the protocol-visible state unchanged. -/
theorem C3_corrected_witness :
    (V2.avrisp (st2T 32 0) (mkEff [0x30, 0, 9])).2.output =
      (mkEff [0x30, 0, 9]).output ++ [0x15] ∧
    (V2.avrisp (st2T 32 0) (mkEff [0x30, 0, 9])).2.input = [9] ∧
    (V2.avrisp (st2T 32 0) (mkEff [0x30, 0, 9])).1.address = (st2T 32 0).address ∧
    (V2.avrisp (st2T 32 0) (mkEff [0x30, 0, 9])).1.param = (st2T 32 0).param ∧
    (V2.avrisp (st2T 32 0) (mkEff [0x30, 0, 9])).1.programming =
      (st2T 32 0).programming :=
  C3_corrected.1 (st2T 32 0) (mkEff [0x30, 0, 9]) 0 [9]
    (by decide) (by decide) rfl

/-- Claim C6, counterexample: two well-formed frames whose responses do not
begin with `INSYNC`: a program-page frame with an unrecognized memory type is
answered with a bare `FAILED`, and (revision 2) an unknown opcode with a
valid terminator is answered with a bare `UNKNOWN`. -/
theorem C6_counterexample :
    (V2.avrisp (st2T 32 0) (mkEff [0x64, 0, 2, 65, 1, 2, 0x20])).2.output = [0x11] ∧
    ((V2.avrisp (st2T 32 0) (mkEff [0x64, 0, 2, 65, 1, 2, 0x20])).2.output).head?
      ≠ some 0x14 ∧
    (V2.avrisp (st2T 32 0) (mkEff [0x7A, 0x20])).2.output = [0x12] ∧
    ((V2.avrisp (st2T 32 0) (mkEff [0x7A, 0x20])).2.output).head? ≠ some 0x14 := by
  decide

/-- Claim C6 (amended): for every well-formed command frame with a valid
terminator the response begins with `INSYNC` and ends with exactly one
status byte (`OK`, `FAILED` or `UNKNOWN`) — except that a program-page frame
with an unrecognized memory type is answered with a bare `FAILED` (no
`INSYNC`), and an unknown opcode is answered with a bare `UNKNOWN`. -/
theorem C6_corrected :
    (∀ (s : V2.St2) (e : Eff) (rest : List Nat),
      e.input = 0x30 :: 0x20 :: rest →
      (V2.avrisp s e).2.output = e.output ++ [0x14, 0x10] ∧
      (V2.avrisp s e).2.input = rest) ∧
    (∀ (s : V2.St2) (e : Eff) (rest : List Nat),
      e.input = 0x31 :: 0x20 :: rest →
      (V2.avrisp s e).2.output =
        e.output ++ [0x14, 65, 86, 82, 32, 73, 83, 80, 0x10] ∧
      (V2.avrisp s e).2.input = rest) ∧
    (∀ (s : V2.St2) (e : Eff) (sel : Nat) (rest : List Nat), sel < 256 →
      e.input = 0x41 :: sel :: 0x20 :: rest →
      (∃ v, (V2.avrisp s e).2.output = e.output ++ [0x14, v, 0x10]) ∧
      (V2.avrisp s e).2.input = rest) ∧
    (∀ (s : V2.St2) (e : Eff) (bs : List Nat) (rest : List Nat), bs.length = 20 →
      e.input = 0x42 :: (bs ++ 0x20 :: rest) →
      (V2.avrisp s e).2.output = e.output ++ [0x14, 0x10] ∧
      (V2.avrisp s e).2.input = rest) ∧
    (∀ (s : V2.St2) (e : Eff) (bs : List Nat) (rest : List Nat), bs.length = 5 →
      e.input = 0x45 :: (bs ++ 0x20 :: rest) →
      (V2.avrisp s e).2.output = e.output ++ [0x14, 0x10] ∧
      (V2.avrisp s e).2.input = rest) ∧
    (∀ (s : V2.St2) (e : Eff) (rest : List Nat),
      e.input = 0x50 :: 0x20 :: rest →
      (V2.avrisp s e).2.output = e.output ++ [0x14, 0x10] ∧
      (V2.avrisp s e).2.input = rest) ∧
    (∀ (s : V2.St2) (e : Eff) (lo hi : Nat) (rest : List Nat),
      lo < 256 → hi < 256 →
      e.input = 0x55 :: lo :: hi :: 0x20 :: rest →
      (V2.avrisp s e).2.output = e.output ++ [0x14, 0x10] ∧
      (V2.avrisp s e).2.input = rest) ∧
    (∀ (s : V2.St2) (e : Eff) (b1 b2 : Nat) (rest : List Nat),
      e.input = 0x60 :: b1 :: b2 :: 0x20 :: rest →
      (V2.avrisp s e).2.output = e.output ++ [0x14, 0x10] ∧
      (V2.avrisp s e).2.input = rest) ∧
    (∀ (s : V2.St2) (e : Eff) (b1 : Nat) (rest : List Nat),
      e.input = 0x61 :: b1 :: 0x20 :: rest →
      (V2.avrisp s e).2.output = e.output ++ [0x14, 0x10] ∧
      (V2.avrisp s e).2.input = rest) ∧
    (∀ (s : V2.St2) (e : Eff) (lh ll : Nat) (data rest : List Nat),
      lh < 256 → ll < 256 → data.length = (256 * lh + ll) % 256 →
      e.input = 0x64 :: lh :: ll :: 70 :: (data ++ 0x20 :: rest) →
      (V2.avrisp s e).2.output = e.output ++ [0x14, 0x10] ∧
      (V2.avrisp s e).2.input = rest) ∧
    (∀ (s : V2.St2) (e : Eff) (lh ll : Nat) (data rest : List Nat),
      lh < 256 → ll < 256 →
      data.length =
        (if 256 * lh + ll ≤ s.param.eeprom_size then 256 * lh + ll else 0) →
      e.input = 0x64 :: lh :: ll :: 69 :: (data ++ 0x20 :: rest) →
      (V2.avrisp s e).2.output = e.output ++
        [0x14, if s.param.eeprom_size < 256 * lh + ll then 0x11 else 0x10] ∧
      (V2.avrisp s e).2.input = rest) ∧
    (∀ (s : V2.St2) (e : Eff) (lh ll mt : Nat) (rest : List Nat),
      mt < 256 → mt ≠ 70 → mt ≠ 69 →
      e.input = 0x64 :: lh :: ll :: mt :: rest →
      (V2.avrisp s e).2.output = e.output ++ [0x11] ∧
      (V2.avrisp s e).2.input = rest) ∧
    (∀ (s : V2.St2) (e : Eff) (lh ll : Nat) (rest : List Nat),
      lh < 256 → ll < 256 →
      e.input = 0x74 :: lh :: ll :: 70 :: 0x20 :: rest →
      (∃ mid, (V2.avrisp s e).2.output = e.output ++ [0x14] ++ mid ++ [0x10]) ∧
      (V2.avrisp s e).2.input = rest) ∧
    (∀ (s : V2.St2) (e : Eff) (lh ll : Nat) (rest : List Nat),
      lh < 256 → ll < 256 →
      e.input = 0x74 :: lh :: ll :: 69 :: 0x20 :: rest →
      (∃ mid, (V2.avrisp s e).2.output = e.output ++ [0x14] ++ mid ++ [0x10]) ∧
      (V2.avrisp s e).2.input = rest) ∧
    (∀ (s : V2.St2) (e : Eff) (lh ll mt : Nat) (rest : List Nat),
      mt < 256 → mt ≠ 70 → mt ≠ 69 →
      e.input = 0x74 :: lh :: ll :: mt :: 0x20 :: rest →
      (V2.avrisp s e).2.output = e.output ++ [0x14, 0x11] ∧
      (V2.avrisp s e).2.input = rest) ∧
    (∀ (s : V2.St2) (e : Eff) (b1 b2 b3 b4 : Nat) (rest : List Nat),
      e.input = 0x56 :: b1 :: b2 :: b3 :: b4 :: 0x20 :: rest →
      (∃ v, (V2.avrisp s e).2.output = e.output ++ [0x14, v, 0x10]) ∧
      (V2.avrisp s e).2.input = rest) ∧
    (∀ (s : V2.St2) (e : Eff) (rest : List Nat),
      e.input = 0x51 :: 0x20 :: rest →
      (V2.avrisp s e).2.output = e.output ++ [0x14, 0x10] ∧
      (V2.avrisp s e).2.input = rest) ∧
    (∀ (s : V2.St2) (e : Eff) (rest : List Nat),
      e.input = 0x75 :: 0x20 :: rest →
      (∃ v1 v2 v3, (V2.avrisp s e).2.output =
        e.output ++ [0x14, v1, v2, v3, 0x10]) ∧
      (V2.avrisp s e).2.input = rest) ∧
    (∀ (s : V2.St2) (e : Eff) (c : Nat) (rest : List Nat),
      c < 256 →
      c ∉ [0x30, 0x31, 0x41, 0x42, 0x45, 0x50, 0x55, 0x60, 0x61, 0x64,
        0x74, 0x56, 0x51, 0x75, 0x20] →
      e.input = c :: 0x20 :: rest →
      (V2.avrisp s e).2.output = e.output ++ [0x12] ∧
      (V2.avrisp s e).2.input = rest) := by
  refine ⟨?_, ?_, ?_, ?_, ?_, ?_, ?_, ?_, ?_, ?_, ?_, ?_, ?_, ?_, ?_, ?_, ?_,
    ?_, ?_⟩
  · intro s e rest h
    rw [avrisp_signon s e 0x20 rest (by norm_num) h]
    exact ⟨rfl, rfl⟩
  · intro s e rest h
    rw [avrisp_ident s e 0x20 rest (by norm_num) h]
    exact ⟨rfl, rfl⟩
  · intro s e sel rest hsel h
    have hp := avrisp_getparm s e sel 0x20 rest hsel (by norm_num) h
    rw [if_pos rfl] at hp
    obtain ⟨v, hv⟩ := hp
    rw [hv]
    exact ⟨⟨v, rfl⟩, rfl⟩
  · intro s e bs rest hbs h
    rw [avrisp_setparm s e bs 0x20 rest hbs (by norm_num) h]
    exact ⟨rfl, rfl⟩
  · intro s e bs rest hbs h
    rw [avrisp_extparm s e bs 0x20 rest hbs (by norm_num) h]
    exact ⟨rfl, rfl⟩
  · intro s e rest h
    rw [avrisp_enterprog s e 0x20 rest (by norm_num) h]
    exact ⟨rfl, rfl⟩
  · intro s e lo hi rest hlo hhi h
    rw [avrisp_setaddr s e lo hi 0x20 rest hlo hhi (by norm_num) h]
    exact ⟨rfl, rfl⟩
  · intro s e b1 b2 rest h
    rw [avrisp_progflash s e b1 b2 0x20 rest (by norm_num) h]
    exact ⟨rfl, rfl⟩
  · intro s e b1 rest h
    rw [avrisp_progdata s e b1 0x20 rest (by norm_num) h]
    exact ⟨rfl, rfl⟩
  · intro s e lh ll data rest hlh hll hdata h
    have hp := avrisp_progF s e lh ll 0x20 data rest hlh hll (by norm_num) hdata h
    rw [if_pos rfl] at hp
    exact ⟨hp.1, hp.2.1⟩
  · intro s e lh ll data rest hlh hll hdata h
    have hp := avrisp_progE s e lh ll 0x20 data rest hlh hll (by norm_num) hdata h
    rw [if_pos rfl] at hp
    exact ⟨hp.1, hp.2.1⟩
  · intro s e lh ll mt rest hmt hmtF hmtE h
    rw [avrisp_progBadMem s e lh ll mt rest hmt hmtF hmtE h]
    exact ⟨rfl, rfl⟩
  · intro s e lh ll rest hlh hll h
    rw [avrisp_read_dispatch s e (lh :: ll :: 70 :: 0x20 :: rest) h]
    have hp := readPage_goodF s { e with input := lh :: ll :: 70 :: 0x20 :: rest }
      lh ll rest hlh hll rfl
    exact ⟨hp.1, hp.2.1⟩
  · intro s e lh ll rest hlh hll h
    rw [avrisp_read_dispatch s e (lh :: ll :: 69 :: 0x20 :: rest) h]
    have hp := readPage_goodE s { e with input := lh :: ll :: 69 :: 0x20 :: rest }
      lh ll rest hlh hll rfl
    exact ⟨hp.1, hp.2.1⟩
  · intro s e lh ll mt rest hmt hmtF hmtE h
    rw [avrisp_read_dispatch s e (lh :: ll :: mt :: 0x20 :: rest) h]
    rw [readPage_goodBadMem s { e with input := lh :: ll :: mt :: 0x20 :: rest }
      lh ll mt rest hmt hmtF hmtE rfl]
    exact ⟨rfl, rfl⟩
  · intro s e b1 b2 b3 b4 rest h
    have hp := avrisp_universal s e b1 b2 b3 b4 0x20 rest (by norm_num) h
    rw [if_pos rfl] at hp
    exact ⟨hp.1, hp.2.1⟩
  · intro s e rest h
    rw [avrisp_leave s e 0x20 rest (by norm_num) h]
    exact ⟨rfl, rfl⟩
  · intro s e rest h
    have hp := avrisp_readsig s e 0x20 rest (by norm_num) h
    rw [if_pos rfl] at hp
    obtain ⟨v1, v2, v3, _, hin, hout⟩ := hp
    exact ⟨⟨v1, v2, v3, hout⟩, hin⟩
  · intro s e c rest hc hno h
    rw [avrisp_unknown s e c 0x20 rest hc (by norm_num) hno h]
    exact ⟨rfl, rfl⟩

/-- Claim C6, witness: a concrete well-formed sign-on frame answers
`INSYNC`, `OK`. -/
theorem C6_corrected_witness :
    (V2.avrisp (st2T 32 0) (mkEff [0x30, 0x20, 9])).2.output =
      (mkEff [0x30, 0x20, 9]).output ++ [0x14, 0x10] ∧
    (V2.avrisp (st2T 32 0) (mkEff [0x30, 0x20, 9])).2.input = [9] :=
  C6_corrected.1 (st2T 32 0) (mkEff [0x30, 0x20, 9]) [9] rfl

/-- Claim C4, counterexample: in revision 1, writing 2 bytes `[7, 9]` to
flash at word address 1 and then reading 2 bytes back from word address 1
returns `[0, 0]`, not `[7, 9]`: the write loads the payload at word index 0
instead of the session address. -/
theorem C4_counterexample :
    (V1.avrisp (V1.avrisp (st1T 32 1)
        (mkEff [0x64, 0, 2, 70, 7, 9, 0x20, 0x74, 0, 2, 70, 0x20])).1
      (V1.avrisp (st1T 32 1)
        (mkEff [0x64, 0, 2, 70, 7, 9, 0x20, 0x74, 0, 2, 70, 0x20])).2).2.output =
      [0x14, 0x10, 0x14, 0, 0, 0x10] ∧
    ¬((V1.avrisp (V1.avrisp (st1T 32 1)
        (mkEff [0x64, 0, 2, 70, 7, 9, 0x20, 0x74, 0, 2, 70, 0x20])).1
      (V1.avrisp (st1T 32 1)
        (mkEff [0x64, 0, 2, 70, 7, 9, 0x20, 0x74, 0, 2, 70, 0x20])).2).2.output =
      [0x14, 0x10, 0x14, 7, 9, 0x10]) := by
  decide

/-- Claim C4 (amended): in revision 2, under the perfect target-device
model, programming `L` bytes (`L` even, `L < 256`, bytes in range) to flash
at word address `A = lo + 256 * hi`, re-sending the address with the `U`
command, and reading `L` bytes back from flash returns exactly the bytes
written: the session transcript of the three frames ends with `INSYNC`,
`data`, `OK`. -/
theorem C4_corrected (s : V2.St2) (e : Eff) (lh ll lo hi : Nat)
    (data rest : List Nat)
    (hlh : lh < 256) (hll : ll < 256) (hlo : lo < 256) (hhi : hi < 256)
    (heven : (256 * lh + ll) % 2 = 0) (hlen : 256 * lh + ll < 256)
    (hdata : data.length = 256 * lh + ll)
    (hbytes : ∀ b ∈ data, b < 256)
    (haddr : s.address = lo + 256 * hi)
    (hnw : s.address + (256 * lh + ll + 1) / 2 ≤ 65536)
    (h : e.input = 0x64 :: lh :: ll :: 70 :: (data ++
      0x20 :: 0x55 :: lo :: hi :: 0x20 :: 0x74 :: lh :: ll :: 70 :: 0x20 :: rest)) :
    (V2.avrisp (V2.avrisp (V2.avrisp s e).1 (V2.avrisp s e).2).1
        (V2.avrisp (V2.avrisp s e).1 (V2.avrisp s e).2).2).2.output =
      e.output ++ [0x14, 0x10] ++ [0x14, 0x10] ++ ([0x14] ++ data ++ [0x10]) ∧
    (V2.avrisp (V2.avrisp (V2.avrisp s e).1 (V2.avrisp s e).2).1
        (V2.avrisp (V2.avrisp s e).1 (V2.avrisp s e).2).2).2.input = rest := by
  have ha : s.address < 65536 := by omega
  rw [avrisp_progF_dispatch s e lh ll (data ++
    0x20 :: 0x55 :: lo :: hi :: 0x20 :: 0x74 :: lh :: ll :: 70 :: 0x20 :: rest)
    hlh hll h]
  obtain ⟨w1, w2, w3, w4, w5, w6, w7, ⟨T, hT, hCT⟩, w9⟩ :=
    writeFlash_exact (256 * lh + ll) s
      { e with input := data ++
        0x20 :: 0x55 :: lo :: hi :: 0x20 :: 0x74 :: lh :: ll :: 70 :: 0x20 :: rest }
      data (0x55 :: lo :: hi :: 0x20 :: 0x74 :: lh :: ll :: 70 :: 0x20 :: rest)
      (by rw [hdata]; exact (Nat.mod_eq_of_lt hlen).symm) ha hnw rfl
  have hd2 := avrisp_setaddr
    (V2.writeFlash (256 * lh + ll) s
      { e with input := data ++
        0x20 :: 0x55 :: lo :: hi :: 0x20 :: 0x74 :: lh :: ll :: 70 :: 0x20 :: rest }).1
    (V2.writeFlash (256 * lh + ll) s
      { e with input := data ++
        0x20 :: 0x55 :: lo :: hi :: 0x20 :: 0x74 :: lh :: ll :: 70 :: 0x20 :: rest }).2
    lo hi 0x20 (0x74 :: lh :: ll :: 70 :: 0x20 :: rest) hlo hhi (by norm_num) w6
  rw [if_pos rfl] at hd2
  rw [hd2]
  dsimp only
  have hd3 := avrisp_read_dispatch
    { (V2.writeFlash (256 * lh + ll) s
        { e with input := data ++
          0x20 :: 0x55 :: lo :: hi :: 0x20 :: 0x74 :: lh :: ll :: 70 :: 0x20 :: rest }).1
      with address := lo + 256 * hi }
    { (V2.writeFlash (256 * lh + ll) s
        { e with input := data ++
          0x20 :: 0x55 :: lo :: hi :: 0x20 :: 0x74 :: lh :: ll :: 70 :: 0x20 :: rest }).2
      with input := 0x74 :: lh :: ll :: 70 :: 0x20 :: rest,
           output := (V2.writeFlash (256 * lh + ll) s
             { e with input := data ++
               0x20 :: 0x55 :: lo :: hi :: 0x20 :: 0x74 :: lh :: ll :: 70 :: 0x20 :: rest }).2.output
             ++ [0x14, 0x10] }
    (lh :: ll :: 70 :: 0x20 :: rest) rfl
  rw [hd3]
  obtain ⟨r1, r2, r3, r4, r5, r6, r7, r8⟩ :=
    readPage_goodF_exact
      { (V2.writeFlash (256 * lh + ll) s
          { e with input := data ++
            0x20 :: 0x55 :: lo :: hi :: 0x20 :: 0x74 :: lh :: ll :: 70 :: 0x20 :: rest }).1
        with address := lo + 256 * hi }
      { (V2.writeFlash (256 * lh + ll) s
          { e with input := data ++
            0x20 :: 0x55 :: lo :: hi :: 0x20 :: 0x74 :: lh :: ll :: 70 :: 0x20 :: rest }).2
        with input := lh :: ll :: 70 :: 0x20 :: rest,
             output := (V2.writeFlash (256 * lh + ll) s
               { e with input := data ++
                 0x20 :: 0x55 :: lo :: hi :: 0x20 :: 0x74 :: lh :: ll :: 70 :: 0x20 :: rest }).2.output
               ++ [0x14, 0x10] }
      lh ll rest hlh hll (by dsimp only; omega) (by dsimp only; omega) rfl
  refine ⟨?_, r6⟩
  rw [r7]
  dsimp only
  rw [w7]
  dsimp only
  have hread : readBytes
      (V2.writeFlash (256 * lh + ll) s
        { e with input := data ++
          0x20 :: 0x55 :: lo :: hi :: 0x20 :: 0x74 :: lh :: ll :: 70 :: 0x20 :: rest }).2.mem
      (lo + 256 * hi) ((256 * lh + ll + 1) / 2) = data := by
    rw [← haddr]
    apply readBytes_data
    · rw [hdata]
      omega
    · intro k hk
      rw [w9 (2 * s.address + k)]
      rw [if_pos ⟨by omega, by omega⟩]
      have hk2 : 2 * s.address + k - 2 * s.address = k := by omega
      rw [hk2, buffWrite_get data s.buff 0 k]
      rw [if_pos ⟨by omega, by omega⟩]
      simp
    · exact hbytes
  rw [hread]
  simp [List.append_assoc]

/-- Claim C4, witness for the amended theorem: write `[7, 9]` at word
address 1, reset the address, read 2 bytes back, and receive `[7, 9]`. -/
theorem C4_corrected_witness :
    (V2.avrisp (V2.avrisp (V2.avrisp (st2T 32 1)
          (mkEff (0x64 :: 0 :: 2 :: 70 :: ([7, 9] ++
            0x20 :: 0x55 :: 1 :: 0 :: 0x20 :: 0x74 :: 0 :: 2 :: 70 :: 0x20 :: [])))).1
        (V2.avrisp (st2T 32 1)
          (mkEff (0x64 :: 0 :: 2 :: 70 :: ([7, 9] ++
            0x20 :: 0x55 :: 1 :: 0 :: 0x20 :: 0x74 :: 0 :: 2 :: 70 :: 0x20 :: [])))).2).1
      (V2.avrisp (V2.avrisp (st2T 32 1)
          (mkEff (0x64 :: 0 :: 2 :: 70 :: ([7, 9] ++
            0x20 :: 0x55 :: 1 :: 0 :: 0x20 :: 0x74 :: 0 :: 2 :: 70 :: 0x20 :: [])))).1
        (V2.avrisp (st2T 32 1)
          (mkEff (0x64 :: 0 :: 2 :: 70 :: ([7, 9] ++
            0x20 :: 0x55 :: 1 :: 0 :: 0x20 :: 0x74 :: 0 :: 2 :: 70 :: 0x20 :: [])))).2).2).2.output =
      (mkEff (0x64 :: 0 :: 2 :: 70 :: ([7, 9] ++
        0x20 :: 0x55 :: 1 :: 0 :: 0x20 :: 0x74 :: 0 :: 2 :: 70 :: 0x20 :: []))).output ++
        [0x14, 0x10] ++ [0x14, 0x10] ++ ([0x14] ++ [7, 9] ++ [0x10]) ∧
    (V2.avrisp (V2.avrisp (V2.avrisp (st2T 32 1)
          (mkEff (0x64 :: 0 :: 2 :: 70 :: ([7, 9] ++
            0x20 :: 0x55 :: 1 :: 0 :: 0x20 :: 0x74 :: 0 :: 2 :: 70 :: 0x20 :: [])))).1
        (V2.avrisp (st2T 32 1)
          (mkEff (0x64 :: 0 :: 2 :: 70 :: ([7, 9] ++
            0x20 :: 0x55 :: 1 :: 0 :: 0x20 :: 0x74 :: 0 :: 2 :: 70 :: 0x20 :: [])))).2).1
      (V2.avrisp (V2.avrisp (st2T 32 1)
          (mkEff (0x64 :: 0 :: 2 :: 70 :: ([7, 9] ++
            0x20 :: 0x55 :: 1 :: 0 :: 0x20 :: 0x74 :: 0 :: 2 :: 70 :: 0x20 :: [])))).1
        (V2.avrisp (st2T 32 1)
          (mkEff (0x64 :: 0 :: 2 :: 70 :: ([7, 9] ++
            0x20 :: 0x55 :: 1 :: 0 :: 0x20 :: 0x74 :: 0 :: 2 :: 70 :: 0x20 :: [])))).2).2).2.input
      = [] :=
  C4_corrected (st2T 32 1)
    (mkEff (0x64 :: 0 :: 2 :: 70 :: ([7, 9] ++
      0x20 :: 0x55 :: 1 :: 0 :: 0x20 :: 0x74 :: 0 :: 2 :: 70 :: 0x20 :: [])))
    0 2 1 0 [7, 9] []
    (by decide) (by decide) (by decide) (by decide) (by decide) (by decide)
    (by decide) (by decide) (by decide) (by decide) rfl

end ArduinoISP
